import Mathlib

/-!
# CrossChain-Bridge: verification engine, memo decoder, signing and chain id

A shallow embedding of `tokens/eth/verifytx.go` (transaction verification and the
ABI memo decoder), `worker/verify.go` (the verification workers),
`tokens/router/signtx.go` (signing through the MPC service) and the chain-id
verification of `tokens/eth/bridge.go`, with the properties of the design document
stated and proved over it.

Conventions of the embedding.

* A Go `[]byte` is a `List UInt8`; a Go `uint64` is a `Nat` reduced `% 2 ^ 64`
  wherever the source computes with it; a `*big.Int` is an `Int`.
* A Go pointer that the source tests against `nil` or dereferences is an `Option`.
* A function that can abort with a nil dereference returns `Option`: `none` is the
  abort, `some r` is the value returned to the caller.
* A Go `error` is `Option Error`: `none` is `nil`.
* The document store (package `mongodb`) and the byte helpers of package `common` are
  not among the sources; their definitions are marked as modelled from the
  specification. Constants and functions of package `tokens` are parameters of
  `Bridge`; the gateway, the signing service and the signer are parameters of
  `RouterBridge` and `EthBridge`.
* A retry loop is followed for a given number of rounds (`fuel`); a call ends as an
  `Outcome`: returned, aborted by a panic, or still waiting.
* The byte helpers are given twice: `GetData` reads with unbounded arithmetic and is
  used where every read is a word or lies inside the data; `GetDataGo` computes in
  `uint64` and `int` as Go does, panic included, and the two agree for every size
  below `2 ^ 63`.
-/

namespace CCB

/-! ## Bytes and the `common` helpers -/

/-- The constant `2 ^ 64`: the number of values of a Go `uint64`. -/
def uint64Size : Nat := 2 ^ 64

/-- Go `new(big.Int).SetBytes(b)`: the big-endian unsigned value of a byte string. -/
def bytesToNat (b : List UInt8) : Nat :=
  b.foldl (fun acc x => acc * 256 + x.toNat) 0

/-- Go `string(b)` for a byte slice: the string with exactly those bytes, each byte
kept as one character of the same code. -/
def string (b : List UInt8) : String :=
  String.mk (b.map (fun x => Char.ofNat x.toNat))

/-- Modelled from the spec: `common.RightPadBytes` is not among the sources. The slice
followed by zero bytes up to `l` bytes (unchanged when it is already that long). -/
def RightPadBytes (slice : List UInt8) (l : Nat) : List UInt8 :=
  slice ++ List.replicate (l - slice.length) 0

/-- Modelled from the spec: `common.GetData` is not among the sources. The bytes
`data[start : start+size]` of the 32-byte-aligned encoding, where `start` and the end
are clamped to `len(data)` and the result is right-padded with zeros to `size`
bytes, so that a read past the end yields zeros and never fails. This is the helper
without the limits of machine arithmetic: it agrees with `GetDataGo`, the helper in
`uint64` arithmetic, on every Go byte string for every size below `2 ^ 63` (lemma
`GetDataGo_eq_GetData`), which covers every read of a word and every read inside the
data; a size from `2 ^ 63` on is settled on `GetDataGo`. -/
def GetData (data : List UInt8) (start size : Nat) : List UInt8 :=
  let length := data.length
  let start := if start > length then length else start
  let stop := start + size
  let stop := if stop > length then length else stop
  RightPadBytes ((data.drop start).take (stop - start)) size

/-- Modelled from the spec: `common.GetBigInt` is not among the sources. The
big-endian unsigned integer held in `data[start : start+size]`. -/
def GetBigInt (data : List UInt8) (start size : Nat) : Int :=
  Int.ofNat (bytesToNat (GetData data start size))

/-- Modelled from the spec: `common.GetUint64` is not among the sources. The word
`data[start : start+size]` as a `uint64` (its low 64 bits) and the overflow flag,
set when the word does not fit in 64 bits. -/
def GetUint64 (data : List UInt8) (start size : Nat) : Nat × Bool :=
  let bn := GetBigInt data start size
  (bn.toNat % uint64Size, decide (uint64Size ≤ bn.toNat))

/-! ## Errors -/

/-- The error values of package `tokens` that verification returns, and `other` for
every other error (`fmt.Errorf`, store and transport errors). -/
inductive Error where
  | ErrTxNotFound
  | ErrTxWithWrongReceipt
  | ErrTxNotStable
  | ErrTxWithWrongReceiver
  | ErrTxWithWrongSender
  | ErrTxWithWrongInput
  | ErrTxWithWrongValue
  | ErrTxWithWrongMemo
  | other (msg : String)
  deriving DecidableEq, Repr

/-! ## The memo decoder (`tokens/eth/verifytx.go`) -/

/-- The function `parseEncodedData`: decode `(uint256 value, string bind)`. The result
is `(bind, value, err)`; `value` is `none` where the source returns a nil `*big.Int`. -/
def parseEncodedData (encData : List UInt8) : String × Option Int × Option Error :=
  if encData.length < 96 then
    ("", none, some (Error.other "wrong lenght of encoded data"))
  else
    let value := GetBigInt encData 0 32
    let offset := (GetUint64 encData 32 32).1
    let overflow := (GetUint64 encData 32 32).2
    if overflow then
      ("", none, some (Error.other "string offset overflow"))
    else
      let length := (GetUint64 encData offset 32).1
      let overflow := (GetUint64 encData offset 32).2
      if overflow then
        ("", none, some (Error.other "string length overflow"))
      else
        let bind := string (GetData encData ((offset + 32) % uint64Size) length)
        (bind, some value, none)

/-! ## Strings -/

/-- Go `strings.ToLower` on the letters `A` to `Z` (addresses, hashes and identifiers
are ASCII text). Letters outside ASCII that Go folds as well, such as U+212A, are
left as they are: the definition stands for `strings.ToLower` on ASCII text only. -/
def ToLower (s : String) : String :=
  String.mk (s.data.map Char.toLower)

/-- Modelled from the spec: `common.IsEqualIgnoreCase` is not among the sources. Equality
of two strings ignoring letter case. -/
def IsEqualIgnoreCase (s1 s2 : String) : Bool :=
  ToLower s1 == ToLower s2

/-! ## Data of packages `types` and `tokens` -/

/-- The fields of `types.RPCLog` that verification reads. `Topics` holds each topic as
rendered by `Hash.String()`. -/
structure RPCLog where
  Removed : Option Bool
  Topics : List String
  Data : Option (List UInt8)
  deriving DecidableEq, Repr

/-- The fields of `types.RPCTxReceipt` that verification reads. `Status` is a pointer the
source dereferences, `Recipient` a pointer it tests against nil; addresses and
hashes are held as rendered by `String()`; `BlockNumber` is a big integer. -/
structure RPCTxReceipt where
  Status : Option Nat
  BlockNumber : Nat
  BlockHash : String
  From : String
  Recipient : Option String
  Logs : List RPCLog
  deriving DecidableEq, Repr

/-- The fields of `types.RPCTransaction` that verification reads. -/
structure RPCTransaction where
  BlockNumber : Option Nat
  From : String
  Recipient : Option String
  Amount : Option Int
  Payload : Option (List UInt8)
  deriving DecidableEq, Repr

/-- The field of `types.RPCBlock` that verification reads. -/
structure RPCBlock where
  Time : Nat
  deriving DecidableEq, Repr

/-- The struct `tokens.TxStatus`; its zero value is the default. `Receipt` is the
`interface{}` field, `none` when nil. -/
structure TxStatus where
  Receipt : Option RPCTxReceipt := none
  Confirmations : Nat := 0
  BlockHeight : Nat := 0
  BlockHash : String := ""
  BlockTime : Nat := 0
  deriving DecidableEq, Repr

/-- The struct `tokens.TxSwapInfo`; its zero value is the default. `Value` is a
`*big.Int`. -/
structure TxSwapInfo where
  Hash : String := ""
  Height : Nat := 0
  Timestamp : Nat := 0
  From : String := ""
  To : String := ""
  Bind : String := ""
  Value : Option Int := none
  deriving DecidableEq, Repr

/-- The fields of `tokens.TokenConfig` that verification reads. `Confirmations` is a
pointer the source dereferences. -/
structure TokenConfig where
  ID : String
  DcrmAddress : String
  ContractAddress : String
  Confirmations : Option Nat

/-- The EVM adapter `eth.Bridge` as verification sees it: its configuration, the
answers of the chain gateway (`none` is a failed call), and the parts of package
`tokens` that are not among the sources and are taken as parameters: the constants
`LogSwapoutTopic` and `SwapoutFuncHash`, the policy `CheckSwapValue`, the address
check of `tokens.SrcBridge`, and the ERC-20 variant of swapin verification. -/
structure Bridge where
  TokenConfig : TokenConfig
  IsSrc : Bool
  GetTransactionByHash : String → Option RPCTransaction
  GetTransactionReceipt : String → Option RPCTxReceipt
  GetBlockByHash : String → Option RPCBlock
  GetLatestBlockNumber : Option Nat
  LogSwapoutTopic : String
  SwapoutFuncHash : List UInt8
  CheckSwapValue : Option Int → Bool → Bool
  SrcIsValidAddress : String → Bool
  verifyErc20SwapinTx : String → Bool → Option (TxSwapInfo × Option Error)

/-! ## Transaction status (`tokens/eth/verifytx.go`) -/

/-- The method `Bridge.GetTransactionStatus`. A big integer is cut to `uint64` by
`Uint64()`, and `latest - BlockHeight` is a `uint64` subtraction. The result is
`none` when the receipt has no `Status` (nil dereference). -/
def GetTransactionStatus (b : Bridge) (txHash : String) : Option TxStatus :=
  let txStatus : TxStatus := {}
  match b.GetTransactionReceipt txHash with
  | none => some txStatus
  | some txr =>
    match txr.Status with
    | none => none
    | some status =>
      let txStatus := { txStatus with BlockHeight := txr.BlockNumber % uint64Size }
      let txStatus := { txStatus with BlockHash := txr.BlockHash }
      let txStatus :=
        match b.GetBlockByHash txStatus.BlockHash with
        | some block => { txStatus with BlockTime := block.Time % uint64Size }
        | none => txStatus
      let txStatus :=
        if status = 1 then
          match b.GetLatestBlockNumber with
          | some latest =>
            { txStatus with
              Confirmations := (latest % uint64Size + uint64Size - txStatus.BlockHeight)
                % uint64Size }
          | none => txStatus
        else txStatus
      some { txStatus with Receipt := some txr }

/-! ## Swapout verification (`tokens/eth/verifytx.go`) -/

/-- The function `parseSwapoutTxLogs`: decode the first log that is not removed, has
two topics and data, and whose first topic is `LogSwapoutTopic`. -/
def parseSwapoutTxLogs (LogSwapoutTopic : String) :
    List RPCLog → String × Option Int × Option Error
  | [] => ("", none, some (Error.other "swapout log not found or removed"))
  | log :: logs =>
    if log.Removed = some true then
      parseSwapoutTxLogs LogSwapoutTopic logs
    else if log.Topics.length ≠ 2 ∨ log.Data = none then
      parseSwapoutTxLogs LogSwapoutTopic logs
    else if log.Topics.head? ≠ some LogSwapoutTopic then
      parseSwapoutTxLogs LogSwapoutTopic logs
    else
      parseEncodedData (log.Data.getD [])

/-- The function `parseSwapoutTxInput`: the call data must start with
`SwapoutFuncHash`; the rest is decoded by `parseEncodedData`. -/
def parseSwapoutTxInput (SwapoutFuncHash : List UInt8) (input : Option (List UInt8)) :
    String × Option Int × Option Error :=
  match input with
  | none => ("", none, some (Error.other "empty tx input"))
  | some data =>
    if data.length < 4 then
      ("", none, some (Error.other "wrong tx input"))
    else
      let funcHash := data.take 4
      if funcHash ≠ SwapoutFuncHash then
        ("", none, some (Error.other "wrong func hash"))
      else
        let encData := data.drop 4
        parseEncodedData encData

/-- The method `Bridge.verifySwapoutTxStable`: receipt, stability, receiver, log input,
sender, value, memo — in the order of the source. The result is `none` when the
source dereferences a nil `Status` or a nil `Confirmations`. -/
def verifySwapoutTxStable (b : Bridge) (txHash : String) :
    Option (TxSwapInfo × Option Error) :=
  let swapInfo : TxSwapInfo := {}
  let swapInfo := { swapInfo with Hash := txHash }
  let token := b.TokenConfig
  let dcrmAddress := token.DcrmAddress
  match GetTransactionStatus b txHash with
  | none => none
  | some txStatus =>
    let swapInfo := { swapInfo with Height := txStatus.BlockHeight }
    let swapInfo := { swapInfo with Timestamp := txStatus.BlockTime }
    match txStatus.Receipt with
    | none => some (swapInfo, some Error.ErrTxWithWrongReceipt)
    | some receipt =>
      match receipt.Status with
      | none => none
      | some status =>
        if status ≠ 1 then
          some (swapInfo, some Error.ErrTxWithWrongReceipt)
        else if txStatus.BlockHeight = 0 then
          some (swapInfo, some Error.ErrTxNotStable)
        else
          match token.Confirmations with
          | none => none
          | some required =>
            if txStatus.Confirmations < required then
              some (swapInfo, some Error.ErrTxNotStable)
            else
              let swapInfo :=
                match receipt.Recipient with
                | some r => { swapInfo with To := ToLower r }
                | none => swapInfo
              let swapInfo := { swapInfo with From := ToLower receipt.From }
              let contractAddress := token.ContractAddress
              if !IsEqualIgnoreCase swapInfo.To contractAddress then
                some (swapInfo, some Error.ErrTxWithWrongReceiver)
              else
                let parsed := parseSwapoutTxLogs b.LogSwapoutTopic receipt.Logs
                if parsed.2.2 ≠ none then
                  some (swapInfo, some Error.ErrTxWithWrongInput)
                else
                  let swapInfo := { swapInfo with Bind := parsed.1 }
                  let swapInfo := { swapInfo with Value := parsed.2.1 }
                  if IsEqualIgnoreCase swapInfo.From dcrmAddress then
                    some (swapInfo, some Error.ErrTxWithWrongSender)
                  else if !b.CheckSwapValue swapInfo.Value b.IsSrc then
                    some (swapInfo, some Error.ErrTxWithWrongValue)
                  else if !b.SrcIsValidAddress swapInfo.Bind then
                    some (swapInfo, some Error.ErrTxWithWrongMemo)
                  else
                    some (swapInfo, none)

/-- The method `Bridge.verifySwapoutTxUnstable`: receiver, sender, call data, value,
memo, without receipt or stability checks. -/
def verifySwapoutTxUnstable (b : Bridge) (txHash : String) : TxSwapInfo × Option Error :=
  let swapInfo : TxSwapInfo := {}
  let swapInfo := { swapInfo with Hash := txHash }
  match b.GetTransactionByHash txHash with
  | none => (swapInfo, some Error.ErrTxNotFound)
  | some tx =>
    let swapInfo :=
      match tx.BlockNumber with
      | some n => { swapInfo with Height := n % uint64Size }
      | none => swapInfo
    let swapInfo :=
      match tx.Recipient with
      | some r => { swapInfo with To := ToLower r }
      | none => swapInfo
    let swapInfo := { swapInfo with From := ToLower tx.From }
    let token := b.TokenConfig
    let contractAddress := token.ContractAddress
    if !IsEqualIgnoreCase swapInfo.To contractAddress then
      (swapInfo, some Error.ErrTxWithWrongReceiver)
    else
      let dcrmAddress := token.DcrmAddress
      if IsEqualIgnoreCase swapInfo.From dcrmAddress then
        (swapInfo, some Error.ErrTxWithWrongSender)
      else
        let parsed := parseSwapoutTxInput b.SwapoutFuncHash tx.Payload
        if parsed.2.2 ≠ none then
          (swapInfo, some Error.ErrTxWithWrongInput)
        else
          let swapInfo := { swapInfo with Bind := parsed.1 }
          let swapInfo := { swapInfo with Value := parsed.2.1 }
          if !b.CheckSwapValue swapInfo.Value b.IsSrc then
            (swapInfo, some Error.ErrTxWithWrongValue)
          else if !b.SrcIsValidAddress swapInfo.Bind then
            (swapInfo, some Error.ErrTxWithWrongMemo)
          else
            (swapInfo, none)

/-- The method `Bridge.verifySwapoutTx`. -/
def verifySwapoutTx (b : Bridge) (txHash : String) (allowUnstable : Bool) :
    Option (TxSwapInfo × Option Error) :=
  if allowUnstable then
    some (verifySwapoutTxUnstable b txHash)
  else
    verifySwapoutTxStable b txHash

/-! ## Swapin verification (`tokens/eth/verifytx.go`) -/

/-- The tail of `verifySwapinTx`, the statements after the `if !allowUnstable` block:
receiver, sender, value. -/
def verifySwapinTxChecks (b : Bridge) (swapInfo : TxSwapInfo) : TxSwapInfo × Option Error :=
  let dcrmAddress := b.TokenConfig.DcrmAddress
  if !IsEqualIgnoreCase swapInfo.To dcrmAddress then
    (swapInfo, some Error.ErrTxWithWrongReceiver)
  else if IsEqualIgnoreCase swapInfo.From dcrmAddress then
    (swapInfo, some Error.ErrTxWithWrongSender)
  else if !b.CheckSwapValue swapInfo.Value b.IsSrc then
    (swapInfo, some Error.ErrTxWithWrongValue)
  else
    (swapInfo, none)

/-- The method `Bridge.verifySwapinTx`. The result is `none` when the source dereferences
a nil `Status` or a nil `Confirmations`. -/
def verifySwapinTx (b : Bridge) (txHash : String) (allowUnstable : Bool) :
    Option (TxSwapInfo × Option Error) :=
  if b.TokenConfig.ID = "ERC20" then
    b.verifyErc20SwapinTx txHash allowUnstable
  else
    let swapInfo : TxSwapInfo := {}
    let swapInfo := { swapInfo with Hash := txHash }
    let token := b.TokenConfig
    match b.GetTransactionByHash txHash with
    | none => some (swapInfo, some Error.ErrTxNotFound)
    | some tx =>
      let swapInfo :=
        match tx.BlockNumber with
        | some n => { swapInfo with Height := n % uint64Size }
        | none => swapInfo
      let swapInfo :=
        match tx.Recipient with
        | some r => { swapInfo with To := ToLower r }
        | none => swapInfo
      let swapInfo := { swapInfo with From := ToLower tx.From }
      let swapInfo := { swapInfo with Bind := swapInfo.From }
      let swapInfo := { swapInfo with Value := tx.Amount }
      if !allowUnstable then
        match GetTransactionStatus b txHash with
        | none => none
        | some txStatus =>
          let swapInfo := { swapInfo with Height := txStatus.BlockHeight }
          let swapInfo := { swapInfo with Timestamp := txStatus.BlockTime }
          match txStatus.Receipt with
          | none => some (swapInfo, some Error.ErrTxWithWrongReceipt)
          | some receipt =>
            match receipt.Status with
            | none => none
            | some status =>
              if status ≠ 1 then
                some (swapInfo, some Error.ErrTxWithWrongReceipt)
              else if txStatus.BlockHeight = 0 then
                some (swapInfo, some Error.ErrTxNotStable)
              else
                match token.Confirmations with
                | none => none
                | some required =>
                  if txStatus.Confirmations < required then
                    some (swapInfo, some Error.ErrTxNotStable)
                  else
                    some (verifySwapinTxChecks b swapInfo)
      else
        some (verifySwapinTxChecks b swapInfo)

/-- The method `Bridge.VerifyTransaction`: dispatch on the side of the bridge. -/
def VerifyTransaction (b : Bridge) (txHash : String) (allowUnstable : Bool) :
    Option (TxSwapInfo × Option Error) :=
  if !b.IsSrc then
    verifySwapoutTx b txHash allowUnstable
  else
    verifySwapinTx b txHash allowUnstable

/-! ## The swap record store (package `mongodb`) -/

/-- Modelled from the spec: the status enumeration `mongodb.SwapStatus` is not among the
sources; these are the states of the data model. -/
inductive SwapStatus where
  | TxNotStable
  | TxVerifyFailed
  | TxCanRecall
  | TxNotSwapped
  | TxProcessing
  | TxSwapped
  | TxSwapFailed
  deriving DecidableEq, Repr

/-- Modelled from the spec: the pending record `mongodb.MgoSwap` is not among the sources;
identity `TxId` (one collection per direction), originator, recipient, amount, memo,
status and the two timestamps. -/
structure MgoSwap where
  TxId : String
  From : String := ""
  Bind : String := ""
  Value : String := ""
  Memo : String := ""
  Status : SwapStatus
  CreateTime : Int := 0
  Timestamp : Int := 0
  deriving DecidableEq, Repr

/-- Modelled from the spec: the result record `mongodb.MgoSwapResult` is not among the
sources; its fields are those of the projection `swapapi.SwapInfo`, without the
status and confirmation count that the verification engine never writes. -/
structure MgoSwapResult where
  TxId : String
  TxHeight : Nat := 0
  TxTime : Nat := 0
  From : String := ""
  To : String := ""
  Bind : String := ""
  Value : Option Int := none
  SwapTx : String := ""
  SwapHeight : Nat := 0
  SwapTime : Nat := 0
  SwapValue : Option Int := none
  SwapType : Nat := 0
  Timestamp : Int := 0
  Memo : String := ""
  deriving DecidableEq, Repr

/-- Modelled from the spec: the document store is not among the sources. Two collections
of pending records and two of result records, one per direction. -/
structure Store where
  Swapins : List MgoSwap := []
  Swapouts : List MgoSwap := []
  SwapinResults : List MgoSwapResult := []
  SwapoutResults : List MgoSwapResult := []
  deriving DecidableEq, Repr

/-- Modelled from the spec: the status graph of the data model gives each status the
status a record must be in to move there, which is the prior status a caller of the
status update expects: `TxNotStable` is initial; `TxNotSwapped`, `TxCanRecall` and
`TxVerifyFailed` follow `TxNotStable`; `TxProcessing` follows `TxNotSwapped`;
`TxSwapped` and `TxSwapFailed` follow `TxProcessing`. -/
def priorStatus : SwapStatus → Option SwapStatus
  | SwapStatus.TxNotStable => none
  | SwapStatus.TxVerifyFailed => some SwapStatus.TxNotStable
  | SwapStatus.TxCanRecall => some SwapStatus.TxNotStable
  | SwapStatus.TxNotSwapped => some SwapStatus.TxNotStable
  | SwapStatus.TxProcessing => some SwapStatus.TxNotSwapped
  | SwapStatus.TxSwapped => some SwapStatus.TxProcessing
  | SwapStatus.TxSwapFailed => some SwapStatus.TxProcessing

/-- Modelled from the spec: the status update behind `mongodb.UpdateSwapinStatus` and
`mongodb.UpdateSwapoutStatus` is not among the sources. It is a conditional write
keyed by `TxId` and by the current status: it sets status, timestamp and memo of the
record under the key that is in the prior status of the transition, and fails,
changing nothing, when there is no such record. -/
def updateSwapStatus (coll : List MgoSwap) (txid : String) (status : SwapStatus)
    (timestamp : Int) (memo : String) : Option Error × List MgoSwap :=
  if coll.any (fun s => decide (s.TxId = txid ∧ some s.Status = priorStatus status)) then
    (none, coll.map (fun s =>
      if s.TxId = txid ∧ some s.Status = priorStatus status then
        { s with Status := status, Timestamp := timestamp, Memo := memo }
      else s))
  else
    (some (Error.other "not found"), coll)

/-- Modelled from the spec: `mongodb.UpdateSwapinStatus(txID, newStatus, timestamp, memo)`. -/
def UpdateSwapinStatus (db : Store) (txid : String) (status : SwapStatus)
    (timestamp : Int) (memo : String) : Option Error × Store :=
  let r := updateSwapStatus db.Swapins txid status timestamp memo
  (r.1, { db with Swapins := r.2 })

/-- Modelled from the spec: `mongodb.UpdateSwapoutStatus(txID, newStatus, timestamp, memo)`. -/
def UpdateSwapoutStatus (db : Store) (txid : String) (status : SwapStatus)
    (timestamp : Int) (memo : String) : Option Error × Store :=
  let r := updateSwapStatus db.Swapouts txid status timestamp memo
  (r.1, { db with Swapouts := r.2 })

/-- Modelled from the spec: the insert of a result record is not among the sources. A key
occurs at most once in a collection: inserting a second record under a key fails
and changes nothing. -/
def addSwapResult (coll : List MgoSwapResult) (r : MgoSwapResult) :
    Option Error × List MgoSwapResult :=
  if coll.any (fun x => x.TxId = r.TxId) then
    (some (Error.other "duplicate key"), coll)
  else
    (none, coll ++ [r])

/-- Modelled from the spec: the initial result record that `addInitialSwapinResult` and
`addInitialSwapoutResult` (not among the sources) build from a `TxSwapInfo`: the
source-side fields are those of the swap info, the outbound fields are empty. -/
def initialSwapResult (swapInfo : TxSwapInfo) (swapType : Nat) (timestamp : Int) :
    MgoSwapResult :=
  { TxId := swapInfo.Hash, TxHeight := swapInfo.Height, TxTime := swapInfo.Timestamp,
    From := swapInfo.From, To := swapInfo.To, Bind := swapInfo.Bind,
    Value := swapInfo.Value, SwapType := swapType, Timestamp := timestamp }

/-- Modelled from the spec: `addInitialSwapinResult(swapInfo)` is not among the sources. It
inserts the initial swapin result built from the swap info. -/
def addInitialSwapinResult (db : Store) (swapInfo : TxSwapInfo) (timestamp : Int) :
    Option Error × Store :=
  let r := addSwapResult db.SwapinResults (initialSwapResult swapInfo 1 timestamp)
  (r.1, { db with SwapinResults := r.2 })

/-- Modelled from the spec: `addInitialSwapoutResult(swapInfo)` is not among the sources. It
inserts the initial swapout result built from the swap info. -/
def addInitialSwapoutResult (db : Store) (swapInfo : TxSwapInfo) (timestamp : Int) :
    Option Error × Store :=
  let r := addSwapResult db.SwapoutResults (initialSwapResult swapInfo 2 timestamp)
  (r.1, { db with SwapoutResults := r.2 })

/-- Modelled from the spec: the status-filtered query behind `mongodb.FindSwapinsWithStatus`
and `mongodb.FindSwapoutsWithStatus` is not among the sources. The records in the
given status that were not updated more recently than `septime`. -/
def findSwapsWithStatus (coll : List MgoSwap) (status : SwapStatus) (septime : Int) :
    List MgoSwap :=
  coll.filter (fun s => decide (s.Status = status) && decide (s.Timestamp ≤ septime))

/-- Modelled from the spec: `mongodb.FindSwapinsWithStatus(status, updatedBefore)`. -/
def FindSwapinsWithStatus (db : Store) (status : SwapStatus) (septime : Int) : List MgoSwap :=
  findSwapsWithStatus db.Swapins status septime

/-- Modelled from the spec: `mongodb.FindSwapoutsWithStatus(status, updatedBefore)`. -/
def FindSwapoutsWithStatus (db : Store) (status : SwapStatus) (septime : Int) : List MgoSwap :=
  findSwapsWithStatus db.Swapouts status septime

/-! ## The verification workers (`worker/verify.go`) -/

/-- The function `findSwapinsToVerify`; `septime` is the value of
`getSepTimeInFind(maxVerifyLifetime)`. -/
def findSwapinsToVerify (db : Store) (septime : Int) : List MgoSwap :=
  let status := SwapStatus.TxNotStable
  FindSwapinsWithStatus db status septime

/-- The function `findSwapoutsToVerify`. -/
def findSwapoutsToVerify (db : Store) (septime : Int) : List MgoSwap :=
  let status := SwapStatus.TxNotStable
  FindSwapoutsWithStatus db status septime

/-- The function `processSwapinVerify`. `SrcBridge` is the answer of
`SrcBridge.VerifyTransaction`, `now` the value of `now()`, `db` the store before
the call; the result is the returned error and the store after the call. -/
def processSwapinVerify (SrcBridge : String → TxSwapInfo × Option Error) (now : Int)
    (db : Store) (swap : MgoSwap) : Option Error × Store :=
  let txid := swap.TxId
  let swapInfo := (SrcBridge txid).1
  let err := (SrcBridge txid).2
  if err = some Error.ErrTxNotStable then
    (err, db)
  else if err = some Error.ErrTxWithWrongMemo then
    let upd := UpdateSwapinStatus db txid SwapStatus.TxCanRecall now ""
    if upd.1 ≠ none then
      upd
    else
      addInitialSwapinResult upd.2 swapInfo now
  else if err = none then
    let upd := UpdateSwapinStatus db txid SwapStatus.TxNotSwapped now ""
    if upd.1 ≠ none then
      upd
    else
      addInitialSwapinResult upd.2 swapInfo now
  else
    UpdateSwapinStatus db txid SwapStatus.TxVerifyFailed now ""

/-- The function `processSwapoutVerify`, with `DstBridge` the answer of
`DstBridge.VerifyTransaction`. -/
def processSwapoutVerify (DstBridge : String → TxSwapInfo × Option Error) (now : Int)
    (db : Store) (swap : MgoSwap) : Option Error × Store :=
  let txid := swap.TxId
  let swapInfo := (DstBridge txid).1
  let err := (DstBridge txid).2
  if err = some Error.ErrTxNotStable then
    (err, db)
  else if err = some Error.ErrTxWithWrongMemo then
    let upd := UpdateSwapoutStatus db txid SwapStatus.TxCanRecall now ""
    if upd.1 ≠ none then
      upd
    else
      addInitialSwapoutResult upd.2 swapInfo now
  else if err = none then
    let upd := UpdateSwapoutStatus db txid SwapStatus.TxNotSwapped now ""
    if upd.1 ≠ none then
      upd
    else
      addInitialSwapoutResult upd.2 swapInfo now
  else
    UpdateSwapoutStatus db txid SwapStatus.TxVerifyFailed now ""

/-- The store invariant of the data model on one direction: every result record has a
pending record of the same key whose status is neither `TxNotStable` nor
`TxVerifyFailed`. -/
def resultsHaveVerifiedSwap (swaps : List MgoSwap) (results : List MgoSwapResult) : Bool :=
  results.all (fun r => swaps.any (fun s =>
    decide (s.TxId = r.TxId) && decide (s.Status ≠ SwapStatus.TxNotStable)
      && decide (s.Status ≠ SwapStatus.TxVerifyFailed)))

/-- The store invariant on both directions. -/
def StoreInvariant (db : Store) : Prop :=
  resultsHaveVerifiedSwap db.Swapins db.SwapinResults = true ∧
    resultsHaveVerifiedSwap db.Swapouts db.SwapoutResults = true

instance (db : Store) : Decidable (StoreInvariant db) := by
  unfold StoreInvariant; infer_instance

/-- No record under the key `txid` is awaiting verification: the stored status of the key
is not `TxNotStable`. -/
def keySettled (coll : List MgoSwap) (txid : String) : Prop :=
  ∀ s ∈ coll, s.TxId = txid → s.Status ≠ SwapStatus.TxNotStable

/-! ## The ABI encoding of the specification -/

/-- The `n`-byte big-endian representation of `v` (its low `n` bytes). -/
def toBytesBE : Nat → Nat → List UInt8
  | 0, _ => []
  | n + 1, v => toBytesBE n (v / 256) ++ [UInt8.ofNat (v % 256)]

/-- The number of zero bytes that pad `len` bytes to a multiple of 32. -/
def padLen (len : Nat) : Nat := (32 - len % 32) % 32

/-- The standard ABI encoding of `(uint256 value, string bind)` as the specification
words it: the 32-byte big-endian value, a 32-byte word holding the offset 64, the
32-byte big-endian length of `bind`, then the bytes of `bind` right-padded with
zeros to a multiple of 32. -/
def encode (value : Nat) (bind : List UInt8) : List UInt8 :=
  toBytesBE 32 value ++ toBytesBE 32 64 ++ toBytesBE 32 bind.length ++ bind
    ++ List.replicate (padLen bind.length) 0

/-! ## Reading the encoded memo -/

/-- The 32-byte big-endian word that `common.GetUint64` and `common.GetBigInt` read at
byte `offset` of `data` (bytes past the end read as zero). -/
def wordAt (data : List UInt8) (offset : Nat) : Nat :=
  bytesToNat (GetData data offset 32)

/-- The test that `parseSwapoutTxLogs` makes on a log: not removed, exactly two topics,
data present, first topic equal to `LogSwapoutTopic`. -/
def isSwapoutLog (LogSwapoutTopic : String) (log : RPCLog) : Bool :=
  !decide (log.Removed = some true) && decide (log.Topics.length = 2)
    && log.Data.isSome && decide (log.Topics.head? = some LogSwapoutTopic)

/-! ## Letter case of addresses -/

/-- Two optional values are both absent, or both present and related. -/
def optionRel {α : Type} (R : α → α → Prop) : Option α → Option α → Prop
  | none, none => True
  | some a, some a' => R a a'
  | _, _ => False

/-- Two decodings `(bind, value, err)` agree up to the relation `bindRel` on the bind. -/
def decodedRel (bindRel : String → String → Prop)
    (p p' : String × Option Int × Option Error) : Prop :=
  bindRel p.1 p'.1 ∧ p'.2 = p.2

/-- Two receipts that differ at most in the letter case of `From` and `To` and, up to
`bindRel`, in the bind that their logs decode to. -/
structure receiptCaseEq (bindRel : String → String → Prop) (topic : String)
    (r r' : RPCTxReceipt) : Prop where
  status : r'.Status = r.Status
  blockNumber : r'.BlockNumber = r.BlockNumber
  blockHash : r'.BlockHash = r.BlockHash
  sender : ToLower r'.From = ToLower r.From
  recipient : r'.Recipient.map ToLower = r.Recipient.map ToLower
  logs : decodedRel bindRel (parseSwapoutTxLogs topic r.Logs) (parseSwapoutTxLogs topic r'.Logs)

/-- Two transactions that differ at most in the letter case of `From` and `To` and, up to
`bindRel`, in the bind that their call data decodes to. -/
structure txCaseEq (bindRel : String → String → Prop) (funcHash : List UInt8)
    (t t' : RPCTransaction) : Prop where
  blockNumber : t'.BlockNumber = t.BlockNumber
  sender : ToLower t'.From = ToLower t.From
  recipient : t'.Recipient.map ToLower = t.Recipient.map ToLower
  amount : t'.Amount = t.Amount
  payload : decodedRel bindRel (parseSwapoutTxInput funcHash t.Payload)
    (parseSwapoutTxInput funcHash t'.Payload)

/-- Two runs of verification on the transaction `txHash` that differ at most in the
letter case of the transaction's `From` and `To`, of the configured DCRM and
contract address and, up to `bindRel`, of the decoded bind. -/
structure bridgeCaseEq (bindRel : String → String → Prop) (b b' : Bridge)
    (txHash : String) : Prop where
  id : b'.TokenConfig.ID = b.TokenConfig.ID
  confirmations : b'.TokenConfig.Confirmations = b.TokenConfig.Confirmations
  dcrm : ToLower b'.TokenConfig.DcrmAddress = ToLower b.TokenConfig.DcrmAddress
  contract : ToLower b'.TokenConfig.ContractAddress = ToLower b.TokenConfig.ContractAddress
  isSrc : b'.IsSrc = b.IsSrc
  block : b'.GetBlockByHash = b.GetBlockByHash
  latest : b'.GetLatestBlockNumber = b.GetLatestBlockNumber
  topic : b'.LogSwapoutTopic = b.LogSwapoutTopic
  funcHash : b'.SwapoutFuncHash = b.SwapoutFuncHash
  checkValue : b'.CheckSwapValue = b.CheckSwapValue
  validAddress : b'.SrcIsValidAddress = b.SrcIsValidAddress
  receipt : optionRel (receiptCaseEq bindRel b.LogSwapoutTopic)
    (b.GetTransactionReceipt txHash) (b'.GetTransactionReceipt txHash)
  tx : optionRel (txCaseEq bindRel b.SwapoutFuncHash)
    (b.GetTransactionByHash txHash) (b'.GetTransactionByHash txHash)

/-- Two strings that differ in letter case only. -/
def sameIgnoringCase (s s' : String) : Prop := ToLower s = ToLower s'

/-! ## Signing (`tokens/router/signtx.go`) -/

/-- Go `strings.EqualFold` on ASCII text (rendered addresses are `0x` and hex digits):
equality ignoring letter case. -/
def EqualFold (s t : String) : Bool :=
  ToLower s == ToLower t

/-- The zero value `common.Address{}` as rendered by `String()`. -/
def zeroAddress : String := "0x0000000000000000000000000000000000000000"

/-- Modelled from the spec: the constant `crypto.SignatureLength` is not among the
sources; a signature `(r, s, v)` has 32 + 32 + 1 bytes. -/
def SignatureLength : Nat := 65

/-- Modelled from the spec: the type `types.Transaction` is not among the sources. The
receiver (nil for a contract creation), the nonce, the gas price and the payload of
the transaction, and the signature once one is attached. Addresses are held as
rendered by `String()`. -/
structure Transaction where
  To : Option String
  Nonce : Nat := 0
  GasPrice : Int := 0
  Data : List UInt8 := []
  Signature : Option (List UInt8) := none
  deriving DecidableEq, Repr

/-- The signer `types.Signer` of the adapter, not among the sources, as signing uses it:
the signing hash of a transaction (rendered by `String()`), the error with which a
signature is refused for a transaction (`none`: accepted), and the sender recovered
from a signed transaction or the error of the recovery. -/
structure Signer where
  Hash : Transaction → String
  SignatureError : Transaction → List UInt8 → Option Error
  Sender : Transaction → Except Error String

/-- Modelled from the spec: `Transaction.WithSignature` is not among the sources. It
attaches the signature to a copy of the transaction and changes nothing else; it
fails when the signer refuses the signature. -/
def WithSignature (tx : Transaction) (signer : Signer) (sig : List UInt8) :
    Except Error Transaction :=
  match signer.SignatureError tx sig with
  | some err => Except.error err
  | none => Except.ok { tx with Signature := some sig }

/-- Modelled from the spec: the type `tokens.EthExtraArgs` is not among the sources. The
gas price of the arguments (section 4.4, step 2), a number: the arguments reach
signing from the transaction builder with their gas price set. -/
structure EthExtraArgs where
  GasPrice : Int
  deriving DecidableEq, Repr

/-- Modelled from the spec: the type `tokens.AllExtras` is not among the sources; the
field that signing reads. -/
structure AllExtras where
  EthExtra : EthExtraArgs
  deriving DecidableEq, Repr

/-- Modelled from the spec: the type `tokens.BuildTxArgs` is not among the sources; the
fields that signing reads. -/
structure BuildTxArgs where
  SwapID : String
  Extra : AllExtras
  deriving DecidableEq, Repr

/-- Modelled from the spec: the type `tokens.ChainConfig` is not among the sources; the
fields that signing reads (`GetRouterMPC` and `GetRouterMPCPubkey` read the last
two). -/
structure ChainConfig where
  BlockChain : String
  RouterContract : String
  RouterMPC : String
  RouterMPCPubkey : String

/-- The router adapter `router.Bridge` as signing sees it: its configuration and signer,
and the collaborators that are not among the sources, taken as parameters: the gas
price query of the gateway, the signing service `dcrm.DoSignOne` (key id,
signatures, error), `json.Marshal` of the arguments, `common.FromHex`, and the hash
of a signed transaction rendered by `String()`. -/
structure RouterBridge where
  ChainConfig : ChainConfig
  Signer : Signer
  getGasPrice : Except Error Int
  DoSignOne : String → String → String → String × List String × Option Error
  Marshal : BuildTxArgs → String
  FromHex : String → List UInt8
  TxHash : Transaction → String

/-- A call that signing makes to a collaborator. -/
inductive Call where
  | getGasPrice
  | DoSignOne (pubkey msgHash msgContext : String)
  deriving DecidableEq, Repr

/-- What a call of `DcrmSignTransaction` leaves: the three results `signTx`, `txHash` and
`err`, the arguments `args` as the caller finds them afterwards (the function
writes through the pointer), and the calls made to the gateway and the signing
service, in order. -/
structure SignResult where
  signTx : Option Transaction
  txHash : String
  err : Option Error
  args : BuildTxArgs
  calls : List Call
  deriving DecidableEq, Repr

/-- The method `Bridge.verifyTransactionReceiver`; `rawTx` is `none` when the argument
is not a `*types.Transaction`. -/
def verifyTransactionReceiver (b : RouterBridge) (rawTx : Option Transaction) :
    Except Error Transaction :=
  match rawTx with
  | none => Except.error (Error.other "[sign] wrong raw tx param")
  | some tx =>
    if tx.To = none ∨ tx.To = some zeroAddress then
      Except.error (Error.other "[sign] tx receiver is empty")
    else
      let checkReceiver := b.ChainConfig.RouterContract
      if !EqualFold (tx.To.getD "") checkReceiver then
        Except.error (Error.other
          ("[sign] tx receiver mismatch. have " ++ tx.To.getD "" ++ " want " ++ checkReceiver))
      else
        Except.ok tx

/-- The gas floor of `DcrmSignTransaction`: the arguments after
`if err == nil && args.Extra.EthExtra.GasPrice.Cmp(gasPrice) < 0`. -/
def applyGasFloor (queried : Except Error Int) (args : BuildTxArgs) : BuildTxArgs :=
  match queried with
  | Except.ok gasPrice =>
    if args.Extra.EthExtra.GasPrice < gasPrice then
      { args with Extra := { args.Extra with EthExtra := { GasPrice := gasPrice } } }
    else args
  | Except.error _ => args

/-- The method `Bridge.DcrmSignTransaction`. -/
def DcrmSignTransaction (b : RouterBridge) (rawTx : Option Transaction) (args : BuildTxArgs) :
    SignResult :=
  match verifyTransactionReceiver b rawTx with
  | Except.error err =>
    { signTx := none, txHash := "", err := some err, args := args, calls := [] }
  | Except.ok tx =>
    let gasPrice := b.getGasPrice
    let args := applyGasFloor gasPrice args
    let mpcAddress := b.ChainConfig.RouterMPC
    let mpcPubkey := b.ChainConfig.RouterMPCPubkey
    let signer := b.Signer
    let msgHash := signer.Hash tx
    let msgContext := b.Marshal args
    let signed := b.DoSignOne mpcPubkey msgHash msgContext
    let calls := [Call.getGasPrice, Call.DoSignOne mpcPubkey msgHash msgContext]
    let keyID := signed.1
    let rsvs := signed.2.1
    match signed.2.2 with
    | some err =>
      { signTx := none, txHash := "", err := some err, args := args, calls := calls }
    | none =>
      if rsvs.length ≠ 1 then
        { signTx := none, txHash := "",
          err := some (Error.other "get sign status require one rsv but return many"),
          args := args, calls := calls }
      else
        let rsv := rsvs.headD ""
        let signature := b.FromHex rsv
        if signature.length ≠ SignatureLength then
          { signTx := none, txHash := "",
            err := some (Error.other ("wrong signature of keyID " ++ keyID)),
            args := args, calls := calls }
        else
          match WithSignature tx signer signature with
          | Except.error err =>
            { signTx := none, txHash := "", err := some err, args := args, calls := calls }
          | Except.ok signedTx =>
            match signer.Sender signedTx with
            | Except.error err =>
              { signTx := none, txHash := "", err := some err, args := args, calls := calls }
            | Except.ok sender =>
              if !EqualFold sender mpcAddress then
                { signTx := none, txHash := "",
                  err := some (Error.other "wrong sender address"),
                  args := args, calls := calls }
              else
                let txHash := b.TxHash signedTx
                { signTx := some signedTx, txHash := txHash, err := none, args := args,
                  calls := calls }

/-! ## Chain-id verification (`tokens/eth/bridge.go`) -/

/-- How a call that may panic or wait in a retry loop ends: it returns, it aborts with
the message of the panic, or it is still waiting for the gateway after the attempts
considered. -/
inductive Outcome (α : Type) where
  | returned (a : α)
  | aborted (msg : String)
  | waiting

/-- The EVM adapter `eth.Bridge` as chain-id verification sees it: the `NetID` of its
token config, its `Signer` field (`none` is the nil signer of a new adapter), and the
collaborators that are not among the sources, taken as parameters: the answer of the
gateway to the `attempt`-th call of `b.ChainID()`, and `types.MakeSigner`. -/
structure EthBridge where
  NetID : String
  ChainID : Nat → Except Error Nat
  MakeSigner : String → Nat → Signer
  Signer : Option Signer

/-- The retry loop of `VerifyChainID`: query the gateway until it answers without an
error. The loop is followed for `fuel` queries, starting with the query number
`attempt`; `none` when none of them is answered. -/
def queryChainID (ChainID : Nat → Except Error Nat) : Nat → Nat → Option Nat
  | 0, _ => none
  | fuel + 1, attempt =>
    match ChainID attempt with
    | Except.ok chainID => some chainID
    | Except.error _ => queryChainID ChainID fuel (attempt + 1)

/-- The second switch of `VerifyChainID`: the message of the panic, if any, for the
lower-cased network id and the chain id of the gateway. `chainID.Uint64()` is the
low 64 bits of the chain id. -/
def checkChainID (NetID networkID : String) (chainID : Nat) : Option String :=
  if networkID = "mainnet" then
    if chainID % uint64Size ≠ 1 then
      some ("gateway chainID " ++ toString chainID ++ " is not " ++ NetID)
    else none
  else if networkID = "rinkeby" then
    if chainID % uint64Size ≠ 4 then
      some ("gateway chainID " ++ toString chainID ++ " is not " ++ NetID)
    else none
  else some "unsupported ethereum network"

/-- The method `Bridge.VerifyChainID` of the EVM adapter, with the retry loop followed
for `fuel` queries. -/
def VerifyChainID (fuel : Nat) (b : EthBridge) : Outcome EthBridge :=
  let networkID := ToLower b.NetID
  if networkID = "mainnet" ∨ networkID = "rinkeby" then
    match queryChainID b.ChainID fuel 0 with
    | none => Outcome.waiting
    | some chainID =>
      match checkChainID b.NetID networkID chainID with
      | some msg => Outcome.aborted msg
      | none => Outcome.returned { b with Signer := some (b.MakeSigner "EIP155" chainID) }
  else if networkID = "custom" then
    Outcome.returned b
  else
    Outcome.aborted ("unsupported ethereum network: " ++ b.NetID)

/-- The signer of the adapter after a call that returned. -/
def signerAfter : Outcome EthBridge → Option (Option Signer)
  | Outcome.returned b => some b.Signer
  | _ => none

/-! ## The byte helpers in machine arithmetic -/

/-- Go `int(size)` for a `uint64` on a 64-bit machine: the same 64 bits read as a signed
integer, negative from `2 ^ 63` on. -/
def toInt (size : Nat) : Int :=
  if size % uint64Size < 2 ^ 63 then Int.ofNat (size % uint64Size)
  else Int.ofNat (size % uint64Size) - Int.ofNat uint64Size

/-- Modelled from the spec: `common.RightPadBytes(slice, l)` is not among the sources, and
the specification only names the encoding; this is the helper of Go's Ethereum
libraries that the package copies. The slice itself when `l <= len(slice)`, which
includes every negative `l`; otherwise a new slice of `l` bytes that starts with the
slice and is zero after it (the allocation is taken to succeed). -/
def RightPadBytesGo (slice : List UInt8) (l : Int) : List UInt8 :=
  if l ≤ Int.ofNat slice.length then slice
  else slice ++ List.replicate (l.toNat - slice.length) 0

/-- Modelled from the spec: `common.GetData(data, start, size)` is not among the sources;
this is the helper of Go's Ethereum libraries that the package copies, in `uint64`
arithmetic: `start` is clamped to `len(data)`, `end := start + size` wraps around at
`2 ^ 64` and is clamped to `len(data)`, and the slice `data[start:end]` is padded
by `RightPadBytes(.., int(size))`. The result is `none` when the slice expression
panics because `end` lies below `start`, which is the case after a wrap. -/
def GetDataGo (data : List UInt8) (start size : Nat) : Option (List UInt8) :=
  let length := data.length
  let start := if start > length then length else start
  let stop := (start + size) % uint64Size
  let stop := if stop > length then length else stop
  if stop < start then none
  else some (RightPadBytesGo ((data.drop start).take (stop - start)) (toInt size))

/-- Modelled from the spec: `common.GetBigInt` is not among the sources:
`new(big.Int).SetBytes(GetData(data, start, size))`. -/
def GetBigIntGo (data : List UInt8) (start size : Nat) : Option Int :=
  (GetDataGo data start size).map (fun b => Int.ofNat (bytesToNat b))

/-- Modelled from the spec: `common.GetUint64` is not among the sources: the low 64 bits
of `GetBigInt(data, start, size)` and the overflow flag `!IsUint64()`. -/
def GetUint64Go (data : List UInt8) (start size : Nat) : Option (Nat × Bool) :=
  (GetBigIntGo data start size).map
    (fun bn => (bn.toNat % uint64Size, decide (uint64Size ≤ bn.toNat)))

/-- The function `parseEncodedData` over the byte helpers in machine arithmetic. The
result is `none` when a helper panics, and otherwise `(bind, value, err)` as
returned. -/
def parseEncodedDataGo (encData : List UInt8) : Option (String × Option Int × Option Error) :=
  if encData.length < 96 then
    some ("", none, some (Error.other "wrong lenght of encoded data"))
  else
    match GetBigIntGo encData 0 32 with
    | none => none
    | some value =>
      match GetUint64Go encData 32 32 with
      | none => none
      | some offset =>
        if offset.2 then
          some ("", none, some (Error.other "string offset overflow"))
        else
          match GetUint64Go encData offset.1 32 with
          | none => none
          | some length =>
            if length.2 then
              some ("", none, some (Error.other "string length overflow"))
            else
              match GetDataGo encData ((offset.1 + 32) % uint64Size) length.1 with
              | none => none
              | some bind => some (string bind, some value, none)

/-! ## Concrete inputs -/

/-- A pending record under the key `0xa`, awaiting verification. -/
def pendingSwap : MgoSwap :=
  { TxId := "0xa", Status := SwapStatus.TxNotStable }

/-- A store holding the pending record `0xa` in both directions and no result. -/
def pendingStore : Store :=
  { Swapins := [pendingSwap], Swapouts := [pendingSwap] }

/-- A bridge answer: the memo of the transaction is not an address. -/
def wrongMemoAnswer : String → TxSwapInfo × Option Error :=
  fun txid =>
    ({ Hash := txid, From := "0xf00d", To := "0xc0de", Bind := "not-an-address",
       Value := some 1000000 },
     some Error.ErrTxWithWrongMemo)

/-- A bridge answer: the transaction passes verification. -/
def verifiedAnswer : String → TxSwapInfo × Option Error :=
  fun txid =>
    ({ Hash := txid, From := "0xf00d", To := "0xc0de", Bind := "0xb1d",
       Value := some 1000000 },
     none)

/-- A bridge answer: the transaction is not stable yet. -/
def notStableAnswer : String → TxSwapInfo × Option Error :=
  fun txid => ({ Hash := txid }, some Error.ErrTxNotStable)

/-- A bridge answer: the transaction went to another receiver. -/
def wrongReceiverAnswer : String → TxSwapInfo × Option Error :=
  fun txid => ({ Hash := txid, To := "0xbad" }, some Error.ErrTxWithWrongReceiver)

/-- A native deposit to the DCRM address that is still in the mempool: no block number
and no receipt yet. -/
def mempoolTx : RPCTransaction :=
  { BlockNumber := none, From := "0xF00D", Recipient := some "0xDC12",
    Amount := some 1000000, Payload := none }

/-- A source-side bridge (native asset, ten confirmations required) whose gateway knows
the transaction `mempoolTx` and has no receipt for it. -/
def mempoolBridge : Bridge :=
  { TokenConfig :=
      { ID := "", DcrmAddress := "0xdc12", ContractAddress := "", Confirmations := some 10 },
    IsSrc := true,
    GetTransactionByHash := fun _ => some mempoolTx,
    GetTransactionReceipt := fun _ => none,
    GetBlockByHash := fun _ => none,
    GetLatestBlockNumber := some 110,
    LogSwapoutTopic := "0x6b616089",
    SwapoutFuncHash := [0xad, 0x54, 0x05, 0x6d],
    CheckSwapValue := fun _ _ => true,
    SrcIsValidAddress := fun _ => true,
    verifyErc20SwapinTx := fun _ _ => none }

/-- A confirmed, successful destination-side receipt sent to the bridge contract by the
DCRM address itself, with no log. -/
def dcrmSenderReceipt : RPCTxReceipt :=
  { Status := some 1, BlockNumber := 100, BlockHash := "0xb10c", From := "0xDC12",
    Recipient := some "0xC0DE", Logs := [] }

/-- The same transaction as the gateway reports it before finality, with no call data. -/
def dcrmSenderTx : RPCTransaction :=
  { BlockNumber := some 100, From := "0xDC12", Recipient := some "0xC0DE",
    Amount := some 0, Payload := none }

/-- A destination-side bridge (contract `0xc0de`, ten confirmations required) whose
gateway answers with `dcrmSenderReceipt` at height 100 under a chain head of 110. -/
def dcrmSenderBridge : Bridge :=
  { TokenConfig :=
      { ID := "", DcrmAddress := "0xdc12", ContractAddress := "0xc0de",
        Confirmations := some 10 },
    IsSrc := false,
    GetTransactionByHash := fun _ => some dcrmSenderTx,
    GetTransactionReceipt := fun _ => some dcrmSenderReceipt,
    GetBlockByHash := fun _ => some { Time := 1600000000 },
    GetLatestBlockNumber := some 110,
    LogSwapoutTopic := "0x6b616089",
    SwapoutFuncHash := [0xad, 0x54, 0x05, 0x6d],
    CheckSwapValue := fun _ _ => true,
    SrcIsValidAddress := fun _ => true,
    verifyErc20SwapinTx := fun _ _ => none }

/-- The bytes of the address text `0xb1d`. -/
def bindBytes : List UInt8 := [0x30, 0x78, 0x62, 0x31, 0x64]

/-- The bytes of the text `not-an-address`. -/
def memoBytes : List UInt8 :=
  [0x6e, 0x6f, 0x74, 0x2d, 0x61, 0x6e, 0x2d, 0x61, 0x64, 0x64, 0x72, 0x65, 0x73, 0x73]

/-- A swapout log: two topics, the first being the swapout topic, and the given data. -/
def swapoutLog (data : List UInt8) : RPCLog :=
  { Removed := none, Topics := ["0x6b616089", "0x0000f00d"], Data := some data }

/-- A successful swapout receipt at height `height` whose first log carries `data`. -/
def swapoutReceipt (height : Nat) (data : List UInt8) : RPCTxReceipt :=
  { Status := some 1, BlockNumber := height, BlockHash := "0xb10c", From := "0xF00D",
    Recipient := some "0xC0DE", Logs := [swapoutLog data] }

/-- A destination-side bridge (contract `0xc0de`, DCRM address `0xdc12`, ten
confirmations required, chain head 110) whose gateway answers with the given receipt
and call data; amounts from 1000 on pass the value policy and `0xb1d` is the one
valid source-chain address. -/
def swapoutBridge (receipt : RPCTxReceipt) (payload : List UInt8) : Bridge :=
  { TokenConfig :=
      { ID := "", DcrmAddress := "0xdc12", ContractAddress := "0xc0de",
        Confirmations := some 10 },
    IsSrc := false,
    GetTransactionByHash := fun _ =>
      some { BlockNumber := some receipt.BlockNumber, From := "0xF00D",
             Recipient := some "0xC0DE", Amount := some 0, Payload := some payload },
    GetTransactionReceipt := fun _ => some receipt,
    GetBlockByHash := fun _ => some { Time := 1600000000 },
    GetLatestBlockNumber := some 110,
    LogSwapoutTopic := "0x6b616089",
    SwapoutFuncHash := [0xad, 0x54, 0x05, 0x6d],
    CheckSwapValue := fun v _ =>
      match v with
      | some x => decide (1000 ≤ x)
      | none => false,
    SrcIsValidAddress := fun s => decide (s = "0xb1d"),
    verifyErc20SwapinTx := fun _ _ => none }

/-- Scenario S1: a swapout of 1000000 bound to `0xb1d`, at height 100 with exactly the
ten required confirmations. -/
def happyBridge : Bridge :=
  swapoutBridge (swapoutReceipt 100 (encode 1000000 bindBytes))
    ([0xad, 0x54, 0x05, 0x6d] ++ encode 1000000 bindBytes)

/-- Scenario S4: the same swapout with the memo `not-an-address`. -/
def wrongMemoBridge : Bridge :=
  swapoutBridge (swapoutReceipt 100 (encode 1000000 memoBytes))
    ([0xad, 0x54, 0x05, 0x6d] ++ encode 1000000 memoBytes)

/-- The swapout of scenario S1 with a receipt that reports block height 0. -/
def heightZeroBridge : Bridge :=
  swapoutBridge (swapoutReceipt 0 (encode 1000000 bindBytes))
    ([0xad, 0x54, 0x05, 0x6d] ++ encode 1000000 bindBytes)

/-- The status that `GetTransactionStatus` reports for the transaction of `happyBridge`. -/
def happyStatus : TxStatus :=
  { Receipt := some (swapoutReceipt 100 (encode 1000000 bindBytes)), Confirmations := 10,
    BlockHeight := 100, BlockHash := "0xb10c", BlockTime := 1600000000 }

/-- A record under the key `0xa` that passed verification earlier. -/
def verifiedSwap : MgoSwap :=
  { TxId := "0xa", Status := SwapStatus.TxNotSwapped, Timestamp := 3 }

/-- A record under the key `0xb` whose verification failed earlier. -/
def failedSwap : MgoSwap :=
  { TxId := "0xb", Status := SwapStatus.TxVerifyFailed, Timestamp := 3 }

/-- A store in which, in both directions, `0xa` is verified and has its initial result,
and `0xb` has failed verification and has none. -/
def verifiedStore : Store :=
  { Swapins := [verifiedSwap, failedSwap], Swapouts := [verifiedSwap, failedSwap],
    SwapinResults := [initialSwapResult (verifiedAnswer "0xa").1 1 3],
    SwapoutResults := [initialSwapResult (verifiedAnswer "0xa").1 2 3] }

/-- The store `verifiedStore` with one more record, `0xc`, awaiting verification in both
directions. -/
def mixedStore : Store :=
  { verifiedStore with
    Swapins := verifiedStore.Swapins ++ [{ TxId := "0xc", Status := SwapStatus.TxNotStable }],
    Swapouts := verifiedStore.Swapouts ++ [{ TxId := "0xc", Status := SwapStatus.TxNotStable }] }

/-- A swapout log whose data is too short to decode, followed by one that decodes. -/
def undecodableThenGood : List RPCLog :=
  [swapoutLog [0x01, 0x02], swapoutLog (encode 1000000 bindBytes)]

/-- A native deposit of 1000000 from `0xF00D` to the DCRM address, mined at height 100. -/
def depositTx : RPCTransaction :=
  { BlockNumber := some 100, From := "0xF00D", Recipient := some "0xDC12",
    Amount := some 1000000, Payload := none }

/-- The receipt of `depositTx` as the gateway reports it at height `height`. -/
def depositReceipt (height : Nat) : RPCTxReceipt :=
  { Status := some 1, BlockNumber := height, BlockHash := "0xb10c", From := "0xF00D",
    Recipient := some "0xDC12", Logs := [] }

/-- A source-side bridge (native asset, DCRM address `0xdc12`, ten confirmations required)
whose gateway knows `depositTx`, answers with the given receipt and reports the
chain head `latest`. -/
def swapinBridge (receipt : Option RPCTxReceipt) (latest : Option Nat) : Bridge :=
  { TokenConfig :=
      { ID := "", DcrmAddress := "0xdc12", ContractAddress := "", Confirmations := some 10 },
    IsSrc := true,
    GetTransactionByHash := fun _ => some depositTx,
    GetTransactionReceipt := fun _ => receipt,
    GetBlockByHash := fun _ => some { Time := 1600000000 },
    GetLatestBlockNumber := latest,
    LogSwapoutTopic := "0x6b616089",
    SwapoutFuncHash := [0xad, 0x54, 0x05, 0x6d],
    CheckSwapValue := fun v _ =>
      match v with
      | some x => decide (1000 ≤ x)
      | none => false,
    SrcIsValidAddress := fun s => decide (s = "0xb1d"),
    verifyErc20SwapinTx := fun _ _ => none }

/-- Scenario S1 with the sender and recipient of the transaction in lower case and the
configured DCRM and contract address in upper case. -/
def recasedBridge : Bridge :=
  { happyBridge with
    TokenConfig :=
      { ID := "", DcrmAddress := "0xDC12", ContractAddress := "0xC0DE",
        Confirmations := some 10 },
    GetTransactionByHash := fun _ =>
      some { BlockNumber := some 100, From := "0xf00d", Recipient := some "0xc0de",
             Amount := some 0,
             Payload := some ([0xad, 0x54, 0x05, 0x6d] ++ encode 1000000 bindBytes) },
    GetTransactionReceipt := fun _ =>
      some { Status := some 1, BlockNumber := 100, BlockHash := "0xb10c", From := "0xf00d",
             Recipient := some "0xc0de", Logs := [swapoutLog (encode 1000000 bindBytes)] } }

/-- The receipt of `depositTx` as a gateway reports it without a `status` field. -/
def statuslessReceipt : RPCTxReceipt :=
  { Status := none, BlockNumber := 100, BlockHash := "0xb10c", From := "0xF00D",
    Recipient := some "0xDC12", Logs := [] }

/-- Scenario S1 seen through a gateway that lags: the receipt is at height 100 and the
reported chain head is 99. -/
def laggingBridge : Bridge :=
  { happyBridge with GetLatestBlockNumber := some 99 }

/-- The router contract of the signing examples. -/
def routerAddress : String := "0xC0ffee254729296a45a3885639AC7E10F9d54979"

/-- The MPC address of the signing examples. -/
def mpcAddress : String := "0x8ba1f109551bD432803012645Ac136ddd64DBA72"

/-- A router adapter whose gateway answers the gas price query with `queried`, whose
signing service returns the signatures `rsvs` under the key id `key1`, and whose
signer accepts every signature and recovers the MPC address in lower case. -/
def routerBridge (queried : Except Error Int) (rsvs : List String) : RouterBridge :=
  { ChainConfig :=
      { BlockChain := "ETHEREUM", RouterContract := routerAddress, RouterMPC := mpcAddress,
        RouterMPCPubkey := "04aa" }
    Signer :=
      { Hash := fun tx => "0xh" ++ toString tx.Nonce
        SignatureError := fun _ _ => none
        Sender := fun _ => Except.ok (ToLower mpcAddress) }
    getGasPrice := queried
    DoSignOne := fun _ _ _ => ("key1", rsvs, none)
    Marshal := fun args => args.SwapID
    FromHex := fun rsv => List.replicate (rsv.length / 2) 0x11
    TxHash := fun tx => "0xt" ++ toString tx.Nonce }

/-- A hex string of 130 digits: one signature of 65 bytes. -/
def rsv65 : String := String.mk (List.replicate 130 '1')

/-- A raw transaction to the router contract (written in lower case) with gas price 10. -/
def routerTx : Transaction :=
  { To := some (ToLower routerAddress), Nonce := 7, GasPrice := 10, Data := [0x01] }

/-- A raw transaction to an address that is not the router contract. -/
def strayTx : Transaction :=
  { To := some mpcAddress, Nonce := 7, GasPrice := 10 }

/-- Arguments with gas price 10. -/
def args10 : BuildTxArgs :=
  { SwapID := "0x5a", Extra := { EthExtra := { GasPrice := 10 } } }

/-- Some signer constructor: the signer of a chain id recovers the chain id as sender
text, so that signers of different chain ids differ. -/
def exampleMakeSigner (kind : String) (chainID : Nat) : Signer :=
  { Hash := fun tx => kind ++ toString tx.Nonce
    SignatureError := fun _ _ => none
    Sender := fun _ => Except.ok (toString chainID) }

/-- A new EVM adapter (nil signer) for the network `netID` whose gateway fails the first
`failures` chain id queries and then answers `chainID`. -/
def chainBridge (netID : String) (failures chainID : Nat) : EthBridge :=
  { NetID := netID,
    ChainID := fun attempt =>
      if attempt < failures then Except.error (Error.other "connection refused")
      else Except.ok chainID,
    MakeSigner := exampleMakeSigner,
    Signer := none }

/-- The encoding of `(1000000, "0xb1d")` cut after the length word: 96 bytes that announce
a string of five bytes and hold none of them. -/
def truncatedMemo : List UInt8 := (encode 1000000 bindBytes).take 96

/-- An encoding of 96 bytes: the value 7, the string offset 64, and a length word of
`2 ^ 64 - 1`, the largest length that fits in 64 bits. -/
def overlongMemo : List UInt8 :=
  toBytesBE 32 7 ++ toBytesBE 32 64 ++ toBytesBE 32 (2 ^ 64 - 1)

/-! ## Lemmas on the byte helpers -/

theorem toBytesBE_length (n v : Nat) : (toBytesBE n v).length = n := by
  induction n generalizing v with
  | zero => rfl
  | succ n ih => simp [toBytesBE, ih]

theorem bytesToNat_append_singleton (b : List UInt8) (x : UInt8) :
    bytesToNat (b ++ [x]) = bytesToNat b * 256 + x.toNat := by
  simp [bytesToNat, List.foldl_append]

theorem uint8_toNat_ofNat (n : Nat) : (UInt8.ofNat n).toNat = n % 256 := by
  rfl

theorem bytesToNat_toBytesBE (n v : Nat) : bytesToNat (toBytesBE n v) = v % 256 ^ n := by
  induction n generalizing v with
  | zero => simp [toBytesBE, bytesToNat, Nat.mod_one]
  | succ n ih =>
    rw [toBytesBE, bytesToNat_append_singleton, ih, uint8_toNat_ofNat]
    rw [pow_succ, Nat.mul_comm (256 ^ n) 256, Nat.mod_mul]
    omega

theorem GetData_of_le (data : List UInt8) (start size : Nat)
    (h : start + size ≤ data.length) :
    GetData data start size = (data.drop start).take size := by
  have h1 : ¬ start > data.length := by omega
  have h2 : ¬ start + size > data.length := by omega
  simp only [GetData, RightPadBytes, h1, h2, if_false]
  have h3 : ((data.drop start).take (start + size - start)).length = size := by
    simp only [List.length_take, List.length_drop]; omega
  rw [h3, Nat.sub_self, List.replicate_zero, List.append_nil, Nat.add_sub_cancel_left]

/-- Reading the middle part of `pre ++ mid ++ post`. -/
theorem GetData_middle (pre mid post : List UInt8) :
    GetData (pre ++ mid ++ post) pre.length mid.length = mid := by
  rw [GetData_of_le _ _ _ (by simp)]
  rw [List.append_assoc, List.drop_left, List.take_left]

/-- The four reads that `parseEncodedData` makes, on three 32-byte words followed by
the string bytes and its padding. -/
theorem GetData_words (A B C bind pad : List UInt8)
    (hA : A.length = 32) (hB : B.length = 32) (hC : C.length = 32) :
    GetData (A ++ B ++ C ++ bind ++ pad) 0 32 = A ∧
    GetData (A ++ B ++ C ++ bind ++ pad) 32 32 = B ∧
    GetData (A ++ B ++ C ++ bind ++ pad) 64 32 = C ∧
    GetData (A ++ B ++ C ++ bind ++ pad) 96 bind.length = bind := by
  refine ⟨?_, ?_, ?_, ?_⟩
  · have h := GetData_middle [] A (B ++ (C ++ (bind ++ pad)))
    rw [hA] at h
    simpa only [List.nil_append, List.length_nil, List.append_assoc] using h
  · have h := GetData_middle A B (C ++ (bind ++ pad))
    rw [hA, hB] at h
    simpa only [List.append_assoc] using h
  · have h := GetData_middle (A ++ B) C (bind ++ pad)
    rw [List.length_append, hA, hB, hC] at h
    simpa only [List.append_assoc] using h
  · have h := GetData_middle (A ++ B ++ C) bind pad
    rw [List.length_append, List.length_append, hA, hB, hC] at h
    exact h

/-- A 32-byte big-endian word holding `n < 2 ^ 64` is read back without overflow. -/
theorem GetUint64_of_word (data : List UInt8) (start n : Nat) (hn : n < 2 ^ 64)
    (h : GetData data start 32 = toBytesBE 32 n) :
    GetUint64 data start 32 = (n, false) := by
  have h256 : n % 256 ^ 32 = n := Nat.mod_eq_of_lt (lt_trans hn (by norm_num))
  have h64 : n % 2 ^ 64 = n := Nat.mod_eq_of_lt hn
  unfold GetUint64 GetBigInt
  rw [h, bytesToNat_toBytesBE, h256]
  show (n % 2 ^ 64, decide (2 ^ 64 ≤ n)) = (n, false)
  rw [h64]
  have hno : ¬ 2 ^ 64 ≤ n := by omega
  rw [decide_eq_false hno]

theorem encode_length (value : Nat) (bind : List UInt8) :
    (encode value bind).length = 96 + bind.length + padLen bind.length := by
  unfold encode
  simp only [List.length_append, toBytesBE_length, List.length_replicate]

/-- The success path of `parseEncodedData`: enough input and no overflow of the two
length words. -/
theorem parseEncodedData_ok (encData : List UInt8) (offset length : Nat)
    (h96 : ¬ encData.length < 96)
    (hoff : GetUint64 encData 32 32 = (offset, false))
    (hlen : GetUint64 encData offset 32 = (length, false)) :
    parseEncodedData encData
      = (string (GetData encData ((offset + 32) % uint64Size) length),
          some (GetBigInt encData 0 32), none) := by
  simp only [parseEncodedData, if_neg h96, hoff, hlen, Bool.false_eq_true, if_false]

/-- Decoding the ABI encoding of `(value, bind)` gives back both parts, for a byte
string whose length fits a `uint64` (every Go byte string). -/
theorem parseEncodedData_encode_of_lt (value : Nat) (bind : List UInt8)
    (hv : value < 2 ^ 256) (hlt : bind.length < 2 ^ 64) :
    parseEncodedData (encode value bind) = (string bind, some (Int.ofNat value), none) := by
  have hlen : ¬ (encode value bind).length < 96 := by
    rw [encode_length]; omega
  have hw := GetData_words (toBytesBE 32 value) (toBytesBE 32 64)
    (toBytesBE 32 bind.length) bind (List.replicate (padLen bind.length) 0)
    (toBytesBE_length 32 value) (toBytesBE_length 32 64) (toBytesBE_length 32 bind.length)
  rw [← encode] at hw
  obtain ⟨w0, w1, w2, w3⟩ := hw
  have hval : GetBigInt (encode value bind) 0 32 = Int.ofNat value := by
    unfold GetBigInt
    have h256 : value % 256 ^ 32 = value :=
      Nat.mod_eq_of_lt (lt_of_lt_of_le hv (by norm_num))
    rw [w0, bytesToNat_toBytesBE, h256]
  have hoff : GetUint64 (encode value bind) 32 32 = (64, false) :=
    GetUint64_of_word (encode value bind) 32 64 (by norm_num) w1
  have hlength : GetUint64 (encode value bind) 64 32 = (bind.length, false) :=
    GetUint64_of_word (encode value bind) 64 bind.length hlt w2
  have h96 : (64 + 32) % uint64Size = 96 := by norm_num [uint64Size]
  have hbind : GetData (encode value bind) 96 bind.length = bind := w3
  rw [parseEncodedData_ok (encode value bind) 64 bind.length hlen hoff hlength,
    h96, hbind, hval]

/-- Claim C1. Round trip of the memo decoder: for every `value < 2 ^ 256` and every byte
string `bind` of at most `2 ^ 16` bytes, decoding the standard ABI encoding of
`(value, bind)` returns the string with the bytes of `bind`, the integer `value`
and a nil error. -/
theorem parseEncodedData_encode (value : Nat) (bind : List UInt8)
    (hv : value < 2 ^ 256) (hb : bind.length ≤ 2 ^ 16) :
    parseEncodedData (encode value bind) = (string bind, some (Int.ofNat value), none) := by
  have hlt : bind.length < 2 ^ 64 := lt_of_le_of_lt hb (by norm_num)
  have hlen : ¬ (encode value bind).length < 96 := by
    rw [encode_length]; omega
  have hw := GetData_words (toBytesBE 32 value) (toBytesBE 32 64)
    (toBytesBE 32 bind.length) bind (List.replicate (padLen bind.length) 0)
    (toBytesBE_length 32 value) (toBytesBE_length 32 64) (toBytesBE_length 32 bind.length)
  rw [← encode] at hw
  obtain ⟨w0, w1, w2, w3⟩ := hw
  have hval : GetBigInt (encode value bind) 0 32 = Int.ofNat value := by
    unfold GetBigInt
    have h256 : value % 256 ^ 32 = value :=
      Nat.mod_eq_of_lt (lt_of_lt_of_le hv (by norm_num))
    rw [w0, bytesToNat_toBytesBE, h256]
  have hoff : GetUint64 (encode value bind) 32 32 = (64, false) :=
    GetUint64_of_word (encode value bind) 32 64 (by norm_num) w1
  have hlength : GetUint64 (encode value bind) 64 32 = (bind.length, false) :=
    GetUint64_of_word (encode value bind) 64 bind.length hlt w2
  have h96 : (64 + 32) % uint64Size = 96 := by norm_num [uint64Size]
  have hbind : GetData (encode value bind) 96 bind.length = bind := w3
  rw [parseEncodedData_ok (encode value bind) 64 bind.length hlen hoff hlength,
    h96, hbind, hval]

/-- The round trip at the value 1000000 and the three-byte string `0xA`. -/
theorem parseEncodedData_encode_witness :
    (1000000 < 2 ^ 256 ∧ [(0x30 : UInt8), 0x78, 0x41].length ≤ 2 ^ 16) ∧
      parseEncodedData (encode 1000000 [0x30, 0x78, 0x41])
        = (string [0x30, 0x78, 0x41], some (Int.ofNat 1000000), none) :=
  ⟨⟨by norm_num, by norm_num⟩,
    parseEncodedData_encode 1000000 [0x30, 0x78, 0x41] (by norm_num) (by norm_num)⟩

/-! ## Lemmas on the store -/

theorem updateSwapStatus_ok_iff (coll : List MgoSwap) (txid : String)
    (status : SwapStatus) (timestamp : Int) (memo : String) :
    (updateSwapStatus coll txid status timestamp memo).1 = none
      ↔ coll.any (fun s => decide (s.TxId = txid ∧ some s.Status = priorStatus status))
          = true := by
  unfold updateSwapStatus
  by_cases hex : coll.any
      (fun s => decide (s.TxId = txid ∧ some s.Status = priorStatus status)) = true
  · rw [if_pos hex]
    exact ⟨fun _ => hex, fun _ => rfl⟩
  · rw [if_neg hex]
    exact ⟨fun h => Option.noConfusion h, fun h => absurd h hex⟩

/-- A failed status update changes nothing. -/
theorem updateSwapStatus_fail (coll : List MgoSwap) (txid : String)
    (status : SwapStatus) (timestamp : Int) (memo : String)
    (h : (updateSwapStatus coll txid status timestamp memo).1 ≠ none) :
    (updateSwapStatus coll txid status timestamp memo).2 = coll := by
  unfold updateSwapStatus at h ⊢
  by_cases hex : coll.any
      (fun s => decide (s.TxId = txid ∧ some s.Status = priorStatus status)) = true
  · rw [if_pos hex] at h; exact absurd rfl h
  · rw [if_neg hex]

/-- A successful status update leaves a record under the key with the new status. -/
theorem updateSwapStatus_has (coll : List MgoSwap) (txid : String)
    (status : SwapStatus) (timestamp : Int) (memo : String)
    (h : (updateSwapStatus coll txid status timestamp memo).1 = none) :
    ∃ s ∈ (updateSwapStatus coll txid status timestamp memo).2,
      s.TxId = txid ∧ s.Status = status := by
  have hany := (updateSwapStatus_ok_iff coll txid status timestamp memo).mp h
  have hany' := hany
  rw [List.any_eq_true] at hany'
  obtain ⟨a, ha, hat⟩ := hany'
  have hat' : a.TxId = txid ∧ some a.Status = priorStatus status := by simpa using hat
  unfold updateSwapStatus
  rw [if_pos hany]
  refine ⟨{ a with Status := status, Timestamp := timestamp, Memo := memo }, ?_, hat'.1, rfl⟩
  simp only [List.mem_map]
  exact ⟨a, ha, by rw [if_pos hat']⟩

/-- A status update keeps every record that is under another key or not in the prior
status of the transition. -/
theorem updateSwapStatus_keeps (coll : List MgoSwap) (txid : String)
    (status : SwapStatus) (timestamp : Int) (memo : String) (s : MgoSwap)
    (hs : s ∈ coll) (hne : ¬ (s.TxId = txid ∧ some s.Status = priorStatus status)) :
    s ∈ (updateSwapStatus coll txid status timestamp memo).2 := by
  unfold updateSwapStatus
  by_cases hex : coll.any
      (fun s => decide (s.TxId = txid ∧ some s.Status = priorStatus status)) = true
  · rw [if_pos hex]
    simp only [List.mem_map]
    exact ⟨s, hs, by rw [if_neg hne]⟩
  · rw [if_neg hex]; exact hs

/-- On a key that is not awaiting verification, a status update out of `TxNotStable`
is refused and changes nothing. -/
theorem updateSwapStatus_settled (coll : List MgoSwap) (txid : String)
    (status : SwapStatus) (timestamp : Int) (memo : String)
    (hset : keySettled coll txid) (hprior : priorStatus status = some SwapStatus.TxNotStable) :
    (updateSwapStatus coll txid status timestamp memo).1 ≠ none ∧
      (updateSwapStatus coll txid status timestamp memo).2 = coll := by
  have hno : (updateSwapStatus coll txid status timestamp memo).1 ≠ none := by
    intro hok
    have hany := (updateSwapStatus_ok_iff coll txid status timestamp memo).mp hok
    rw [List.any_eq_true] at hany
    obtain ⟨a, ha, hat⟩ := hany
    have hat' : a.TxId = txid ∧ some a.Status = priorStatus status := by simpa using hat
    rw [hprior] at hat'
    exact hset a ha hat'.1 (Option.some.inj hat'.2)
  exact ⟨hno, updateSwapStatus_fail coll txid status timestamp memo hno⟩

/-! ## The verification workers: outcome to status -/

/-- Claim C2, as the code has it. When the bridge returns `ErrTxWithWrongMemo`, both
workers set the status of the record to `TxCanRecall`. When that update succeeds, the
call is the insert of the initial result built from the returned swap info into the
updated store, as after a successful verification: the record under the key is then
`TxCanRecall`, a key not yet in the result collection gets that result appended, and
for a key that has a result already the insert is refused with its error and the
collection stays as it was. When the update fails, its error is returned and the
result collections are what they were. -/
theorem processVerify_wrongMemo (V : String → TxSwapInfo × Option Error) (now : Int)
    (db : Store) (swap : MgoSwap) (h : (V swap.TxId).2 = some Error.ErrTxWithWrongMemo) :
    ((UpdateSwapinStatus db swap.TxId SwapStatus.TxCanRecall now "").1 = none →
      processSwapinVerify V now db swap
        = addInitialSwapinResult
            (UpdateSwapinStatus db swap.TxId SwapStatus.TxCanRecall now "").2
            (V swap.TxId).1 now ∧
      (∃ s ∈ (processSwapinVerify V now db swap).2.Swapins,
        s.TxId = swap.TxId ∧ s.Status = SwapStatus.TxCanRecall) ∧
      (db.SwapinResults.any (fun x => decide (x.TxId = (V swap.TxId).1.Hash)) = false →
        (processSwapinVerify V now db swap).1 = none ∧
        (processSwapinVerify V now db swap).2.SwapinResults
          = db.SwapinResults ++ [initialSwapResult (V swap.TxId).1 1 now]) ∧
      (db.SwapinResults.any (fun x => decide (x.TxId = (V swap.TxId).1.Hash)) = true →
        (processSwapinVerify V now db swap).1 ≠ none ∧
        (processSwapinVerify V now db swap).2.SwapinResults = db.SwapinResults)) ∧
    (∀ e, (UpdateSwapinStatus db swap.TxId SwapStatus.TxCanRecall now "").1 = some e →
      (processSwapinVerify V now db swap).1 = some e ∧
      (processSwapinVerify V now db swap).2.SwapinResults = db.SwapinResults ∧
      (processSwapinVerify V now db swap).2.SwapoutResults = db.SwapoutResults) ∧
    ((UpdateSwapoutStatus db swap.TxId SwapStatus.TxCanRecall now "").1 = none →
      processSwapoutVerify V now db swap
        = addInitialSwapoutResult
            (UpdateSwapoutStatus db swap.TxId SwapStatus.TxCanRecall now "").2
            (V swap.TxId).1 now ∧
      (∃ s ∈ (processSwapoutVerify V now db swap).2.Swapouts,
        s.TxId = swap.TxId ∧ s.Status = SwapStatus.TxCanRecall) ∧
      (db.SwapoutResults.any (fun x => decide (x.TxId = (V swap.TxId).1.Hash)) = false →
        (processSwapoutVerify V now db swap).1 = none ∧
        (processSwapoutVerify V now db swap).2.SwapoutResults
          = db.SwapoutResults ++ [initialSwapResult (V swap.TxId).1 2 now]) ∧
      (db.SwapoutResults.any (fun x => decide (x.TxId = (V swap.TxId).1.Hash)) = true →
        (processSwapoutVerify V now db swap).1 ≠ none ∧
        (processSwapoutVerify V now db swap).2.SwapoutResults = db.SwapoutResults)) ∧
    (∀ e, (UpdateSwapoutStatus db swap.TxId SwapStatus.TxCanRecall now "").1 = some e →
      (processSwapoutVerify V now db swap).1 = some e ∧
      (processSwapoutVerify V now db swap).2.SwapinResults = db.SwapinResults ∧
      (processSwapoutVerify V now db swap).2.SwapoutResults = db.SwapoutResults) := by
  refine ⟨?_, ?_, ?_, ?_⟩
  · intro hok
    have hp : processSwapinVerify V now db swap
        = addInitialSwapinResult
            (UpdateSwapinStatus db swap.TxId SwapStatus.TxCanRecall now "").2
            (V swap.TxId).1 now := by
      unfold processSwapinVerify
      simp [h, hok]
    refine ⟨hp, ?_, ?_, ?_⟩
    · rw [hp]
      exact updateSwapStatus_has db.Swapins swap.TxId _ now "" hok
    · intro hfresh
      rw [hp]
      simp [addInitialSwapinResult, addSwapResult, UpdateSwapinStatus, initialSwapResult,
        hfresh]
    · intro hdup
      rw [hp]
      simp [addInitialSwapinResult, addSwapResult, UpdateSwapinStatus, initialSwapResult,
        hdup]
  · intro e he
    have he' : (updateSwapStatus db.Swapins swap.TxId SwapStatus.TxCanRecall now "").1
        = some e := he
    unfold processSwapinVerify
    simp [h, he', UpdateSwapinStatus]
  · intro hok
    have hp : processSwapoutVerify V now db swap
        = addInitialSwapoutResult
            (UpdateSwapoutStatus db swap.TxId SwapStatus.TxCanRecall now "").2
            (V swap.TxId).1 now := by
      unfold processSwapoutVerify
      simp [h, hok]
    refine ⟨hp, ?_, ?_, ?_⟩
    · rw [hp]
      exact updateSwapStatus_has db.Swapouts swap.TxId _ now "" hok
    · intro hfresh
      rw [hp]
      simp [addInitialSwapoutResult, addSwapResult, UpdateSwapoutStatus, initialSwapResult,
        hfresh]
    · intro hdup
      rw [hp]
      simp [addInitialSwapoutResult, addSwapResult, UpdateSwapoutStatus, initialSwapResult,
        hdup]
  · intro e he
    have he' : (updateSwapStatus db.Swapouts swap.TxId SwapStatus.TxCanRecall now "").1
        = some e := he
    unfold processSwapoutVerify
    simp [h, he', UpdateSwapoutStatus]

/-- The wrong-memo path on the pending record `0xa`, which has no result yet: the status
update succeeds and the initial result is appended. -/
theorem processVerify_wrongMemo_witness :
    ((wrongMemoAnswer pendingSwap.TxId).2 = some Error.ErrTxWithWrongMemo ∧
      (UpdateSwapinStatus pendingStore pendingSwap.TxId SwapStatus.TxCanRecall 7 "").1
        = none ∧
      pendingStore.SwapinResults.any
        (fun x => decide (x.TxId = (wrongMemoAnswer pendingSwap.TxId).1.Hash)) = false) ∧
    (processSwapinVerify wrongMemoAnswer 7 pendingStore pendingSwap).1 = none ∧
    (processSwapinVerify wrongMemoAnswer 7 pendingStore pendingSwap).2.SwapinResults
      = pendingStore.SwapinResults
          ++ [initialSwapResult (wrongMemoAnswer pendingSwap.TxId).1 1 7] :=
  ⟨⟨by decide, by decide, by decide⟩,
    ((processVerify_wrongMemo wrongMemoAnswer 7 pendingStore pendingSwap (by decide)).1
      (by decide)).2.2.1 (by decide)⟩

/-- Claim C2 as stated fails: on `ErrTxWithWrongMemo` for a pending record, both workers
park the record in `TxCanRecall` and the result collection is not what it was: it
holds a new initial result. -/
theorem processVerify_wrongMemo_inserts_result :
    (wrongMemoAnswer pendingSwap.TxId).2 = some Error.ErrTxWithWrongMemo ∧
    (processSwapinVerify wrongMemoAnswer 7 pendingStore pendingSwap).2.Swapins
      = [{ pendingSwap with Status := SwapStatus.TxCanRecall, Timestamp := 7 }] ∧
    (processSwapinVerify wrongMemoAnswer 7 pendingStore pendingSwap).2.SwapinResults
      = [initialSwapResult (wrongMemoAnswer pendingSwap.TxId).1 1 7] ∧
    (processSwapinVerify wrongMemoAnswer 7 pendingStore pendingSwap).2.SwapinResults
      ≠ pendingStore.SwapinResults ∧
    (processSwapoutVerify wrongMemoAnswer 7 pendingStore pendingSwap).2.Swapouts
      = [{ pendingSwap with Status := SwapStatus.TxCanRecall, Timestamp := 7 }] ∧
    (processSwapoutVerify wrongMemoAnswer 7 pendingStore pendingSwap).2.SwapoutResults
      ≠ pendingStore.SwapoutResults := by
  decide

/-- Claim C7. On a successful verification (nil error) both workers first set the status
of the record to `TxNotSwapped`. When that update succeeds, the call is the insert of
the initial result built from the returned swap info into the updated store, the
record under the key is then `TxNotSwapped`, and a key not yet in the result
collection gets that result appended. When the update fails, the update's error is
returned and the result collections are what they were. -/
theorem processVerify_success (V : String → TxSwapInfo × Option Error) (now : Int)
    (db : Store) (swap : MgoSwap) (h : (V swap.TxId).2 = none) :
    ((UpdateSwapinStatus db swap.TxId SwapStatus.TxNotSwapped now "").1 = none →
      processSwapinVerify V now db swap
        = addInitialSwapinResult
            (UpdateSwapinStatus db swap.TxId SwapStatus.TxNotSwapped now "").2
            (V swap.TxId).1 now ∧
      (∃ s ∈ (processSwapinVerify V now db swap).2.Swapins,
        s.TxId = swap.TxId ∧ s.Status = SwapStatus.TxNotSwapped) ∧
      (db.SwapinResults.any (fun x => decide (x.TxId = (V swap.TxId).1.Hash)) = false →
        (processSwapinVerify V now db swap).2.SwapinResults
          = db.SwapinResults ++ [initialSwapResult (V swap.TxId).1 1 now])) ∧
    (∀ e, (UpdateSwapinStatus db swap.TxId SwapStatus.TxNotSwapped now "").1 = some e →
      (processSwapinVerify V now db swap).1 = some e ∧
      (processSwapinVerify V now db swap).2.SwapinResults = db.SwapinResults ∧
      (processSwapinVerify V now db swap).2.SwapoutResults = db.SwapoutResults) ∧
    ((UpdateSwapoutStatus db swap.TxId SwapStatus.TxNotSwapped now "").1 = none →
      processSwapoutVerify V now db swap
        = addInitialSwapoutResult
            (UpdateSwapoutStatus db swap.TxId SwapStatus.TxNotSwapped now "").2
            (V swap.TxId).1 now ∧
      (∃ s ∈ (processSwapoutVerify V now db swap).2.Swapouts,
        s.TxId = swap.TxId ∧ s.Status = SwapStatus.TxNotSwapped) ∧
      (db.SwapoutResults.any (fun x => decide (x.TxId = (V swap.TxId).1.Hash)) = false →
        (processSwapoutVerify V now db swap).2.SwapoutResults
          = db.SwapoutResults ++ [initialSwapResult (V swap.TxId).1 2 now])) ∧
    (∀ e, (UpdateSwapoutStatus db swap.TxId SwapStatus.TxNotSwapped now "").1 = some e →
      (processSwapoutVerify V now db swap).1 = some e ∧
      (processSwapoutVerify V now db swap).2.SwapinResults = db.SwapinResults ∧
      (processSwapoutVerify V now db swap).2.SwapoutResults = db.SwapoutResults) := by
  refine ⟨?_, ?_, ?_, ?_⟩
  · intro hok
    have hp : processSwapinVerify V now db swap
        = addInitialSwapinResult
            (UpdateSwapinStatus db swap.TxId SwapStatus.TxNotSwapped now "").2
            (V swap.TxId).1 now := by
      unfold processSwapinVerify
      simp [h, hok]
    refine ⟨hp, ?_, ?_⟩
    · rw [hp]
      exact updateSwapStatus_has db.Swapins swap.TxId _ now "" hok
    · intro hfresh
      rw [hp]
      simp [addInitialSwapinResult, addSwapResult, UpdateSwapinStatus, initialSwapResult,
        hfresh]
  · intro e he
    have he' : (updateSwapStatus db.Swapins swap.TxId SwapStatus.TxNotSwapped now "").1
        = some e := he
    unfold processSwapinVerify
    simp [h, he', UpdateSwapinStatus]
  · intro hok
    have hp : processSwapoutVerify V now db swap
        = addInitialSwapoutResult
            (UpdateSwapoutStatus db swap.TxId SwapStatus.TxNotSwapped now "").2
            (V swap.TxId).1 now := by
      unfold processSwapoutVerify
      simp [h, hok]
    refine ⟨hp, ?_, ?_⟩
    · rw [hp]
      exact updateSwapStatus_has db.Swapouts swap.TxId _ now "" hok
    · intro hfresh
      rw [hp]
      simp [addInitialSwapoutResult, addSwapResult, UpdateSwapoutStatus, initialSwapResult,
        hfresh]
  · intro e he
    have he' : (updateSwapStatus db.Swapouts swap.TxId SwapStatus.TxNotSwapped now "").1
        = some e := he
    unfold processSwapoutVerify
    simp [h, he', UpdateSwapoutStatus]

/-- The success path on the pending record `0xa`: the status update succeeds and the
call is the insert of the initial result. -/
theorem processVerify_success_witness :
    (verifiedAnswer pendingSwap.TxId).2 = none ∧
      (UpdateSwapinStatus pendingStore pendingSwap.TxId SwapStatus.TxNotSwapped 7 "").1
        = none ∧
      processSwapinVerify verifiedAnswer 7 pendingStore pendingSwap
        = addInitialSwapinResult
            (UpdateSwapinStatus pendingStore pendingSwap.TxId SwapStatus.TxNotSwapped 7 "").2
            (verifiedAnswer pendingSwap.TxId).1 7 :=
  ⟨by decide, by decide,
    ((processVerify_success verifiedAnswer 7 pendingStore pendingSwap (by decide)).1
      (by decide)).1⟩

/-- Claim C8. For a verification error `e`: when `e` is `ErrTxNotStable` both workers
return it and leave the store as it is; when `e` is neither `ErrTxNotStable` nor
`ErrTxWithWrongMemo` the call is the status update to `TxVerifyFailed` and nothing
else: its result is returned (nil when the update succeeds), the record under the key
is then `TxVerifyFailed`, and no result collection changes. -/
theorem processVerify_error (V : String → TxSwapInfo × Option Error) (now : Int)
    (db : Store) (swap : MgoSwap) (e : Error) (h : (V swap.TxId).2 = some e) :
    (e = Error.ErrTxNotStable →
      processSwapinVerify V now db swap = (some Error.ErrTxNotStable, db) ∧
      processSwapoutVerify V now db swap = (some Error.ErrTxNotStable, db)) ∧
    (e ≠ Error.ErrTxNotStable → e ≠ Error.ErrTxWithWrongMemo →
      (processSwapinVerify V now db swap
          = UpdateSwapinStatus db swap.TxId SwapStatus.TxVerifyFailed now "" ∧
        ((processSwapinVerify V now db swap).1 = none →
          ∃ s ∈ (processSwapinVerify V now db swap).2.Swapins,
            s.TxId = swap.TxId ∧ s.Status = SwapStatus.TxVerifyFailed) ∧
        (processSwapinVerify V now db swap).2.SwapinResults = db.SwapinResults ∧
        (processSwapinVerify V now db swap).2.SwapoutResults = db.SwapoutResults) ∧
      (processSwapoutVerify V now db swap
          = UpdateSwapoutStatus db swap.TxId SwapStatus.TxVerifyFailed now "" ∧
        ((processSwapoutVerify V now db swap).1 = none →
          ∃ s ∈ (processSwapoutVerify V now db swap).2.Swapouts,
            s.TxId = swap.TxId ∧ s.Status = SwapStatus.TxVerifyFailed) ∧
        (processSwapoutVerify V now db swap).2.SwapinResults = db.SwapinResults ∧
        (processSwapoutVerify V now db swap).2.SwapoutResults = db.SwapoutResults)) := by
  constructor
  · intro he
    subst he
    constructor
    · unfold processSwapinVerify; simp [h]
    · unfold processSwapoutVerify; simp [h]
  · intro h1 h2
    have hin : processSwapinVerify V now db swap
        = UpdateSwapinStatus db swap.TxId SwapStatus.TxVerifyFailed now "" := by
      unfold processSwapinVerify; simp [h, h1, h2]
    have hout : processSwapoutVerify V now db swap
        = UpdateSwapoutStatus db swap.TxId SwapStatus.TxVerifyFailed now "" := by
      unfold processSwapoutVerify; simp [h, h1, h2]
    refine ⟨⟨hin, ?_, ?_, ?_⟩, ⟨hout, ?_, ?_, ?_⟩⟩
    · rw [hin]
      exact updateSwapStatus_has db.Swapins swap.TxId _ now ""
    · rw [hin]; rfl
    · rw [hin]; rfl
    · rw [hout]
      exact updateSwapStatus_has db.Swapouts swap.TxId _ now ""
    · rw [hout]; rfl
    · rw [hout]; rfl

/-- Both cases on the pending record `0xa`: `ErrTxNotStable` leaves the store as it is,
`ErrTxWithWrongReceiver` is the status update to `TxVerifyFailed` and returns nil. -/
theorem processVerify_error_witness :
    ((notStableAnswer pendingSwap.TxId).2 = some Error.ErrTxNotStable ∧
      (wrongReceiverAnswer pendingSwap.TxId).2 = some Error.ErrTxWithWrongReceiver) ∧
    processSwapinVerify notStableAnswer 7 pendingStore pendingSwap
      = (some Error.ErrTxNotStable, pendingStore) ∧
    processSwapinVerify wrongReceiverAnswer 7 pendingStore pendingSwap
      = UpdateSwapinStatus pendingStore pendingSwap.TxId SwapStatus.TxVerifyFailed 7 "" ∧
    (processSwapinVerify wrongReceiverAnswer 7 pendingStore pendingSwap).1 = none :=
  ⟨⟨by decide, by decide⟩,
    ((processVerify_error notStableAnswer 7 pendingStore pendingSwap
      Error.ErrTxNotStable (by decide)).1 rfl).1,
    ((processVerify_error wrongReceiverAnswer 7 pendingStore pendingSwap
      Error.ErrTxWithWrongReceiver (by decide)).2 (by decide) (by decide)).1.1,
    by decide⟩

/-! ## Verification of a transaction -/

/-- Without a receipt `GetTransactionStatus` returns the zero status. -/
theorem GetTransactionStatus_no_receipt (b : Bridge) (txHash : String)
    (hr : b.GetTransactionReceipt txHash = none) :
    GetTransactionStatus b txHash = some {} := by
  unfold GetTransactionStatus
  rw [hr]

/-- Native swapin verification of a transaction that has no receipt, with
`allowUnstable = false`, stops at the receipt check: the error is
`ErrTxWithWrongReceipt` for every such transaction and configuration. -/
theorem verifySwapinTx_no_receipt (b : Bridge) (txHash : String) (tx : RPCTransaction)
    (hid : b.TokenConfig.ID ≠ "ERC20")
    (htx : b.GetTransactionByHash txHash = some tx)
    (hr : b.GetTransactionReceipt txHash = none) :
    ∃ info, verifySwapinTx b txHash false = some (info, some Error.ErrTxWithWrongReceipt) := by
  unfold verifySwapinTx
  rw [if_neg hid]
  simp only [htx, GetTransactionStatus_no_receipt b txHash hr]
  exact ⟨_, rfl⟩

/-- Claim C3, the code at a mempool transaction: verification with
`allowUnstable = false` of a native deposit that has no block number and no receipt
returns `ErrTxWithWrongReceipt`, not `ErrTxNotStable`, and `processSwapinVerify`
then moves the record from `TxNotStable` to `TxVerifyFailed`. -/
theorem verifySwapinTx_mempool :
    mempoolBridge.TokenConfig.ID ≠ "ERC20" ∧
    (mempoolBridge.GetTransactionByHash "0xa").map (fun tx => tx.BlockNumber) = some none ∧
    mempoolBridge.GetTransactionReceipt "0xa" = none ∧
    verifySwapinTx mempoolBridge "0xa" false
      = some ({ Hash := "0xa", From := "0xf00d", To := "0xdc12", Bind := "0xf00d",
                Value := some 1000000 },
              some Error.ErrTxWithWrongReceipt) ∧
    processSwapinVerify
        (fun txid => ({ Hash := txid, From := "0xf00d", To := "0xdc12", Bind := "0xf00d",
                        Value := some 1000000 },
                      some Error.ErrTxWithWrongReceipt))
        7 pendingStore pendingSwap
      = (none, { pendingStore with
          Swapins := [{ pendingSwap with Status := SwapStatus.TxVerifyFailed,
                                         Timestamp := 7 }] }) := by
  decide

/-- In `verifySwapoutTxStable` the logs are parsed before the sender is looked at: for
every confirmed, successful receipt to the bridge contract whose logs do not decode,
the error is `ErrTxWithWrongInput`, whoever the sender is. -/
theorem verifySwapoutTxStable_input_before_sender (b : Bridge) (txHash : String)
    (st : TxStatus) (receipt : RPCTxReceipt) (required : Nat)
    (hst : GetTransactionStatus b txHash = some st)
    (hrc : st.Receipt = some receipt)
    (hs : receipt.Status = some 1)
    (hheight : st.BlockHeight ≠ 0)
    (hc : b.TokenConfig.Confirmations = some required)
    (hconf : required ≤ st.Confirmations)
    (hto : IsEqualIgnoreCase ((receipt.Recipient.map ToLower).getD "")
      b.TokenConfig.ContractAddress = true)
    (hparse : (parseSwapoutTxLogs b.LogSwapoutTopic receipt.Logs).2.2 ≠ none) :
    ∃ info, verifySwapoutTxStable b txHash = some (info, some Error.ErrTxWithWrongInput) := by
  have hto' : IsEqualIgnoreCase
      (match receipt.Recipient with
        | some r => ({ Hash := txHash, Height := st.BlockHeight,
                       Timestamp := st.BlockTime, To := ToLower r } : TxSwapInfo)
        | none => { Hash := txHash, Height := st.BlockHeight,
                    Timestamp := st.BlockTime }).To
      b.TokenConfig.ContractAddress = true := by
    cases hr : receipt.Recipient with
    | none => rw [hr] at hto; exact hto
    | some r => rw [hr] at hto; exact hto
  have hconf' : ¬ st.Confirmations < required := by omega
  simp only [verifySwapoutTxStable, hst, hrc, hs, hc]
  simp only [ne_eq, not_true_eq_false, if_false, hheight, hconf', hto', Bool.not_true,
    Bool.false_eq_true]
  rw [if_pos hparse]
  exact ⟨_, rfl⟩

/-- Claim C4, the code at a transaction sent by the DCRM address: with a successful,
confirmed receipt to the bridge contract and no swapout log,
`verifySwapoutTxStable` returns `ErrTxWithWrongInput` (the logs are parsed before the
sender is checked), whereas `verifySwapoutTxUnstable` on the same transaction
checks the sender first and returns `ErrTxWithWrongSender`. -/
theorem verifySwapoutTxStable_dcrm_sender :
    (GetTransactionStatus dcrmSenderBridge "0xa").map (fun st => st.Confirmations)
      = some 10 ∧
    IsEqualIgnoreCase "0xC0DE" dcrmSenderBridge.TokenConfig.ContractAddress = true ∧
    IsEqualIgnoreCase "0xDC12" dcrmSenderBridge.TokenConfig.DcrmAddress = true ∧
    verifySwapoutTxStable dcrmSenderBridge "0xa"
      = some ({ Hash := "0xa", Height := 100, Timestamp := 1600000000, From := "0xdc12",
                To := "0xc0de" },
              some Error.ErrTxWithWrongInput) ∧
    verifySwapoutTxUnstable dcrmSenderBridge "0xa"
      = ({ Hash := "0xa", Height := 100, From := "0xdc12", To := "0xc0de" },
         some Error.ErrTxWithWrongSender) := by
  decide

/-- A result of `parseEncodedData` without error carries a value. -/
theorem parseEncodedData_value (encData : List UInt8) (bind : String) (v : Option Int)
    (h : parseEncodedData encData = (bind, v, none)) : ∃ value, v = some value := by
  simp only [parseEncodedData] at h
  split at h
  · simp at h
  · split at h
    · simp at h
    · split at h
      · simp at h
      · simp only [Prod.mk.injEq] at h
        exact ⟨_, h.2.1.symm⟩

/-- A result of `parseSwapoutTxLogs` without error is the decoding of a log that is not
removed, has two topics, the first being `LogSwapoutTopic`, and has data. -/
theorem parseSwapoutTxLogs_ok (topic : String) (logs : List RPCLog) (bind : String)
    (v : Option Int) (h : parseSwapoutTxLogs topic logs = (bind, v, none)) :
    ∃ log data, log ∈ logs ∧ log.Removed ≠ some true ∧ log.Topics.length = 2 ∧
      log.Topics.head? = some topic ∧ log.Data = some data ∧
      parseEncodedData data = (bind, v, none) := by
  induction logs with
  | nil => simp [parseSwapoutTxLogs] at h
  | cons log logs ih =>
    unfold parseSwapoutTxLogs at h
    split at h
    · obtain ⟨l, d, hl, hrest⟩ := ih h
      exact ⟨l, d, List.mem_cons_of_mem _ hl, hrest⟩
    · rename_i hrem
      split at h
      · obtain ⟨l, d, hl, hrest⟩ := ih h
        exact ⟨l, d, List.mem_cons_of_mem _ hl, hrest⟩
      · rename_i hshape
        split at h
        · obtain ⟨l, d, hl, hrest⟩ := ih h
          exact ⟨l, d, List.mem_cons_of_mem _ hl, hrest⟩
        · rename_i htopic
          rw [not_or] at hshape
          obtain ⟨hlen, hdata⟩ := hshape
          obtain ⟨data, hd⟩ := Option.ne_none_iff_exists'.mp hdata
          refine ⟨log, data, List.mem_cons_self _ _, hrem, not_not.mp hlen,
            not_not.mp htopic, hd, ?_⟩
          rw [hd] at h
          exact h

/-- What `verifySwapoutTxStable` has established when it returns `ErrTxWithWrongMemo`. -/
theorem verifySwapoutTxStable_wrongMemo (b : Bridge) (txHash : String) (info : TxSwapInfo)
    (h : verifySwapoutTxStable b txHash = some (info, some Error.ErrTxWithWrongMemo)) :
    ∃ st receipt required,
      GetTransactionStatus b txHash = some st ∧ st.Receipt = some receipt ∧
      receipt.Status = some 1 ∧ b.TokenConfig.Confirmations = some required ∧
      required ≤ st.Confirmations ∧
      info.To = (receipt.Recipient.map ToLower).getD "" ∧
      IsEqualIgnoreCase info.To b.TokenConfig.ContractAddress = true ∧
      info.From = ToLower receipt.From ∧
      IsEqualIgnoreCase info.From b.TokenConfig.DcrmAddress = false ∧
      parseSwapoutTxLogs b.LogSwapoutTopic receipt.Logs = (info.Bind, info.Value, none) ∧
      b.CheckSwapValue info.Value b.IsSrc = true ∧
      b.SrcIsValidAddress info.Bind = false := by
  simp only [verifySwapoutTxStable] at h
  cases hst : GetTransactionStatus b txHash with
  | none => simp [hst] at h
  | some st =>
    simp only [hst] at h
    cases hrc : st.Receipt with
    | none => simp [hrc] at h
    | some receipt =>
      simp only [hrc] at h
      cases hs : receipt.Status with
      | none => simp [hs] at h
      | some status =>
        simp only [hs] at h
        split at h
        · simp at h
        · rename_i h1
          split at h
          · simp at h
          · cases hc : b.TokenConfig.Confirmations with
            | none => simp [hc] at h
            | some required =>
              simp only [hc] at h
              split at h
              · simp at h
              · rename_i hconf
                split at h
                · simp at h
                · rename_i hrecv
                  split at h
                  · simp at h
                  · rename_i hparse
                    split at h
                    · simp at h
                    · rename_i hsender
                      split at h
                      · simp at h
                      · rename_i hvalue
                        split at h
                        · rename_i hmemo
                          simp only [Option.some.injEq, Prod.mk.injEq, and_true] at h
                          subst h
                          refine ⟨st, receipt, required, rfl, hrc, ?_, rfl, ?_, ?_, ?_, ?_,
                            ?_, ?_, ?_, ?_⟩
                          · have h1' : status = 1 := by simpa using h1
                            rw [hs, h1']
                          · omega
                          · cases receipt.Recipient <;> rfl
                          · simpa using hrecv
                          · rfl
                          · simpa using hsender
                          · simp only [ne_eq, not_not] at hparse
                            exact Prod.ext rfl (Prod.ext rfl hparse)
                          · simpa using hvalue
                          · simpa using hmemo
                        · simp at h

/-- What `verifySwapoutTxUnstable` has established when it returns
`ErrTxWithWrongMemo`. -/
theorem verifySwapoutTxUnstable_wrongMemo (b : Bridge) (txHash : String) (info : TxSwapInfo)
    (h : verifySwapoutTxUnstable b txHash = (info, some Error.ErrTxWithWrongMemo)) :
    ∃ tx,
      b.GetTransactionByHash txHash = some tx ∧
      info.To = (tx.Recipient.map ToLower).getD "" ∧
      IsEqualIgnoreCase info.To b.TokenConfig.ContractAddress = true ∧
      info.From = ToLower tx.From ∧
      IsEqualIgnoreCase info.From b.TokenConfig.DcrmAddress = false ∧
      parseSwapoutTxInput b.SwapoutFuncHash tx.Payload = (info.Bind, info.Value, none) ∧
      b.CheckSwapValue info.Value b.IsSrc = true ∧
      b.SrcIsValidAddress info.Bind = false := by
  simp only [verifySwapoutTxUnstable] at h
  cases htx : b.GetTransactionByHash txHash with
  | none => simp [htx] at h
  | some tx =>
    simp only [htx] at h
    split at h
    · simp at h
    · rename_i hrecv
      split at h
      · simp at h
      · rename_i hsender
        split at h
        · simp at h
        · rename_i hparse
          split at h
          · simp at h
          · rename_i hvalue
            split at h
            · rename_i hmemo
              simp only [Prod.mk.injEq, and_true] at h
              subst h
              refine ⟨tx, rfl, ?_, ?_, ?_, ?_, ?_, ?_, ?_⟩
              · cases tx.Recipient <;> cases tx.BlockNumber <;> rfl
              · simpa using hrecv
              · cases tx.Recipient <;> cases tx.BlockNumber <;> rfl
              · simpa using hsender
              · simp only [ne_eq, not_not] at hparse
                exact Prod.ext rfl (Prod.ext rfl hparse)
              · simpa using hvalue
              · simpa using hmemo
            · simp at h

/-- A result of `parseSwapoutTxInput` without error is the decoding of call data that
starts with `SwapoutFuncHash`. -/
theorem parseSwapoutTxInput_ok (funcHash : List UInt8) (input : Option (List UInt8))
    (bind : String) (v : Option Int)
    (h : parseSwapoutTxInput funcHash input = (bind, v, none)) :
    ∃ data, input = some data ∧ data.take 4 = funcHash ∧
      parseEncodedData (data.drop 4) = (bind, v, none) := by
  cases input with
  | none => simp [parseSwapoutTxInput] at h
  | some data =>
    simp only [parseSwapoutTxInput] at h
    split at h
    · simp at h
    · split at h
      · simp at h
      · rename_i hfh
        exact ⟨data, rfl, not_not.mp hfh, h⟩

/-- Claim C5. The memo check is the last check of swapout verification. Whenever
`verifySwapoutTxStable` returns `ErrTxWithWrongMemo`, the receipt has status 1, the
confirmation count is at least the required one, `To` equals the bridge contract and
`From` differs from the DCRM address (ignoring case), a swapout log (not removed, two
topics, the first `LogSwapoutTopic`) was decoded into `(bind, value)`,
`CheckSwapValue(value)` holds, and `bind` is not a valid source-chain address.
Whenever `verifySwapoutTxUnstable` returns `ErrTxWithWrongMemo`, the same holds
without the receipt and confirmation conditions, `(bind, value)` being decoded from
the call data after `SwapoutFuncHash`. -/
theorem verifySwapoutTx_memo_checked_last (b : Bridge) (txHash : String) (info : TxSwapInfo) :
    (verifySwapoutTxStable b txHash = some (info, some Error.ErrTxWithWrongMemo) →
      ∃ st receipt required log data value,
        GetTransactionStatus b txHash = some st ∧ st.Receipt = some receipt ∧
        receipt.Status = some 1 ∧ b.TokenConfig.Confirmations = some required ∧
        required ≤ st.Confirmations ∧
        info.To = (receipt.Recipient.map ToLower).getD "" ∧
        IsEqualIgnoreCase info.To b.TokenConfig.ContractAddress = true ∧
        info.From = ToLower receipt.From ∧
        IsEqualIgnoreCase info.From b.TokenConfig.DcrmAddress = false ∧
        log ∈ receipt.Logs ∧ log.Removed ≠ some true ∧ log.Topics.length = 2 ∧
        log.Topics.head? = some b.LogSwapoutTopic ∧ log.Data = some data ∧
        parseEncodedData data = (info.Bind, some value, none) ∧
        info.Value = some value ∧
        b.CheckSwapValue (some value) b.IsSrc = true ∧
        b.SrcIsValidAddress info.Bind = false) ∧
    (verifySwapoutTxUnstable b txHash = (info, some Error.ErrTxWithWrongMemo) →
      ∃ tx data value,
        b.GetTransactionByHash txHash = some tx ∧
        info.To = (tx.Recipient.map ToLower).getD "" ∧
        IsEqualIgnoreCase info.To b.TokenConfig.ContractAddress = true ∧
        info.From = ToLower tx.From ∧
        IsEqualIgnoreCase info.From b.TokenConfig.DcrmAddress = false ∧
        tx.Payload = some data ∧ data.take 4 = b.SwapoutFuncHash ∧
        parseEncodedData (data.drop 4) = (info.Bind, some value, none) ∧
        info.Value = some value ∧
        b.CheckSwapValue (some value) b.IsSrc = true ∧
        b.SrcIsValidAddress info.Bind = false) := by
  constructor
  · intro h
    obtain ⟨st, receipt, required, hst, hrc, hs, hc, hconf, hto, hto', hfrom, hfrom',
      hparse, hvalue, hmemo⟩ := verifySwapoutTxStable_wrongMemo b txHash info h
    obtain ⟨log, data, hmem, hrem, hlen, htopic, hdata, hdec⟩ :=
      parseSwapoutTxLogs_ok b.LogSwapoutTopic receipt.Logs info.Bind info.Value hparse
    obtain ⟨value, hv⟩ := parseEncodedData_value data info.Bind info.Value hdec
    refine ⟨st, receipt, required, log, data, value, hst, hrc, hs, hc, hconf, hto, hto',
      hfrom, hfrom', hmem, hrem, hlen, htopic, hdata, ?_, hv, ?_, hmemo⟩
    · rw [← hv]; exact hdec
    · rw [← hv]; exact hvalue
  · intro h
    obtain ⟨tx, htx, hto, hto', hfrom, hfrom', hparse, hvalue, hmemo⟩ :=
      verifySwapoutTxUnstable_wrongMemo b txHash info h
    obtain ⟨data, hpay, hfh, hdec⟩ :=
      parseSwapoutTxInput_ok b.SwapoutFuncHash tx.Payload info.Bind info.Value hparse
    obtain ⟨value, hv⟩ := parseEncodedData_value (data.drop 4) info.Bind info.Value hdec
    refine ⟨tx, data, value, htx, hto, hto', hfrom, hfrom', hpay, hfh, ?_, hv, ?_, hmemo⟩
    · rw [← hv]; exact hdec
    · rw [← hv]; exact hvalue

set_option maxRecDepth 100000 in
/-- Scenario S4: both variants return `ErrTxWithWrongMemo` for the memo
`not-an-address`, and that memo is not a valid address. -/
theorem verifySwapoutTx_memo_checked_last_witness :
    (verifySwapoutTxStable wrongMemoBridge "0xa"
        = some ({ Hash := "0xa", Height := 100, Timestamp := 1600000000, From := "0xf00d",
                  To := "0xc0de", Bind := "not-an-address", Value := some 1000000 },
                some Error.ErrTxWithWrongMemo) ∧
      verifySwapoutTxUnstable wrongMemoBridge "0xa"
        = ({ Hash := "0xa", Height := 100, From := "0xf00d", To := "0xc0de",
             Bind := "not-an-address", Value := some 1000000 },
           some Error.ErrTxWithWrongMemo)) ∧
    wrongMemoBridge.SrcIsValidAddress "not-an-address" = false := by
  refine ⟨⟨by decide, by decide⟩, ?_⟩
  obtain ⟨_, _, _, _, _, _, h⟩ :=
    (verifySwapoutTx_memo_checked_last wrongMemoBridge "0xa"
      { Hash := "0xa", Height := 100, Timestamp := 1600000000, From := "0xf00d",
        To := "0xc0de", Bind := "not-an-address", Value := some 1000000 }).1 (by decide)
  exact h.2.2.2.2.2.2.2.2.2.2.2.2.2.2.2.2.2

/-- The log scan decodes the first log that is not removed, has two topics and has
`LogSwapoutTopic` as its first topic, when that log has data. -/
theorem parseSwapoutTxLogs_first (topic : String) (pre : List RPCLog) (log : RPCLog)
    (post : List RPCLog) (data : List UInt8)
    (hpre : ∀ l ∈ pre, l.Removed = some true ∨ l.Topics.length ≠ 2 ∨
      l.Topics.head? ≠ some topic)
    (hrem : log.Removed ≠ some true) (hlen : log.Topics.length = 2)
    (htopic : log.Topics.head? = some topic) (hdata : log.Data = some data) :
    parseSwapoutTxLogs topic (pre ++ log :: post) = parseEncodedData data := by
  induction pre with
  | nil =>
    simp [parseSwapoutTxLogs, hrem, hlen, htopic, hdata]
  | cons l pre ih =>
    have ih' := ih (fun x hx => hpre x (List.mem_cons_of_mem _ hx))
    have hl := hpre l (List.mem_cons_self _ _)
    rw [List.cons_append, parseSwapoutTxLogs]
    by_cases h1 : l.Removed = some true
    · rw [if_pos h1]; exact ih'
    · rw [if_neg h1]
      by_cases h2 : l.Topics.length ≠ 2 ∨ l.Data = none
      · rw [if_pos h2]; exact ih'
      · rw [if_neg h2]
        have h3 : l.Topics.head? ≠ some topic := by
          rcases hl with hl | hl | hl
          · exact absurd hl h1
          · exact absurd (Or.inl hl) h2
          · exact hl
        rw [if_pos h3]; exact ih'

/-- Claim C6, as the code has it (scenario S1 in general). For a destination-side
transaction whose receipt has status 1, whose block height is not 0, whose
confirmation count is at least the required one (the boundary included), whose `To`
equals the bridge contract and whose `From` is not the DCRM address (ignoring case),
and whose first log that is not removed, has two topics and has `LogSwapoutTopic`
as first topic carries the ABI encoding of `(value, bind)`, with `CheckSwapValue`
true of `value` and `bind` a valid source-chain address, `verifySwapoutTxStable`
returns no error and a swap info with that value and that bind. -/
theorem verifySwapoutTxStable_happy (b : Bridge) (txHash : String) (st : TxStatus)
    (receipt : RPCTxReceipt) (required : Nat) (pre : List RPCLog) (log : RPCLog)
    (post : List RPCLog) (value : Nat) (bind : List UInt8)
    (hst : GetTransactionStatus b txHash = some st)
    (hrc : st.Receipt = some receipt)
    (hs : receipt.Status = some 1)
    (hheight : st.BlockHeight ≠ 0)
    (hc : b.TokenConfig.Confirmations = some required)
    (hconf : required ≤ st.Confirmations)
    (hto : IsEqualIgnoreCase ((receipt.Recipient.map ToLower).getD "")
      b.TokenConfig.ContractAddress = true)
    (hfrom : IsEqualIgnoreCase (ToLower receipt.From) b.TokenConfig.DcrmAddress = false)
    (hlogs : receipt.Logs = pre ++ log :: post)
    (hpre : ∀ l ∈ pre, l.Removed = some true ∨ l.Topics.length ≠ 2 ∨
      l.Topics.head? ≠ some b.LogSwapoutTopic)
    (hrem : log.Removed ≠ some true) (hlen : log.Topics.length = 2)
    (htopic : log.Topics.head? = some b.LogSwapoutTopic)
    (hdata : log.Data = some (encode value bind))
    (hv : value < 2 ^ 256) (hb : bind.length < 2 ^ 64)
    (hcheck : b.CheckSwapValue (some (Int.ofNat value)) b.IsSrc = true)
    (hvalid : b.SrcIsValidAddress (string bind) = true) :
    ∃ info, verifySwapoutTxStable b txHash = some (info, none) ∧
      info.Value = some (Int.ofNat value) ∧ info.Bind = string bind ∧
      info.Hash = txHash := by
  have hparse : parseSwapoutTxLogs b.LogSwapoutTopic receipt.Logs
      = (string bind, some (Int.ofNat value), none) := by
    rw [hlogs, parseSwapoutTxLogs_first b.LogSwapoutTopic pre log post (encode value bind)
      hpre hrem hlen htopic hdata]
    exact parseEncodedData_encode_of_lt value bind hv hb
  have hto' : IsEqualIgnoreCase
      (match receipt.Recipient with
        | some r => ({ Hash := txHash, Height := st.BlockHeight,
                       Timestamp := st.BlockTime, To := ToLower r } : TxSwapInfo)
        | none => { Hash := txHash, Height := st.BlockHeight,
                    Timestamp := st.BlockTime }).To
      b.TokenConfig.ContractAddress = true := by
    cases hr : receipt.Recipient with
    | none => rw [hr] at hto; exact hto
    | some r => rw [hr] at hto; exact hto
  have hconf' : ¬ st.Confirmations < required := by omega
  simp only [verifySwapoutTxStable, hst, hrc, hs, hc]
  simp only [ne_eq, not_true_eq_false, if_false, hheight, hconf', hto', hparse, hfrom, hcheck,
    hvalid, Bool.not_true, Bool.false_eq_true]
  exact ⟨_, rfl, rfl, rfl, by cases receipt.Recipient <;> rfl⟩

set_option maxRecDepth 100000 in
/-- Scenario S1: the swapout of 1000000 bound to `0xb1d` with exactly the required ten
confirmations verifies. -/
theorem verifySwapoutTxStable_happy_witness :
    (GetTransactionStatus happyBridge "0xa" = some happyStatus ∧
      happyBridge.TokenConfig.Confirmations = some 10 ∧
      happyStatus.Confirmations = 10 ∧ happyStatus.BlockHeight ≠ 0) ∧
    ∃ info, verifySwapoutTxStable happyBridge "0xa" = some (info, none) ∧
      info.Value = some (Int.ofNat 1000000) ∧ info.Bind = string bindBytes ∧
      info.Hash = "0xa" :=
  ⟨by decide,
    verifySwapoutTxStable_happy happyBridge "0xa" happyStatus
      (swapoutReceipt 100 (encode 1000000 bindBytes)) 10 []
      (swapoutLog (encode 1000000 bindBytes)) [] 1000000 bindBytes
      (by decide) (by decide) (by decide) (by decide) (by decide) (by decide) (by decide)
      (by decide) (by decide) (by simp) (by decide) (by decide) (by decide) (by decide)
      (by norm_num) (by decide) (by decide) (by decide)⟩

set_option maxRecDepth 100000 in
/-- Claim C6 as stated fails at block height 0: the receipt has status 1, the
confirmation count 110 is above the required 10, `To` is the bridge contract, `From`
is not the DCRM address, the first log is a swapout log carrying the encoding of
`(1000000, "0xb1d")`, the value passes `CheckSwapValue` and the bind is a valid
address, and yet `verifySwapoutTxStable` returns `ErrTxNotStable`. -/
theorem verifySwapoutTxStable_height_zero :
    ((GetTransactionStatus heightZeroBridge "0xa").map (fun st => st.Confirmations)
        = some 110 ∧
      heightZeroBridge.TokenConfig.Confirmations = some 10 ∧
      (swapoutReceipt 0 (encode 1000000 bindBytes)).Status = some 1 ∧
      IsEqualIgnoreCase "0xC0DE" heightZeroBridge.TokenConfig.ContractAddress = true ∧
      IsEqualIgnoreCase "0xF00D" heightZeroBridge.TokenConfig.DcrmAddress = false ∧
      (swapoutReceipt 0 (encode 1000000 bindBytes)).Logs
        = [swapoutLog (encode 1000000 bindBytes)] ∧
      (swapoutLog (encode 1000000 bindBytes)).Topics.head?
        = some heightZeroBridge.LogSwapoutTopic ∧
      heightZeroBridge.CheckSwapValue (some 1000000) heightZeroBridge.IsSrc = true ∧
      heightZeroBridge.SrcIsValidAddress (string bindBytes) = true) ∧
    verifySwapoutTxStable heightZeroBridge "0xa"
      = some ({ Hash := "0xa", Height := 0, Timestamp := 1600000000 },
              some Error.ErrTxNotStable) := by
  decide

/-! ## The swap info carries the transaction hash -/

theorem verifySwapoutTxStable_hash (b : Bridge) (txHash : String)
    (r : TxSwapInfo × Option Error) (h : verifySwapoutTxStable b txHash = some r) :
    r.1.Hash = txHash := by
  simp only [verifySwapoutTxStable] at h
  repeat' split at h
  all_goals first
    | (simp at h; done)
    | (simp only [Option.some.injEq] at h; subst h; rfl)

theorem verifySwapoutTxUnstable_hash (b : Bridge) (txHash : String) :
    (verifySwapoutTxUnstable b txHash).1.Hash = txHash := by
  simp only [verifySwapoutTxUnstable]
  repeat' split
  all_goals rfl

theorem verifySwapinTxChecks_fst (b : Bridge) (swapInfo : TxSwapInfo) :
    (verifySwapinTxChecks b swapInfo).1 = swapInfo := by
  simp only [verifySwapinTxChecks]
  repeat' split
  all_goals rfl

theorem verifySwapinTx_hash (b : Bridge) (txHash : String) (allowUnstable : Bool)
    (r : TxSwapInfo × Option Error) (hid : b.TokenConfig.ID ≠ "ERC20")
    (h : verifySwapinTx b txHash allowUnstable = some r) :
    r.1.Hash = txHash := by
  simp only [verifySwapinTx, if_neg hid] at h
  repeat' split at h
  all_goals first
    | (simp at h; done)
    | (simp only [Option.some.injEq] at h; subst h; rfl)
    | (simp only [Option.some.injEq] at h; subst h; rw [verifySwapinTxChecks_fst])

/-- Every answer of `VerifyTransaction` (swapout, and native swapin) carries the hash it
was asked about. -/
theorem VerifyTransaction_hash (b : Bridge) (txHash : String) (allowUnstable : Bool)
    (r : TxSwapInfo × Option Error)
    (hid : b.IsSrc = true → b.TokenConfig.ID ≠ "ERC20")
    (h : VerifyTransaction b txHash allowUnstable = some r) :
    r.1.Hash = txHash := by
  unfold VerifyTransaction at h
  cases hsrc : b.IsSrc with
  | true =>
    rw [hsrc] at h
    exact verifySwapinTx_hash b txHash allowUnstable r (hid hsrc) h
  | false =>
    rw [hsrc] at h
    simp only [Bool.not_false, if_true, verifySwapoutTx] at h
    cases allowUnstable with
    | true =>
      simp only [if_true, Option.some.injEq] at h
      rw [← h]
      exact verifySwapoutTxUnstable_hash b txHash
    | false =>
      simp only [Bool.false_eq_true, if_false] at h
      exact verifySwapoutTxStable_hash b txHash r h

/-! ## The store invariant under the verification workers -/

theorem resultsHaveVerifiedSwap_iff (swaps : List MgoSwap) (results : List MgoSwapResult) :
    resultsHaveVerifiedSwap swaps results = true ↔
      ∀ r ∈ results, ∃ s ∈ swaps, s.TxId = r.TxId ∧ s.Status ≠ SwapStatus.TxNotStable ∧
        s.Status ≠ SwapStatus.TxVerifyFailed := by
  simp [resultsHaveVerifiedSwap, List.all_eq_true, List.any_eq_true, and_assoc]

/-- The invariant survives a status update out of `TxNotStable`: the record that backs a
result is not `TxNotStable`, so the update does not touch it. -/
theorem invariant_after_update (swaps : List MgoSwap) (results : List MgoSwapResult)
    (txid : String) (status : SwapStatus) (timestamp : Int) (memo : String)
    (hinv : resultsHaveVerifiedSwap swaps results = true)
    (hprior : priorStatus status = some SwapStatus.TxNotStable) :
    resultsHaveVerifiedSwap (updateSwapStatus swaps txid status timestamp memo).2 results
      = true := by
  rw [resultsHaveVerifiedSwap_iff] at hinv ⊢
  intro r hr
  obtain ⟨s, hs, hid, h1, h2⟩ := hinv r hr
  have hne : ¬ (s.TxId = txid ∧ some s.Status = priorStatus status) := by
    rw [hprior]
    intro hboth
    exact h1 (Option.some.inj hboth.2)
  exact ⟨s, updateSwapStatus_keeps swaps txid status timestamp memo s hs hne, hid, h1, h2⟩

/-- The invariant survives the insert of a result whose key has a verified record. -/
theorem invariant_after_insert (swaps : List MgoSwap) (results : List MgoSwapResult)
    (r : MgoSwapResult)
    (hinv : resultsHaveVerifiedSwap swaps results = true)
    (hr : ∃ s ∈ swaps, s.TxId = r.TxId ∧ s.Status ≠ SwapStatus.TxNotStable ∧
      s.Status ≠ SwapStatus.TxVerifyFailed) :
    resultsHaveVerifiedSwap swaps (addSwapResult results r).2 = true := by
  unfold addSwapResult
  by_cases hdup : results.any (fun x => decide (x.TxId = r.TxId)) = true
  · rw [if_pos hdup]; exact hinv
  · rw [if_neg hdup]
    rw [resultsHaveVerifiedSwap_iff] at hinv ⊢
    intro x hx
    rcases List.mem_append.mp hx with hx | hx
    · exact hinv x hx
    · rw [List.mem_singleton] at hx
      rw [hx]; exact hr

/-- The invariant survives "set a verified status, then insert the result of that key",
which is the tail of the workers on a nil error and on `ErrTxWithWrongMemo`. -/
theorem invariant_after_update_insert (swaps : List MgoSwap) (results : List MgoSwapResult)
    (txid : String) (status : SwapStatus) (timestamp : Int) (memo : String)
    (r : MgoSwapResult)
    (hinv : resultsHaveVerifiedSwap swaps results = true)
    (hprior : priorStatus status = some SwapStatus.TxNotStable)
    (h1 : status ≠ SwapStatus.TxNotStable) (h2 : status ≠ SwapStatus.TxVerifyFailed)
    (hkey : r.TxId = txid)
    (hok : (updateSwapStatus swaps txid status timestamp memo).1 = none) :
    resultsHaveVerifiedSwap (updateSwapStatus swaps txid status timestamp memo).2
      (addSwapResult results r).2 = true := by
  apply invariant_after_insert
  · exact invariant_after_update swaps results txid status timestamp memo hinv hprior
  · obtain ⟨s, hs, hid, hstat⟩ := updateSwapStatus_has swaps txid status timestamp memo hok
    exact ⟨s, hs, by rw [hid, hkey], by rw [hstat]; exact h1, by rw [hstat]; exact h2⟩

/-- The store invariant is kept by both workers for every outcome whose swap info carries
the key of the record as its `Hash`: the initial result is stored under that hash, next
to the pending record that the status update has just moved out of `TxNotStable`. -/
theorem processVerify_invariant_of_hash (V : String → TxSwapInfo × Option Error) (now : Int)
    (db : Store) (swap : MgoSwap) (hinv : StoreInvariant db)
    (hhash : (V swap.TxId).1.Hash = swap.TxId) :
    StoreInvariant (processSwapinVerify V now db swap).2 ∧
      StoreInvariant (processSwapoutVerify V now db swap).2 := by
  obtain ⟨hin, hout⟩ := hinv
  constructor
  · -- swapin
    have htail : ∀ status, priorStatus status = some SwapStatus.TxNotStable →
        status ≠ SwapStatus.TxNotStable → status ≠ SwapStatus.TxVerifyFailed →
        StoreInvariant
          (if (UpdateSwapinStatus db swap.TxId status now "").1 ≠ none then
            UpdateSwapinStatus db swap.TxId status now ""
          else
            addInitialSwapinResult (UpdateSwapinStatus db swap.TxId status now "").2
              (V swap.TxId).1 now).2 := by
      intro status hprior h1 h2
      by_cases hok : (updateSwapStatus db.Swapins swap.TxId status now "").1 = none
      · have hok' : ¬ (UpdateSwapinStatus db swap.TxId status now "").1 ≠ none := by
          simpa [UpdateSwapinStatus] using hok
        rw [if_neg hok']
        exact ⟨invariant_after_update_insert db.Swapins db.SwapinResults swap.TxId status now ""
          (initialSwapResult (V swap.TxId).1 1 now) hin hprior h1 h2 hhash hok, hout⟩
      · have hok' : (UpdateSwapinStatus db swap.TxId status now "").1 ≠ none := hok
        rw [if_pos hok']
        exact ⟨invariant_after_update db.Swapins db.SwapinResults swap.TxId status now "" hin
          hprior, hout⟩
    unfold processSwapinVerify
    by_cases e1 : (V swap.TxId).2 = some Error.ErrTxNotStable
    · simp only [e1, if_true]
      exact ⟨hin, hout⟩
    · by_cases e2 : (V swap.TxId).2 = some Error.ErrTxWithWrongMemo
      · simp only [e2, if_true]
        simp only [reduceCtorEq, Option.some.injEq, if_false]
        exact htail SwapStatus.TxCanRecall rfl (by decide) (by decide)
      · by_cases e3 : (V swap.TxId).2 = none
        · simp only [e3, if_true]
          simp only [reduceCtorEq, if_false]
          exact htail SwapStatus.TxNotSwapped rfl (by decide) (by decide)
        · simp only [e1, e2, e3, if_false]
          exact ⟨invariant_after_update db.Swapins db.SwapinResults swap.TxId _ now "" hin rfl,
            hout⟩
  · -- swapout
    have htail : ∀ status, priorStatus status = some SwapStatus.TxNotStable →
        status ≠ SwapStatus.TxNotStable → status ≠ SwapStatus.TxVerifyFailed →
        StoreInvariant
          (if (UpdateSwapoutStatus db swap.TxId status now "").1 ≠ none then
            UpdateSwapoutStatus db swap.TxId status now ""
          else
            addInitialSwapoutResult (UpdateSwapoutStatus db swap.TxId status now "").2
              (V swap.TxId).1 now).2 := by
      intro status hprior h1 h2
      by_cases hok : (updateSwapStatus db.Swapouts swap.TxId status now "").1 = none
      · have hok' : ¬ (UpdateSwapoutStatus db swap.TxId status now "").1 ≠ none := by
          simpa [UpdateSwapoutStatus] using hok
        rw [if_neg hok']
        exact ⟨hin, invariant_after_update_insert db.Swapouts db.SwapoutResults swap.TxId status
          now "" (initialSwapResult (V swap.TxId).1 2 now) hout hprior h1 h2 hhash hok⟩
      · have hok' : (UpdateSwapoutStatus db swap.TxId status now "").1 ≠ none := hok
        rw [if_pos hok']
        exact ⟨hin, invariant_after_update db.Swapouts db.SwapoutResults swap.TxId status now ""
          hout hprior⟩
    unfold processSwapoutVerify
    by_cases e1 : (V swap.TxId).2 = some Error.ErrTxNotStable
    · simp only [e1, if_true]
      exact ⟨hin, hout⟩
    · by_cases e2 : (V swap.TxId).2 = some Error.ErrTxWithWrongMemo
      · simp only [e2, if_true]
        simp only [reduceCtorEq, Option.some.injEq, if_false]
        exact htail SwapStatus.TxCanRecall rfl (by decide) (by decide)
      · by_cases e3 : (V swap.TxId).2 = none
        · simp only [e3, if_true]
          simp only [reduceCtorEq, if_false]
          exact htail SwapStatus.TxNotSwapped rfl (by decide) (by decide)
        · simp only [e1, e2, e3, if_false]
          exact ⟨hin, invariant_after_update db.Swapouts db.SwapoutResults swap.TxId _ now ""
            hout rfl⟩

/-- Every answer of `VerifyTransaction` carries the hash it was asked about. For a
source-side ERC20 token the answer is that of the ERC-20 variant, which is not among
the sources; `herc` is this property of its answer. -/
theorem VerifyTransaction_hash_all (b : Bridge) (txHash : String) (allowUnstable : Bool)
    (r : TxSwapInfo × Option Error)
    (herc : b.IsSrc = true → b.TokenConfig.ID = "ERC20" → r.1.Hash = txHash)
    (h : VerifyTransaction b txHash allowUnstable = some r) :
    r.1.Hash = txHash := by
  by_cases hcase : b.IsSrc = true ∧ b.TokenConfig.ID = "ERC20"
  · exact herc hcase.1 hcase.2
  · exact VerifyTransaction_hash b txHash allowUnstable r
      (fun hsrc hid => hcase ⟨hsrc, hid⟩) h

/-- Claim C9. Store invariant kept by the verification engine: if every result record has
a pending record of its key whose status is neither `TxNotStable` nor
`TxVerifyFailed`, the same holds after `processSwapinVerify` and after
`processSwapoutVerify` on any record with any outcome `r` that `VerifyTransaction` of
the bridge returns for the record, with or without an error. For a source-side ERC20
token the outcome comes from the ERC-20 variant, which is not among the sources and is
taken to return the hash it was asked about, as every path in the sources does. -/
theorem processVerify_keeps_invariant (b : Bridge) (allowUnstable : Bool) (now : Int)
    (db : Store) (swap : MgoSwap) (r : TxSwapInfo × Option Error)
    (hinv : StoreInvariant db)
    (hr : VerifyTransaction b swap.TxId allowUnstable = some r)
    (herc : b.IsSrc = true → b.TokenConfig.ID = "ERC20" → r.1.Hash = swap.TxId) :
    StoreInvariant (processSwapinVerify (fun _ => r) now db swap).2 ∧
      StoreInvariant (processSwapoutVerify (fun _ => r) now db swap).2 :=
  processVerify_invariant_of_hash (fun _ => r) now db swap hinv
    (VerifyTransaction_hash_all b swap.TxId allowUnstable r herc hr)

set_option maxRecDepth 100000 in
/-- The invariant is kept on a path that inserts a result: in `mixedStore`, where `0xa`
has its result and `0xc` awaits verification, the confirmed deposit `0xc` verifies on
the source-side bridge, the record becomes `TxNotSwapped` and its initial result is
added next to the result of `0xa`. -/
theorem processVerify_keeps_invariant_witness :
    (StoreInvariant mixedStore ∧
      VerifyTransaction (swapinBridge (some (depositReceipt 100)) (some 110)) "0xc" false
        = some ({ Hash := "0xc", Height := 100, Timestamp := 1600000000, From := "0xf00d",
                  To := "0xdc12", Bind := "0xf00d", Value := some 1000000 }, none)) ∧
    (StoreInvariant
        (processSwapinVerify
          (fun _ => ({ Hash := "0xc", Height := 100, Timestamp := 1600000000,
                       From := "0xf00d", To := "0xdc12", Bind := "0xf00d",
                       Value := some 1000000 }, none))
          7 mixedStore { TxId := "0xc", Status := SwapStatus.TxNotStable }).2 ∧
      StoreInvariant
        (processSwapoutVerify
          (fun _ => ({ Hash := "0xc", Height := 100, Timestamp := 1600000000,
                       From := "0xf00d", To := "0xdc12", Bind := "0xf00d",
                       Value := some 1000000 }, none))
          7 mixedStore { TxId := "0xc", Status := SwapStatus.TxNotStable }).2) ∧
    ((processSwapinVerify
        (fun _ => ({ Hash := "0xc", Height := 100, Timestamp := 1600000000,
                     From := "0xf00d", To := "0xdc12", Bind := "0xf00d",
                     Value := some 1000000 }, none))
        7 mixedStore { TxId := "0xc", Status := SwapStatus.TxNotStable }).2.SwapinResults.map
      (fun x => x.TxId)) = ["0xa", "0xc"] :=
  ⟨⟨by decide, by decide⟩,
    processVerify_keeps_invariant (swapinBridge (some (depositReceipt 100)) (some 110)) false
      7 mixedStore { TxId := "0xc", Status := SwapStatus.TxNotStable }
      ({ Hash := "0xc", Height := 100, Timestamp := 1600000000, From := "0xf00d",
         To := "0xdc12", Bind := "0xf00d", Value := some 1000000 }, none)
      (by decide) (by decide) (fun _ hid => absurd hid (by decide)),
    by decide⟩

/-! ## Records that are not `TxNotStable` -/

/-- The query of the verify job returns stored records in the status asked for. -/
theorem findSwapsWithStatus_mem (coll : List MgoSwap) (status : SwapStatus) (septime : Int)
    (s : MgoSwap) (hs : s ∈ findSwapsWithStatus coll status septime) :
    s ∈ coll ∧ s.Status = status := by
  unfold findSwapsWithStatus at hs
  rw [List.mem_filter] at hs
  refine ⟨hs.1, ?_⟩
  have h := hs.2
  simp only [Bool.and_eq_true, decide_eq_true_eq] at h
  exact h.1

/-- Claim C10. Idempotence of verification: on a record whose stored status is not
`TxNotStable`, `processSwapinVerify` and `processSwapoutVerify` leave the store as
it is, whatever the verification outcome: the status of the record and the result
collection are the same afterwards, so no status regresses. The verify job does not
even select such a record: `findSwapinsToVerify` and `findSwapoutsToVerify` return
records in status `TxNotStable` only. -/
theorem processVerify_idempotent (V : String → TxSwapInfo × Option Error) (now septime : Int)
    (db : Store) (swap : MgoSwap) :
    (keySettled db.Swapins swap.TxId → (processSwapinVerify V now db swap).2 = db) ∧
    (keySettled db.Swapouts swap.TxId → (processSwapoutVerify V now db swap).2 = db) ∧
    (∀ s ∈ findSwapinsToVerify db septime, s.Status = SwapStatus.TxNotStable) ∧
    (∀ s ∈ findSwapoutsToVerify db septime, s.Status = SwapStatus.TxNotStable) := by
  refine ⟨?_, ?_, fun s hs => (findSwapsWithStatus_mem db.Swapins _ septime s hs).2,
    fun s hs => (findSwapsWithStatus_mem db.Swapouts _ septime s hs).2⟩
  · intro hset
    have hupd : ∀ status, priorStatus status = some SwapStatus.TxNotStable →
        (UpdateSwapinStatus db swap.TxId status now "").1 ≠ none ∧
          (UpdateSwapinStatus db swap.TxId status now "").2 = db := by
      intro status hprior
      obtain ⟨h1, h2⟩ := updateSwapStatus_settled db.Swapins swap.TxId status now "" hset hprior
      refine ⟨h1, ?_⟩
      show { db with Swapins := (updateSwapStatus db.Swapins swap.TxId status now "").2 } = db
      rw [h2]
    unfold processSwapinVerify
    by_cases e1 : (V swap.TxId).2 = some Error.ErrTxNotStable
    · simp only [e1, if_true]
    · by_cases e2 : (V swap.TxId).2 = some Error.ErrTxWithWrongMemo
      · simp only [e2, if_true]
        simp only [reduceCtorEq, Option.some.injEq, if_false]
        rw [if_pos (hupd SwapStatus.TxCanRecall rfl).1]
        exact (hupd SwapStatus.TxCanRecall rfl).2
      · by_cases e3 : (V swap.TxId).2 = none
        · simp only [e3, if_true]
          simp only [reduceCtorEq, if_false]
          rw [if_pos (hupd SwapStatus.TxNotSwapped rfl).1]
          exact (hupd SwapStatus.TxNotSwapped rfl).2
        · simp only [e1, e2, e3, if_false]
          exact (hupd SwapStatus.TxVerifyFailed rfl).2
  · intro hset
    have hupd : ∀ status, priorStatus status = some SwapStatus.TxNotStable →
        (UpdateSwapoutStatus db swap.TxId status now "").1 ≠ none ∧
          (UpdateSwapoutStatus db swap.TxId status now "").2 = db := by
      intro status hprior
      obtain ⟨h1, h2⟩ := updateSwapStatus_settled db.Swapouts swap.TxId status now "" hset hprior
      refine ⟨h1, ?_⟩
      show { db with Swapouts := (updateSwapStatus db.Swapouts swap.TxId status now "").2 } = db
      rw [h2]
    unfold processSwapoutVerify
    by_cases e1 : (V swap.TxId).2 = some Error.ErrTxNotStable
    · simp only [e1, if_true]
    · by_cases e2 : (V swap.TxId).2 = some Error.ErrTxWithWrongMemo
      · simp only [e2, if_true]
        simp only [reduceCtorEq, Option.some.injEq, if_false]
        rw [if_pos (hupd SwapStatus.TxCanRecall rfl).1]
        exact (hupd SwapStatus.TxCanRecall rfl).2
      · by_cases e3 : (V swap.TxId).2 = none
        · simp only [e3, if_true]
          simp only [reduceCtorEq, if_false]
          rw [if_pos (hupd SwapStatus.TxNotSwapped rfl).1]
          exact (hupd SwapStatus.TxNotSwapped rfl).2
        · simp only [e1, e2, e3, if_false]
          exact (hupd SwapStatus.TxVerifyFailed rfl).2

/-- Processing the verified record `0xa` again, with a failed verification, leaves the
store as it is. -/
theorem processVerify_idempotent_witness :
    (verifiedSwap.Status ≠ SwapStatus.TxNotStable ∧
      keySettled mixedStore.Swapins verifiedSwap.TxId) ∧
    (processSwapinVerify wrongReceiverAnswer 7 mixedStore verifiedSwap).2 = mixedStore :=
  have hset : keySettled mixedStore.Swapins verifiedSwap.TxId := by
    unfold keySettled
    decide
  ⟨⟨by decide, hset⟩,
    (processVerify_idempotent wrongReceiverAnswer 7 100 mixedStore verifiedSwap).1 hset⟩

/-! ## The words read by the memo decoder -/

/-- Within the data, the word read at `offset` is the big-endian value of the 32 bytes
`data[offset .. offset+32)`. -/
theorem wordAt_of_le (data : List UInt8) (offset : Nat) (h : offset + 32 ≤ data.length) :
    wordAt data offset = bytesToNat ((data.drop offset).take 32) := by
  unfold wordAt
  rw [GetData_of_le data offset 32 h]

/-- The function `common.GetUint64` on a word of 32 bytes: the low 64 bits of the word, and
whether the word exceeds them. -/
theorem GetUint64_eq (data : List UInt8) (offset : Nat) :
    GetUint64 data offset 32
      = (wordAt data offset % uint64Size, decide (uint64Size ≤ wordAt data offset)) := by
  rfl

/-! ## The log scan -/

/-- Claim C12. `parseSwapoutTxLogs` honours only the first matching log: for every list
of logs the result is `parseEncodedData` of the data of the first log that is not
removed, has exactly two topics, has data and has `LogSwapoutTopic` as first topic
(also when that log does not decode and a later one would); when no log matches,
the result is an error. -/
theorem parseSwapoutTxLogs_first_match (topic : String) (logs : List RPCLog) :
    parseSwapoutTxLogs topic logs
      = (match logs.find? (isSwapoutLog topic) with
          | some log => parseEncodedData (log.Data.getD [])
          | none => ("", none, some (Error.other "swapout log not found or removed"))) ∧
    (logs.find? (isSwapoutLog topic) = none → (parseSwapoutTxLogs topic logs).2.2 ≠ none) := by
  have hmain : parseSwapoutTxLogs topic logs
      = (match logs.find? (isSwapoutLog topic) with
          | some log => parseEncodedData (log.Data.getD [])
          | none => ("", none, some (Error.other "swapout log not found or removed"))) := by
    induction logs with
    | nil => rfl
    | cons log logs ih =>
      rw [parseSwapoutTxLogs, List.find?_cons]
      by_cases h1 : log.Removed = some true
      · have hm : isSwapoutLog topic log = false := by simp [isSwapoutLog, h1]
        rw [if_pos h1, hm]; exact ih
      · rw [if_neg h1]
        by_cases h2 : log.Topics.length ≠ 2 ∨ log.Data = none
        · have hm : isSwapoutLog topic log = false := by
            rcases h2 with h2 | h2
            · simp [isSwapoutLog, h2]
            · simp [isSwapoutLog, h2]
          rw [if_pos h2, hm]; exact ih
        · rw [if_neg h2]
          rw [not_or] at h2
          obtain ⟨h2a, h2b⟩ := h2
          by_cases h3 : log.Topics.head? ≠ some topic
          · have hm : isSwapoutLog topic log = false := by simp [isSwapoutLog, h3]
            rw [if_pos h3, hm]; exact ih
          · have hm : isSwapoutLog topic log = true := by
              obtain ⟨d, hd⟩ := Option.ne_none_iff_exists'.mp h2b
              simp [isSwapoutLog, h1, not_not.mp h2a, hd, not_not.mp h3]
            rw [if_neg h3, hm]
  refine ⟨hmain, ?_⟩
  intro hnone
  rw [hmain, hnone]
  simp

set_option maxRecDepth 100000 in
/-- The scan at a list whose first swapout log does not decode and whose second does:
the result is the error of the first. -/
theorem parseSwapoutTxLogs_first_only :
    (parseSwapoutTxLogs "0x6b616089" undecodableThenGood).2.2
        = some (Error.other "wrong lenght of encoded data") ∧
      (parseSwapoutTxLogs "0x6b616089" undecodableThenGood.tail).2.2 = none := by
  decide

set_option maxRecDepth 100000 in
/-- The scan of `undecodableThenGood` is the decoding of its first log, and the scan of
the empty list is an error. -/
theorem parseSwapoutTxLogs_first_match_witness :
    parseSwapoutTxLogs "0x6b616089" undecodableThenGood
        = parseEncodedData [0x01, 0x02] ∧
      (([] : List RPCLog).find? (isSwapoutLog "0x6b616089") = none ∧
        (parseSwapoutTxLogs "0x6b616089" []).2.2 ≠ none) :=
  ⟨(parseSwapoutTxLogs_first_match "0x6b616089" undecodableThenGood).1,
    rfl, (parseSwapoutTxLogs_first_match "0x6b616089" []).2 rfl⟩

/-! ## Native swapin: what a successful verification has established -/

/-- Claim C13. Whenever `verifySwapinTx` returns no error for a token that is not
ERC20, the swap info has `Bind = From`, `Value` the native amount of the
transaction, `To` equal to the DCRM address and `From` different from it (ignoring
case), and `CheckSwapValue` holds of `Value`; when `allowUnstable` is false, the
receipt moreover has status 1 and the confirmation count is at least the required
one. -/
theorem verifySwapinTx_ok (b : Bridge) (txHash : String) (allowUnstable : Bool)
    (info : TxSwapInfo) (hid : b.TokenConfig.ID ≠ "ERC20")
    (h : verifySwapinTx b txHash allowUnstable = some (info, none)) :
    ∃ tx, b.GetTransactionByHash txHash = some tx ∧
      info.Bind = info.From ∧ info.From = ToLower tx.From ∧
      info.To = (tx.Recipient.map ToLower).getD "" ∧
      info.Value = tx.Amount ∧
      IsEqualIgnoreCase info.To b.TokenConfig.DcrmAddress = true ∧
      IsEqualIgnoreCase info.From b.TokenConfig.DcrmAddress = false ∧
      b.CheckSwapValue info.Value b.IsSrc = true ∧
      (allowUnstable = false →
        ∃ st receipt required,
          GetTransactionStatus b txHash = some st ∧ st.Receipt = some receipt ∧
          receipt.Status = some 1 ∧ b.TokenConfig.Confirmations = some required ∧
          required ≤ st.Confirmations) := by
  have hchecks : ∀ si : TxSwapInfo, verifySwapinTxChecks b si = (info, none) →
      info = si ∧ IsEqualIgnoreCase si.To b.TokenConfig.DcrmAddress = true ∧
      IsEqualIgnoreCase si.From b.TokenConfig.DcrmAddress = false ∧
      b.CheckSwapValue si.Value b.IsSrc = true := by
    intro si hsi
    simp only [verifySwapinTxChecks] at hsi
    split at hsi
    · simp at hsi
    · rename_i h1
      split at hsi
      · simp at hsi
      · rename_i h2
        split at hsi
        · simp at hsi
        · rename_i h3
          simp only [Prod.mk.injEq, and_true] at hsi
          exact ⟨hsi.symm, by simpa using h1, by simpa using h2, by simpa using h3⟩
  simp only [verifySwapinTx, if_neg hid] at h
  cases htx : b.GetTransactionByHash txHash with
  | none => simp [htx] at h
  | some tx =>
    simp only [htx] at h
    refine ⟨tx, rfl, ?_⟩
    cases allowUnstable with
    | true =>
      simp only [Bool.not_true, Bool.false_eq_true, if_false, Option.some.injEq] at h
      obtain ⟨hinfo, hto, hfrom, hval⟩ := hchecks _ h
      subst hinfo
      refine ⟨rfl, rfl, ?_, rfl, hto, hfrom, hval, ?_⟩
      · cases tx.Recipient <;> cases tx.BlockNumber <;> rfl
      · intro hfalse; exact absurd hfalse (by decide)
    | false =>
      simp only [Bool.not_false, if_true] at h
      cases hst : GetTransactionStatus b txHash with
      | none => simp [hst] at h
      | some st =>
        simp only [hst] at h
        cases hrc : st.Receipt with
        | none => simp [hrc] at h
        | some receipt =>
          simp only [hrc] at h
          cases hs : receipt.Status with
          | none => simp [hs] at h
          | some status =>
            simp only [hs] at h
            split at h
            · simp at h
            · rename_i h1
              split at h
              · simp at h
              · cases hc : b.TokenConfig.Confirmations with
                | none => simp [hc] at h
                | some required =>
                  simp only [hc] at h
                  split at h
                  · simp at h
                  · rename_i hconf
                    simp only [Option.some.injEq] at h
                    obtain ⟨hinfo, hto, hfrom, hval⟩ := hchecks _ h
                    subst hinfo
                    have h1' : status = 1 := by simpa using h1
                    refine ⟨rfl, rfl, ?_, rfl, hto, hfrom, hval, ?_⟩
                    · cases tx.Recipient <;> cases tx.BlockNumber <;> rfl
                    · intro _
                      exact ⟨st, receipt, required, rfl, hrc, by rw [hs, h1'], rfl,
                        by omega⟩

/-- A confirmed native deposit verifies, with and without `allowUnstable`. -/
theorem verifySwapinTx_ok_witness :
    ((swapinBridge (some (depositReceipt 100)) (some 110)).TokenConfig.ID ≠ "ERC20" ∧
      verifySwapinTx (swapinBridge (some (depositReceipt 100)) (some 110)) "0xa" false
        = some ({ Hash := "0xa", Height := 100, Timestamp := 1600000000, From := "0xf00d",
                  To := "0xdc12", Bind := "0xf00d", Value := some 1000000 }, none)) ∧
    ∃ tx, (swapinBridge (some (depositReceipt 100)) (some 110)).GetTransactionByHash "0xa"
        = some tx ∧ tx.Amount = some 1000000 := by
  refine ⟨⟨by decide, by decide⟩, ?_⟩
  obtain ⟨tx, htx, _, _, _, hval, _⟩ :=
    verifySwapinTx_ok (swapinBridge (some (depositReceipt 100)) (some 110)) "0xa" false
      { Hash := "0xa", Height := 100, Timestamp := 1600000000, From := "0xf00d",
        To := "0xdc12", Bind := "0xf00d", Value := some 1000000 } (by decide) (by decide)
  exact ⟨tx, htx, hval.symm⟩

/-! ## Letter case of addresses in verification -/

/-- The status of a transaction under a change of letter case: everything but the
receipt it carries is the same. -/
theorem GetTransactionStatus_caseEq (R : String → String → Prop) (b b' : Bridge)
    (txHash : String) (h : bridgeCaseEq R b b' txHash) :
    optionRel (fun st st' => st'.Confirmations = st.Confirmations ∧
        st'.BlockHeight = st.BlockHeight ∧ st'.BlockTime = st.BlockTime ∧
        optionRel (receiptCaseEq R b.LogSwapoutTopic) st.Receipt st'.Receipt)
      (GetTransactionStatus b txHash) (GetTransactionStatus b' txHash) := by
  have hr := h.receipt
  unfold GetTransactionStatus
  cases h1 : b.GetTransactionReceipt txHash with
  | none =>
    cases h2 : b'.GetTransactionReceipt txHash with
    | none => simp [optionRel]
    | some r' => rw [h1, h2] at hr; exact hr.elim
  | some r =>
    cases h2 : b'.GetTransactionReceipt txHash with
    | none => rw [h1, h2] at hr; exact hr.elim
    | some r' =>
      rw [h1, h2] at hr
      have hr' : receiptCaseEq R b.LogSwapoutTopic r r' := hr
      simp only [hr'.status, hr'.blockNumber, hr'.blockHash, h.block, h.latest]
      cases r.Status with
      | none => simp [optionRel]
      | some status =>
        simp only [optionRel]
        refine ⟨?_, ?_, ?_, hr'⟩
        · cases b.GetBlockByHash r.BlockHash <;> cases b.GetLatestBlockNumber <;>
            by_cases hs : status = 1 <;> simp [hs]
        · cases b.GetBlockByHash r.BlockHash <;> cases b.GetLatestBlockNumber <;>
            by_cases hs : status = 1 <;> simp [hs]
        · cases b.GetBlockByHash r.BlockHash <;> cases b.GetLatestBlockNumber <;>
            by_cases hs : status = 1 <;> simp [hs]

theorem IsEqualIgnoreCase_congr (s s' t t' : String) (hs : ToLower s' = ToLower s)
    (ht : ToLower t' = ToLower t) : IsEqualIgnoreCase s' t' = IsEqualIgnoreCase s t := by
  unfold IsEqualIgnoreCase
  rw [hs, ht]

/-- The errors of `verifySwapoutTxStable` on two runs that differ in letter case only,
when the address check of the source chain agrees on the two decoded binds. -/
theorem verifySwapoutTxStable_caseEq (R : String → String → Prop) (b b' : Bridge)
    (txHash : String) (h : bridgeCaseEq R b b' txHash)
    (hv : ∀ s s', R s s' → b.SrcIsValidAddress s = b.SrcIsValidAddress s') :
    (verifySwapoutTxStable b' txHash).map Prod.snd
      = (verifySwapoutTxStable b txHash).map Prod.snd := by
  have hs := GetTransactionStatus_caseEq R b b' txHash h
  simp only [verifySwapoutTxStable]
  cases h1 : GetTransactionStatus b txHash with
  | none =>
    cases h2 : GetTransactionStatus b' txHash with
    | none => rfl
    | some st' => rw [h1, h2] at hs; exact hs.elim
  | some st =>
    cases h2 : GetTransactionStatus b' txHash with
    | none => rw [h1, h2] at hs; exact hs.elim
    | some st' =>
      rw [h1, h2] at hs
      obtain ⟨hc, hh, ht, hrc⟩ := hs
      simp only []
      cases h3 : st.Receipt with
      | none =>
        cases h4 : st'.Receipt with
        | none => rfl
        | some r' => rw [h3, h4] at hrc; exact hrc.elim
      | some r =>
        cases h4 : st'.Receipt with
        | none => rw [h3, h4] at hrc; exact hrc.elim
        | some r' =>
          rw [h3, h4] at hrc
          have hr : receiptCaseEq R b.LogSwapoutTopic r r' := hrc
          have hto : IsEqualIgnoreCase ((r'.Recipient.map ToLower).getD "")
              b'.TokenConfig.ContractAddress
              = IsEqualIgnoreCase ((r.Recipient.map ToLower).getD "")
                  b.TokenConfig.ContractAddress := by
            rw [hr.recipient]
            exact IsEqualIgnoreCase_congr _ _ _ _ rfl h.contract
          have hfrom : IsEqualIgnoreCase (ToLower r'.From) b'.TokenConfig.DcrmAddress
              = IsEqualIgnoreCase (ToLower r.From) b.TokenConfig.DcrmAddress := by
            rw [hr.sender]
            exact IsEqualIgnoreCase_congr _ _ _ _ rfl h.dcrm
          have hp := hr.logs
          obtain ⟨hbind, hrest⟩ := hp
          have hvalid := hv _ _ hbind
          simp only [hr.status, h.confirmations, hc, hh, ht, h.topic, h.isSrc, h.checkValue,
            h.validAddress]
          cases r.Status with
          | none => rfl
          | some status =>
            simp only []
            by_cases hst : status = 1
            · simp only [hst, ne_eq, not_true_eq_false, if_false]
              by_cases hz : st.BlockHeight = 0
              · simp [hz]
              · simp only [hz, if_false]
                cases b.TokenConfig.Confirmations with
                | none => rfl
                | some required =>
                  simp only []
                  by_cases hcf : st.Confirmations < required
                  · simp [hcf]
                  · simp only [hcf, if_false]
                    have hrest2 : (parseSwapoutTxLogs b.LogSwapoutTopic r'.Logs).2
                        = (parseSwapoutTxLogs b.LogSwapoutTopic r.Logs).2 := hrest
                    have hrec := hr.recipient
                    cases hR : r.Recipient with
                    | none =>
                      cases hR' : r'.Recipient with
                      | none =>
                        simp only [hR, hR', Option.map_none', Option.getD_none] at hto
                        simp only [apply_ite (Option.map Prod.snd), Option.map_some', hto, hfrom,
                          hrest2, ← hvalid]
                      | some x' => rw [hR, hR'] at hrec; simp at hrec
                    | some x =>
                      cases hR' : r'.Recipient with
                      | none => rw [hR, hR'] at hrec; simp at hrec
                      | some x' =>
                        simp only [hR, hR', Option.map_some', Option.getD_some] at hto
                        simp only [apply_ite (Option.map Prod.snd), Option.map_some', hto, hfrom,
                          hrest2, ← hvalid]
            · simp [hst]

/-- The errors of `verifySwapoutTxUnstable` on two runs that differ in letter case only,
when the address check of the source chain agrees on the two decoded binds. -/
theorem verifySwapoutTxUnstable_caseEq (R : String → String → Prop) (b b' : Bridge)
    (txHash : String) (h : bridgeCaseEq R b b' txHash)
    (hv : ∀ s s', R s s' → b.SrcIsValidAddress s = b.SrcIsValidAddress s') :
    (verifySwapoutTxUnstable b' txHash).2 = (verifySwapoutTxUnstable b txHash).2 := by
  have htx := h.tx
  simp only [verifySwapoutTxUnstable]
  cases h1 : b.GetTransactionByHash txHash with
  | none =>
    cases h2 : b'.GetTransactionByHash txHash with
    | none => rfl
    | some t' => rw [h1, h2] at htx; exact htx.elim
  | some t =>
    cases h2 : b'.GetTransactionByHash txHash with
    | none => rw [h1, h2] at htx; exact htx.elim
    | some t' =>
      rw [h1, h2] at htx
      have ht : txCaseEq R b.SwapoutFuncHash t t' := htx
      have hto : IsEqualIgnoreCase ((t'.Recipient.map ToLower).getD "")
          b'.TokenConfig.ContractAddress
          = IsEqualIgnoreCase ((t.Recipient.map ToLower).getD "")
              b.TokenConfig.ContractAddress := by
        rw [ht.recipient]
        exact IsEqualIgnoreCase_congr _ _ _ _ rfl h.contract
      have hfrom : IsEqualIgnoreCase (ToLower t'.From) b'.TokenConfig.DcrmAddress
          = IsEqualIgnoreCase (ToLower t.From) b.TokenConfig.DcrmAddress := by
        rw [ht.sender]
        exact IsEqualIgnoreCase_congr _ _ _ _ rfl h.dcrm
      obtain ⟨hbind, hrest⟩ := ht.payload
      have hvalid := hv _ _ hbind
      have hrest2 : (parseSwapoutTxInput b.SwapoutFuncHash t'.Payload).2
          = (parseSwapoutTxInput b.SwapoutFuncHash t.Payload).2 := hrest
      have hrec := ht.recipient
      simp only [h.funcHash, h.isSrc, h.checkValue, h.validAddress]
      cases hR : t.Recipient with
      | none =>
        cases hR' : t'.Recipient with
        | none =>
          simp only [hR, hR', Option.map_none', Option.getD_none] at hto
          cases t.BlockNumber <;> cases t'.BlockNumber <;>
            simp only [apply_ite Prod.snd, hto, hfrom, hrest2, ← hvalid]
        | some x' => rw [hR, hR'] at hrec; simp at hrec
      | some x =>
        cases hR' : t'.Recipient with
        | none => rw [hR, hR'] at hrec; simp at hrec
        | some x' =>
          simp only [hR, hR', Option.map_some', Option.getD_some] at hto
          cases t.BlockNumber <;> cases t'.BlockNumber <;>
            simp only [apply_ite Prod.snd, hto, hfrom, hrest2, ← hvalid]

/-- The result of the tail of `verifySwapinTx` depends on `To` and `From` only through
their comparison with the DCRM address. -/
theorem verifySwapinTxChecks_caseEq (b b' : Bridge) (si si' : TxSwapInfo)
    (hto : IsEqualIgnoreCase si'.To b'.TokenConfig.DcrmAddress
      = IsEqualIgnoreCase si.To b.TokenConfig.DcrmAddress)
    (hfrom : IsEqualIgnoreCase si'.From b'.TokenConfig.DcrmAddress
      = IsEqualIgnoreCase si.From b.TokenConfig.DcrmAddress)
    (hval : b'.CheckSwapValue si'.Value b'.IsSrc = b.CheckSwapValue si.Value b.IsSrc) :
    (verifySwapinTxChecks b' si').2 = (verifySwapinTxChecks b si).2 := by
  simp only [verifySwapinTxChecks, apply_ite Prod.snd, hto, hfrom, hval]

/-- The errors of native `verifySwapinTx` on two runs that differ in letter case only. -/
theorem verifySwapinTx_caseEq (R : String → String → Prop) (b b' : Bridge)
    (txHash : String) (allowUnstable : Bool) (h : bridgeCaseEq R b b' txHash)
    (hid : b.TokenConfig.ID ≠ "ERC20") :
    (verifySwapinTx b' txHash allowUnstable).map Prod.snd
      = (verifySwapinTx b txHash allowUnstable).map Prod.snd := by
  have htx := h.tx
  have hs := GetTransactionStatus_caseEq R b b' txHash h
  have hid' : b'.TokenConfig.ID ≠ "ERC20" := by rw [h.id]; exact hid
  simp only [verifySwapinTx, if_neg hid, if_neg hid']
  cases h1 : b.GetTransactionByHash txHash with
  | none =>
    cases h2 : b'.GetTransactionByHash txHash with
    | none => rfl
    | some t' => rw [h1, h2] at htx; exact htx.elim
  | some t =>
    cases h2 : b'.GetTransactionByHash txHash with
    | none => rw [h1, h2] at htx; exact htx.elim
    | some t' =>
      rw [h1, h2] at htx
      have ht : txCaseEq R b.SwapoutFuncHash t t' := htx
      have hto : IsEqualIgnoreCase ((t'.Recipient.map ToLower).getD "")
          b'.TokenConfig.DcrmAddress
          = IsEqualIgnoreCase ((t.Recipient.map ToLower).getD "")
              b.TokenConfig.DcrmAddress := by
        rw [ht.recipient]
        exact IsEqualIgnoreCase_congr _ _ _ _ rfl h.dcrm
      have hfrom : IsEqualIgnoreCase (ToLower t'.From) b'.TokenConfig.DcrmAddress
          = IsEqualIgnoreCase (ToLower t.From) b.TokenConfig.DcrmAddress := by
        rw [ht.sender]
        exact IsEqualIgnoreCase_congr _ _ _ _ rfl h.dcrm
      have hval : ∀ v, b'.CheckSwapValue v b'.IsSrc = b.CheckSwapValue v b.IsSrc := by
        intro v; rw [h.checkValue, h.isSrc]
      have hchecks : ∀ si si' : TxSwapInfo,
          si'.To = (t'.Recipient.map ToLower).getD "" → si.To = (t.Recipient.map ToLower).getD "" →
          si'.From = ToLower t'.From → si.From = ToLower t.From → si'.Value = si.Value →
          (verifySwapinTxChecks b' si').2 = (verifySwapinTxChecks b si).2 := by
        intro si si' e1 e2 e3 e4 e5
        apply verifySwapinTxChecks_caseEq
        · rw [e1, e2]; exact hto
        · rw [e3, e4]; exact hfrom
        · rw [e5]; exact hval _
      cases allowUnstable with
      | true =>
        simp only [Bool.not_true, Bool.false_eq_true, if_false, Option.map_some',
          Option.some.injEq]
        apply hchecks
        · cases t'.Recipient <;> cases t'.BlockNumber <;> rfl
        · cases t.Recipient <;> cases t.BlockNumber <;> rfl
        · rfl
        · rfl
        · exact ht.amount
      | false =>
        simp only [Bool.not_false, if_true]
        cases h3 : GetTransactionStatus b txHash with
        | none =>
          cases h4 : GetTransactionStatus b' txHash with
          | none => rfl
          | some st' => rw [h3, h4] at hs; exact hs.elim
        | some st =>
          cases h4 : GetTransactionStatus b' txHash with
          | none => rw [h3, h4] at hs; exact hs.elim
          | some st' =>
            rw [h3, h4] at hs
            obtain ⟨hc, hh, htm, hrc⟩ := hs
            simp only []
            cases h5 : st.Receipt with
            | none =>
              cases h6 : st'.Receipt with
              | none => rfl
              | some r' => rw [h5, h6] at hrc; exact hrc.elim
            | some r =>
              cases h6 : st'.Receipt with
              | none => rw [h5, h6] at hrc; exact hrc.elim
              | some r' =>
                rw [h5, h6] at hrc
                have hr : receiptCaseEq R b.LogSwapoutTopic r r' := hrc
                simp only [hr.status, h.confirmations, hc, hh, htm]
                cases r.Status with
                | none => rfl
                | some status =>
                  simp only []
                  by_cases hst : status = 1
                  · simp only [hst, ne_eq, not_true_eq_false, if_false]
                    by_cases hz : st.BlockHeight = 0
                    · simp [hz]
                    · simp only [hz, if_false]
                      cases b.TokenConfig.Confirmations with
                      | none => rfl
                      | some required =>
                        simp only []
                        by_cases hcf : st.Confirmations < required
                        · simp [hcf]
                        · simp only [hcf, if_false, Option.map_some', Option.some.injEq]
                          apply hchecks
                          · cases t'.Recipient <;> cases t'.BlockNumber <;> rfl
                          · cases t.Recipient <;> cases t.BlockNumber <;> rfl
                          · rfl
                          · rfl
                          · exact ht.amount
                  · simp [hst]

/-- Letter case in verification, as far as the sources decide it. The error returned by
`verifySwapoutTxStable`, `verifySwapoutTxUnstable` and native `verifySwapinTx` is
unchanged when the letter case of the transaction's `From` or `To` or of the
configured DCRM or contract address is changed. The decoded bind is handed as decoded
to the address check of the source chain, which is not among the sources: a change
of its letter case leaves the error unchanged if that check ignores letter case. -/
theorem verify_case_independent (b b' : Bridge) (txHash : String) :
    (bridgeCaseEq Eq b b' txHash →
      (verifySwapoutTxStable b' txHash).map Prod.snd
          = (verifySwapoutTxStable b txHash).map Prod.snd ∧
        (verifySwapoutTxUnstable b' txHash).2 = (verifySwapoutTxUnstable b txHash).2 ∧
        (b.TokenConfig.ID ≠ "ERC20" → ∀ allowUnstable,
          (verifySwapinTx b' txHash allowUnstable).map Prod.snd
            = (verifySwapinTx b txHash allowUnstable).map Prod.snd)) ∧
    (bridgeCaseEq sameIgnoringCase b b' txHash →
      (∀ s s', sameIgnoringCase s s' → b.SrcIsValidAddress s = b.SrcIsValidAddress s') →
      (verifySwapoutTxStable b' txHash).map Prod.snd
          = (verifySwapoutTxStable b txHash).map Prod.snd ∧
        (verifySwapoutTxUnstable b' txHash).2 = (verifySwapoutTxUnstable b txHash).2 ∧
        (b.TokenConfig.ID ≠ "ERC20" → ∀ allowUnstable,
          (verifySwapinTx b' txHash allowUnstable).map Prod.snd
            = (verifySwapinTx b txHash allowUnstable).map Prod.snd)) := by
  constructor
  · intro h
    have hv : ∀ s s', s = s' → b.SrcIsValidAddress s = b.SrcIsValidAddress s' := by
      intro s s' hs; rw [hs]
    exact ⟨verifySwapoutTxStable_caseEq Eq b b' txHash h hv,
      verifySwapoutTxUnstable_caseEq Eq b b' txHash h hv,
      fun hid a => verifySwapinTx_caseEq Eq b b' txHash a h hid⟩
  · intro h hv
    exact ⟨verifySwapoutTxStable_caseEq sameIgnoringCase b b' txHash h hv,
      verifySwapoutTxUnstable_caseEq sameIgnoringCase b b' txHash h hv,
      fun hid a => verifySwapinTx_caseEq sameIgnoringCase b b' txHash a h hid⟩

set_option maxRecDepth 100000 in
/-- Scenario S1 with the addresses of the transaction and of the configuration written
in the other letter case is related to scenario S1. -/
theorem recasedBridge_caseEq : bridgeCaseEq Eq happyBridge recasedBridge "0xa" :=
  { id := rfl, confirmations := rfl, dcrm := by decide, contract := by decide, isSrc := rfl,
    block := rfl, latest := rfl, topic := rfl, funcHash := rfl, checkValue := rfl,
    validAddress := rfl,
    receipt :=
      show receiptCaseEq Eq _ _ _ from
        { status := rfl, blockNumber := rfl, blockHash := rfl, sender := by decide,
          recipient := by decide, logs := ⟨rfl, rfl⟩ },
    tx :=
      show txCaseEq Eq _ _ _ from
        { blockNumber := rfl, sender := by decide, recipient := by decide, amount := rfl,
          payload := ⟨rfl, rfl⟩ } }

set_option maxRecDepth 100000 in
/-- Scenario S1 verifies whichever letter case the addresses are written in. -/
theorem verify_case_independent_recased :
    bridgeCaseEq Eq happyBridge recasedBridge "0xa" ∧
    (verifySwapoutTxStable recasedBridge "0xa").map Prod.snd
      = (verifySwapoutTxStable happyBridge "0xa").map Prod.snd ∧
    (verifySwapoutTxStable happyBridge "0xa").map Prod.snd = some none :=
  ⟨recasedBridge_caseEq,
    ((verify_case_independent happyBridge recasedBridge "0xa").1 recasedBridge_caseEq).1,
    by decide⟩

/-! ## The status of a transaction -/

/-- When the receipt carries a `Status`, `GetTransactionStatus` returns, and with a
status other than 1 the confirmation count is zero. -/
theorem GetTransactionStatus_with_status (b : Bridge) (txHash : String)
    (txr : RPCTxReceipt) (status : Nat)
    (hr : b.GetTransactionReceipt txHash = some txr) (hs : txr.Status = some status) :
    ∃ st, GetTransactionStatus b txHash = some st ∧ st.Receipt = some txr ∧
      st.BlockHeight = txr.BlockNumber % uint64Size ∧ st.BlockHash = txr.BlockHash ∧
      (status ≠ 1 → st.Confirmations = 0) := by
  unfold GetTransactionStatus
  simp only [hr, hs]
  refine ⟨_, rfl, rfl, ?_, ?_, ?_⟩
  · cases b.GetBlockByHash txr.BlockHash <;> cases b.GetLatestBlockNumber <;>
      by_cases h1 : status = 1 <;> simp [h1]
  · cases b.GetBlockByHash txr.BlockHash <;> cases b.GetLatestBlockNumber <;>
      by_cases h1 : status = 1 <;> simp [h1]
  · intro h1
    cases b.GetBlockByHash txr.BlockHash <;> simp [h1]

/-- The confirmation count of a successful receipt under the chain head `L` reported by
the gateway: `L - BlockHeight` when the head is at or past the receipt, and
`2 ^ 64 - (BlockHeight - L)` when the gateway lags behind the receipt. -/
theorem GetTransactionStatus_confirmations (b : Bridge) (txHash : String)
    (txr : RPCTxReceipt) (L : Nat)
    (hr : b.GetTransactionReceipt txHash = some txr) (hs : txr.Status = some 1)
    (hl : b.GetLatestBlockNumber = some L) (hL : L < uint64Size) :
    ∃ st, GetTransactionStatus b txHash = some st ∧
      st.BlockHeight = txr.BlockNumber % uint64Size ∧
      (st.BlockHeight ≤ L → st.Confirmations = L - st.BlockHeight) ∧
      (L < st.BlockHeight → st.Confirmations = uint64Size - (st.BlockHeight - L)) := by
  have hh : txr.BlockNumber % uint64Size < uint64Size :=
    Nat.mod_lt _ (by unfold uint64Size; norm_num)
  have hconf : ∀ h, h < uint64Size →
      ((h ≤ L → (L % uint64Size + uint64Size - h) % uint64Size = L - h) ∧
        (L < h → (L % uint64Size + uint64Size - h) % uint64Size = uint64Size - (h - L))) := by
    intro h hlt
    rw [Nat.mod_eq_of_lt hL]
    constructor
    · intro hle
      have : L + uint64Size - h = (L - h) + uint64Size := by omega
      rw [this, Nat.add_mod_right, Nat.mod_eq_of_lt (by omega)]
    · intro hgt
      have : L + uint64Size - h = uint64Size - (h - L) := by omega
      rw [this, Nat.mod_eq_of_lt (by omega)]
  unfold GetTransactionStatus
  simp only [hr, hs, hl]
  cases b.GetBlockByHash txr.BlockHash with
  | none => exact ⟨_, rfl, rfl, hconf _ hh⟩
  | some block => exact ⟨_, rfl, rfl, hconf _ hh⟩

/-- Claim C19, the code at a receipt without a `Status`: `GetTransactionStatus`
dereferences the nil `Status` and aborts, and so does `verifySwapinTx` with
`allowUnstable = false`; without a receipt it returns the zero status. -/
theorem GetTransactionStatus_statusless :
    (swapinBridge (some statuslessReceipt) (some 110)).GetTransactionReceipt "0xa"
      = some statuslessReceipt ∧
    statuslessReceipt.Status = none ∧
    GetTransactionStatus (swapinBridge (some statuslessReceipt) (some 110)) "0xa" = none ∧
    verifySwapinTx (swapinBridge (some statuslessReceipt) (some 110)) "0xa" false = none ∧
    GetTransactionStatus (swapinBridge none (some 110)) "0xa"
      = some { Receipt := none, Confirmations := 0, BlockHeight := 0, BlockHash := "",
               BlockTime := 0 } := by
  decide

set_option maxRecDepth 100000 in
/-- Claim C20, the code at a gateway that lags: with the receipt at height 100, the
reported chain head 99 and ten confirmations required, the confirmation count is
`99 - 100` in 64-bit unsigned arithmetic, `2 ^ 64 - 1`, and both
`verifySwapoutTxStable` and `verifySwapinTx` with `allowUnstable = false` get past
the stability check and accept the transaction, although `99 < 100 + 10`. -/
theorem verify_stable_lagging_gateway :
    laggingBridge.GetLatestBlockNumber = some 99 ∧
    laggingBridge.TokenConfig.Confirmations = some 10 ∧
    (GetTransactionStatus laggingBridge "0xa").map (fun st => (st.BlockHeight, st.Confirmations))
      = some (100, 18446744073709551615) ∧
    ¬ (100 + 10 ≤ 99) ∧
    (verifySwapoutTxStable laggingBridge "0xa").map Prod.snd = some none ∧
    (GetTransactionStatus (swapinBridge (some (depositReceipt 100)) (some 99)) "0xa").map
        (fun st => (st.BlockHeight, st.Confirmations))
      = some (100, 18446744073709551615) ∧
    (verifySwapinTx (swapinBridge (some (depositReceipt 100)) (some 99)) "0xa" false).map
        Prod.snd = some none := by
  decide

/-! ## Signing -/

/-- A transaction that passes the receiver guard is the raw transaction itself, with a
receiver that is neither nil nor the zero address and equals the router contract
ignoring case. -/
theorem verifyTransactionReceiver_ok (b : RouterBridge) (rawTx : Option Transaction)
    (tx : Transaction) :
    verifyTransactionReceiver b rawTx = Except.ok tx ↔
      rawTx = some tx ∧ ∃ rcv, tx.To = some rcv ∧ rcv ≠ zeroAddress ∧
        EqualFold rcv b.ChainConfig.RouterContract = true := by
  cases rawTx with
  | none => simp [verifyTransactionReceiver]
  | some t =>
    cases hto : t.To with
    | none => simp [verifyTransactionReceiver, hto]; intro h; simp [← h, hto]
    | some rcv =>
      by_cases hz : rcv = zeroAddress
      · simp [verifyTransactionReceiver, hto, hz]; intro h; simp [← h, hto, hz]
      · cases hf : EqualFold rcv b.ChainConfig.RouterContract with
        | false =>
          simp [verifyTransactionReceiver, hto, hz, hf]
          intro h; simp [← h, hto, hf]
        | true =>
          simp [verifyTransactionReceiver, hto, hz, hf]
          intro h; simp [← h, hto, hz, hf]

/-- Once the receiver guard is passed, the arguments that the caller finds after the
call are the arguments after the gas floor, wherever the call returns. -/
theorem DcrmSignTransaction_args (b : RouterBridge) (rawTx : Option Transaction)
    (args : BuildTxArgs) (tx : Transaction)
    (h : verifyTransactionReceiver b rawTx = Except.ok tx) :
    (DcrmSignTransaction b rawTx args).args = applyGasFloor b.getGasPrice args := by
  simp only [DcrmSignTransaction, h]
  repeat' split
  all_goals rfl

/-- When the receiver guard refuses, the call returns the error of the guard and nothing
else happens. -/
theorem DcrmSignTransaction_refused (b : RouterBridge) (rawTx : Option Transaction)
    (args : BuildTxArgs) (err : Error)
    (h : verifyTransactionReceiver b rawTx = Except.error err) :
    DcrmSignTransaction b rawTx args =
      { signTx := none, txHash := "", err := some err, args := args, calls := [] } := by
  simp only [DcrmSignTransaction, h]

/-- The gas floor changes the gas price of the arguments and nothing else. -/
theorem applyGasFloor_price (queried : Except Error Int) (args : BuildTxArgs) :
    (applyGasFloor queried args).Extra.EthExtra.GasPrice =
      (match queried with
       | Except.ok gasPrice => max args.Extra.EthExtra.GasPrice gasPrice
       | Except.error _ => args.Extra.EthExtra.GasPrice) ∧
    (applyGasFloor queried args).SwapID = args.SwapID := by
  cases queried with
  | error e => exact ⟨rfl, rfl⟩
  | ok q =>
    by_cases hlt : args.Extra.EthExtra.GasPrice < q
    · simp [applyGasFloor, hlt, max_eq_right (le_of_lt hlt)]
    · simp [applyGasFloor, hlt, max_eq_left (not_lt.mp hlt)]

/-- A call that passes every signing check returns the signed transaction, its hash and
no error, after the gas floor and the two calls. -/
theorem DcrmSignTransaction_of_checks (b : RouterBridge) (rawTx : Option Transaction)
    (args : BuildTxArgs) (tx : Transaction) (keyID rsv : String) (signedTx : Transaction)
    (sender : String)
    (hg : verifyTransactionReceiver b rawTx = Except.ok tx)
    (hsd : b.DoSignOne b.ChainConfig.RouterMPCPubkey (b.Signer.Hash tx)
      (b.Marshal (applyGasFloor b.getGasPrice args)) = (keyID, [rsv], none))
    (hsig : (b.FromHex rsv).length = SignatureLength)
    (hw : WithSignature tx b.Signer (b.FromHex rsv) = Except.ok signedTx)
    (hs : b.Signer.Sender signedTx = Except.ok sender)
    (hf : EqualFold sender b.ChainConfig.RouterMPC = true) :
    DcrmSignTransaction b rawTx args =
      { signTx := some signedTx, txHash := b.TxHash signedTx, err := none,
        args := applyGasFloor b.getGasPrice args,
        calls := [Call.getGasPrice,
          Call.DoSignOne b.ChainConfig.RouterMPCPubkey (b.Signer.Hash tx)
            (b.Marshal (applyGasFloor b.getGasPrice args))] } := by
  simp [DcrmSignTransaction, hg, hsd, hsig, hw, hs, hf]

/-- A call that returns no error has passed every signing check. -/
theorem DcrmSignTransaction_success (b : RouterBridge) (rawTx : Option Transaction)
    (args : BuildTxArgs) (h : (DcrmSignTransaction b rawTx args).err = none) :
    ∃ tx keyID rsv signedTx sender,
      verifyTransactionReceiver b rawTx = Except.ok tx ∧
      b.DoSignOne b.ChainConfig.RouterMPCPubkey (b.Signer.Hash tx)
        (b.Marshal (applyGasFloor b.getGasPrice args)) = (keyID, [rsv], none) ∧
      (b.FromHex rsv).length = SignatureLength ∧
      WithSignature tx b.Signer (b.FromHex rsv) = Except.ok signedTx ∧
      b.Signer.Sender signedTx = Except.ok sender ∧
      EqualFold sender b.ChainConfig.RouterMPC = true := by
  cases hg : verifyTransactionReceiver b rawTx with
  | error e => rw [DcrmSignTransaction_refused b rawTx args e hg] at h; cases h
  | ok tx =>
    cases hsd : b.DoSignOne b.ChainConfig.RouterMPCPubkey (b.Signer.Hash tx)
      (b.Marshal (applyGasFloor b.getGasPrice args)) with
    | mk keyID rest =>
      obtain ⟨rsvs, serr⟩ := rest
      cases serr with
      | some e => simp [DcrmSignTransaction, hg, hsd] at h
      | none =>
        by_cases hlen : rsvs.length = 1
        · obtain ⟨rsv, rfl⟩ := List.length_eq_one.mp hlen
          by_cases hsig : (b.FromHex rsv).length = SignatureLength
          · cases hw : WithSignature tx b.Signer (b.FromHex rsv) with
            | error e => simp [DcrmSignTransaction, hg, hsd, hsig, hw] at h
            | ok signedTx =>
              cases hs : b.Signer.Sender signedTx with
              | error e => simp [DcrmSignTransaction, hg, hsd, hsig, hw, hs] at h
              | ok sender =>
                cases hf : EqualFold sender b.ChainConfig.RouterMPC with
                | false => simp [DcrmSignTransaction, hg, hsd, hsig, hw, hs, hf] at h
                | true => exact ⟨tx, keyID, rsv, signedTx, sender, rfl, hsd, hsig, hw, hs, hf⟩
          · simp [DcrmSignTransaction, hg, hsd, hsig] at h
        · simp [DcrmSignTransaction, hg, hsd, hlen] at h

/-- Every return of `DcrmSignTransaction` with an error carries a nil transaction and an
empty hash. -/
theorem DcrmSignTransaction_failure (b : RouterBridge) (rawTx : Option Transaction)
    (args : BuildTxArgs) (h : (DcrmSignTransaction b rawTx args).err ≠ none) :
    (DcrmSignTransaction b rawTx args).signTx = none ∧
      (DcrmSignTransaction b rawTx args).txHash = "" := by
  simp only [DcrmSignTransaction] at h ⊢
  repeat' split
  all_goals first
    | exact ⟨rfl, rfl⟩
    | simp_all

/-- What `WithSignature` returns is the transaction with the signature attached. -/
theorem WithSignature_ok (tx : Transaction) (signer : Signer) (sig : List UInt8)
    (signedTx : Transaction) (h : WithSignature tx signer sig = Except.ok signedTx) :
    signedTx = { tx with Signature := some sig } := by
  simp only [WithSignature] at h
  split at h
  · cases h
  · cases h; rfl

/-- Claim C15. Gas floor: for a raw transaction that passes the receiver guard, the gas
price that the arguments carry after `DcrmSignTransaction` is the larger of the old
price and the queried price when the gas price query succeeds, and the old price when
the query fails; it is never lower than before the call. The signing service, the
signer and the decoder are arbitrary, so this holds whatever the later steps
return. -/
theorem DcrmSignTransaction_gas_floor (b : RouterBridge) (rawTx : Option Transaction)
    (args : BuildTxArgs) (tx : Transaction)
    (h : verifyTransactionReceiver b rawTx = Except.ok tx) :
    (DcrmSignTransaction b rawTx args).args.Extra.EthExtra.GasPrice =
      (match b.getGasPrice with
       | Except.ok gasPrice => max args.Extra.EthExtra.GasPrice gasPrice
       | Except.error _ => args.Extra.EthExtra.GasPrice) ∧
    args.Extra.EthExtra.GasPrice ≤
      (DcrmSignTransaction b rawTx args).args.Extra.EthExtra.GasPrice := by
  rw [DcrmSignTransaction_args b rawTx args tx h]
  refine ⟨(applyGasFloor_price b.getGasPrice args).1, ?_⟩
  rw [(applyGasFloor_price b.getGasPrice args).1]
  cases b.getGasPrice with
  | error e => exact le_refl _
  | ok q => exact le_max_left _ _

/-- Scenario S6 for the arguments: gas price 10 and a queried price of 25 leave the
arguments with 25, here on a call whose signing fails for want of a signature. -/
theorem DcrmSignTransaction_gas_floor_witness :
    verifyTransactionReceiver (routerBridge (Except.ok 25) []) (some routerTx)
        = Except.ok routerTx ∧
      (DcrmSignTransaction (routerBridge (Except.ok 25) []) (some routerTx)
          args10).args.Extra.EthExtra.GasPrice = max 10 25 ∧
      (10 : Int) ≤ (DcrmSignTransaction (routerBridge (Except.ok 25) []) (some routerTx)
          args10).args.Extra.EthExtra.GasPrice :=
  ⟨by rfl,
    DcrmSignTransaction_gas_floor (routerBridge (Except.ok 25) []) (some routerTx) args10
      routerTx (by rfl)⟩

set_option maxRecDepth 100000 in
/-- Claim C16, the code at scenario S6: with a raw transaction built with gas price 10,
arguments of gas price 10 and a queried gas price of 25, the call succeeds, the
arguments (and with them the context sent to the signing service) end with gas price
25, and the signed transaction carries gas price 10: the gas floor does not reach
the transaction that is signed. -/
theorem DcrmSignTransaction_signed_price_stale :
    (DcrmSignTransaction (routerBridge (Except.ok 25) [rsv65]) (some routerTx) args10).err
        = none ∧
      (DcrmSignTransaction (routerBridge (Except.ok 25) [rsv65]) (some routerTx)
          args10).args.Extra.EthExtra.GasPrice = 25 ∧
      (DcrmSignTransaction (routerBridge (Except.ok 25) [rsv65]) (some routerTx)
          args10).signTx.map Transaction.GasPrice = some 10 ∧
      (DcrmSignTransaction (routerBridge (Except.ok 25) [rsv65]) (some routerTx)
          args10).signTx.map Transaction.GasPrice ≠
        some (DcrmSignTransaction (routerBridge (Except.ok 25) [rsv65]) (some routerTx)
          args10).args.Extra.EthExtra.GasPrice := by
  decide

/-- In every successful call in which the queried gas price `q` exceeds the gas price of
the arguments, the arguments end with `q` and the signed transaction is the raw
transaction with the signature attached, at the gas price of the raw transaction. For
a raw transaction built with the gas price of the arguments, the signed transaction
therefore carries a gas price below the one the arguments end with. -/
theorem DcrmSignTransaction_signed_price_of_raw (b : RouterBridge)
    (rawTx : Option Transaction) (args : BuildTxArgs) (q : Int)
    (hq : b.getGasPrice = Except.ok q) (hlt : args.Extra.EthExtra.GasPrice < q)
    (h : (DcrmSignTransaction b rawTx args).err = none) :
    (DcrmSignTransaction b rawTx args).args.Extra.EthExtra.GasPrice = q ∧
    ∃ tx signedTx, rawTx = some tx ∧
      (DcrmSignTransaction b rawTx args).signTx = some signedTx ∧
      signedTx.GasPrice = tx.GasPrice ∧
      (tx.GasPrice = args.Extra.EthExtra.GasPrice →
        signedTx.GasPrice < (DcrmSignTransaction b rawTx args).args.Extra.EthExtra.GasPrice) := by
  obtain ⟨tx, keyID, rsv, signedTx, sender, hg, hsd, hsig, hw, hs, hf⟩ :=
    DcrmSignTransaction_success b rawTx args h
  have hraw := ((verifyTransactionReceiver_ok b rawTx tx).1 hg).1
  have hargs : (DcrmSignTransaction b rawTx args).args.Extra.EthExtra.GasPrice = q := by
    rw [DcrmSignTransaction_args b rawTx args tx hg, hq]
    simp [applyGasFloor, hlt]
  have hsigned := WithSignature_ok tx b.Signer (b.FromHex rsv) signedTx hw
  have hprice : signedTx.GasPrice = tx.GasPrice := by rw [hsigned]
  refine ⟨hargs, tx, signedTx, hraw, ?_, hprice, ?_⟩
  · rw [DcrmSignTransaction_of_checks b rawTx args tx keyID rsv signedTx sender
      hg hsd hsig hw hs hf]
  · intro hbuilt
    rw [hargs, hprice, hbuilt]
    exact hlt

/-- Claim C17. `DcrmSignTransaction` returns no error exactly under the signing checks:
the receiver guard passes, the signing service returns no error and exactly one
signature, its decoding has the canonical 65 bytes, the signature is accepted, and
the sender recovered from the signed transaction equals the MPC address ignoring
case; the call then returns that signed transaction and its hash. In every other
case, for instance when the service returns two signatures or none, it returns an
error, a nil transaction and an empty hash. -/
theorem DcrmSignTransaction_checks (b : RouterBridge) (rawTx : Option Transaction)
    (args : BuildTxArgs) :
    ((DcrmSignTransaction b rawTx args).err = none ↔
      ∃ tx keyID rsv signedTx sender,
        verifyTransactionReceiver b rawTx = Except.ok tx ∧
        b.DoSignOne b.ChainConfig.RouterMPCPubkey (b.Signer.Hash tx)
          (b.Marshal (applyGasFloor b.getGasPrice args)) = (keyID, [rsv], none) ∧
        (b.FromHex rsv).length = 65 ∧
        WithSignature tx b.Signer (b.FromHex rsv) = Except.ok signedTx ∧
        b.Signer.Sender signedTx = Except.ok sender ∧
        EqualFold sender b.ChainConfig.RouterMPC = true) ∧
    ((DcrmSignTransaction b rawTx args).err = none →
      ∃ signedTx sender, (DcrmSignTransaction b rawTx args).signTx = some signedTx ∧
        b.Signer.Sender signedTx = Except.ok sender ∧
        EqualFold sender b.ChainConfig.RouterMPC = true ∧
        (DcrmSignTransaction b rawTx args).txHash = b.TxHash signedTx) ∧
    ((DcrmSignTransaction b rawTx args).err ≠ none →
      (DcrmSignTransaction b rawTx args).signTx = none ∧
        (DcrmSignTransaction b rawTx args).txHash = "") ∧
    (∀ tx, verifyTransactionReceiver b rawTx = Except.ok tx →
      (b.DoSignOne b.ChainConfig.RouterMPCPubkey (b.Signer.Hash tx)
        (b.Marshal (applyGasFloor b.getGasPrice args))).2.1.length ≠ 1 →
      (DcrmSignTransaction b rawTx args).err ≠ none) := by
  refine ⟨⟨fun h => DcrmSignTransaction_success b rawTx args h, ?_⟩, ?_,
    DcrmSignTransaction_failure b rawTx args, ?_⟩
  · rintro ⟨tx, keyID, rsv, signedTx, sender, hg, hsd, hsig, hw, hs, hf⟩
    rw [DcrmSignTransaction_of_checks b rawTx args tx keyID rsv signedTx sender
      hg hsd hsig hw hs hf]
  · intro h
    obtain ⟨tx, keyID, rsv, signedTx, sender, hg, hsd, hsig, hw, hs, hf⟩ :=
      DcrmSignTransaction_success b rawTx args h
    rw [DcrmSignTransaction_of_checks b rawTx args tx keyID rsv signedTx sender
      hg hsd hsig hw hs hf]
    exact ⟨signedTx, sender, rfl, hs, hf, rfl⟩
  · intro tx hg hlen h
    obtain ⟨tx', keyID, rsv, signedTx, sender, hg', hsd, _⟩ :=
      DcrmSignTransaction_success b rawTx args h
    rw [hg] at hg'
    cases hg'
    rw [hsd] at hlen
    exact hlen rfl

set_option maxRecDepth 100000 in
/-- With one signature of 65 bytes the call returns the signed transaction and its hash;
with two signatures, or none, it returns an error, no transaction and an empty
hash. -/
theorem DcrmSignTransaction_checks_witness :
    ((DcrmSignTransaction (routerBridge (Except.ok 25) [rsv65]) (some routerTx) args10).err
        = none ∧
      (DcrmSignTransaction (routerBridge (Except.ok 25) [rsv65]) (some routerTx)
        args10).signTx = some { routerTx with Signature := some (List.replicate 65 0x11) } ∧
      (DcrmSignTransaction (routerBridge (Except.ok 25) [rsv65]) (some routerTx)
        args10).txHash = "0xt7") ∧
    ((DcrmSignTransaction (routerBridge (Except.ok 25) [rsv65, rsv65]) (some routerTx)
        args10).err ≠ none ∧
      (DcrmSignTransaction (routerBridge (Except.ok 25) [rsv65, rsv65]) (some routerTx)
        args10).signTx = none ∧
      (DcrmSignTransaction (routerBridge (Except.ok 25) [rsv65, rsv65]) (some routerTx)
        args10).txHash = "") ∧
    ((DcrmSignTransaction (routerBridge (Except.ok 25) []) (some routerTx) args10).err
        ≠ none ∧
      (DcrmSignTransaction (routerBridge (Except.ok 25) []) (some routerTx)
        args10).signTx = none ∧
      (DcrmSignTransaction (routerBridge (Except.ok 25) []) (some routerTx)
        args10).txHash = "") :=
  ⟨by decide,
    ⟨(DcrmSignTransaction_checks (routerBridge (Except.ok 25) [rsv65, rsv65])
        (some routerTx) args10).2.2.2 routerTx (by rfl) (by decide),
      (DcrmSignTransaction_checks (routerBridge (Except.ok 25) [rsv65, rsv65])
        (some routerTx) args10).2.2.1
        ((DcrmSignTransaction_checks (routerBridge (Except.ok 25) [rsv65, rsv65])
          (some routerTx) args10).2.2.2 routerTx (by rfl) (by decide))⟩,
    by decide⟩

/-- Claim C18. Receiver guard: for a raw transaction whose receiver is nil, is the zero
address, or differs from the configured router contract ignoring case,
`DcrmSignTransaction` returns an error, no signed transaction and an empty hash, makes
no call (neither the gas price query nor the signing service) and leaves the
arguments as they were. The error is `[sign] tx receiver is empty` for a nil or zero
receiver and the `[sign] tx receiver mismatch` error, naming both addresses, for a
receiver that differs. -/
theorem DcrmSignTransaction_receiver_guard (b : RouterBridge) (tx : Transaction)
    (args : BuildTxArgs)
    (h : tx.To = none ∨ tx.To = some zeroAddress ∨
      ∃ rcv, tx.To = some rcv ∧ EqualFold rcv b.ChainConfig.RouterContract = false) :
    ((DcrmSignTransaction b (some tx) args).err ≠ none ∧
      (DcrmSignTransaction b (some tx) args).signTx = none ∧
      (DcrmSignTransaction b (some tx) args).txHash = "" ∧
      (DcrmSignTransaction b (some tx) args).calls = [] ∧
      (DcrmSignTransaction b (some tx) args).args = args) ∧
    (tx.To = none ∨ tx.To = some zeroAddress →
      (DcrmSignTransaction b (some tx) args).err
        = some (Error.other "[sign] tx receiver is empty")) ∧
    (∀ rcv, tx.To = some rcv → rcv ≠ zeroAddress →
      EqualFold rcv b.ChainConfig.RouterContract = false →
      (DcrmSignTransaction b (some tx) args).err
        = some (Error.other ("[sign] tx receiver mismatch. have " ++ rcv ++ " want "
            ++ b.ChainConfig.RouterContract))) := by
  have hempty : tx.To = none ∨ tx.To = some zeroAddress →
      verifyTransactionReceiver b (some tx)
        = Except.error (Error.other "[sign] tx receiver is empty") := by
    intro he
    simp [verifyTransactionReceiver, he]
  have hdiff : ∀ rcv, tx.To = some rcv → rcv ≠ zeroAddress →
      EqualFold rcv b.ChainConfig.RouterContract = false →
      verifyTransactionReceiver b (some tx)
        = Except.error (Error.other ("[sign] tx receiver mismatch. have " ++ rcv ++ " want "
            ++ b.ChainConfig.RouterContract)) := by
    intro rcv hto hz hf
    simp [verifyTransactionReceiver, hto, hz, hf]
  have hrefused : ∃ e, verifyTransactionReceiver b (some tx) = Except.error e := by
    rcases h with h | h | ⟨rcv, hto, hf⟩
    · exact ⟨_, hempty (Or.inl h)⟩
    · exact ⟨_, hempty (Or.inr h)⟩
    · by_cases hz : rcv = zeroAddress
      · exact ⟨_, hempty (Or.inr (hz ▸ hto))⟩
      · exact ⟨_, hdiff rcv hto hz hf⟩
  obtain ⟨e, he⟩ := hrefused
  refine ⟨?_, ?_, ?_⟩
  · rw [DcrmSignTransaction_refused b (some tx) args e he]
    exact ⟨fun hn => Option.noConfusion hn, rfl, rfl, rfl, rfl⟩
  · intro hc
    rw [DcrmSignTransaction_refused b (some tx) args _ (hempty hc)]
  · intro rcv hto hz hf
    rw [DcrmSignTransaction_refused b (some tx) args _ (hdiff rcv hto hz hf)]

set_option maxRecDepth 100000 in
/-- A raw transaction to the MPC address instead of the router contract is refused with
the mismatch error before any call, and the arguments keep gas price 10 although the
gateway would answer 25. -/
theorem DcrmSignTransaction_receiver_guard_witness :
    (strayTx.To = none ∨ strayTx.To = some zeroAddress ∨
      ∃ rcv, strayTx.To = some rcv ∧
        EqualFold rcv (routerBridge (Except.ok 25) [rsv65]).ChainConfig.RouterContract
          = false) ∧
    DcrmSignTransaction (routerBridge (Except.ok 25) [rsv65]) (some strayTx) args10 =
      { signTx := none, txHash := "",
        err := some (Error.other ("[sign] tx receiver mismatch. have " ++ mpcAddress
          ++ " want " ++ routerAddress)),
        args := args10, calls := [] } ∧
    (DcrmSignTransaction (routerBridge (Except.ok 25) [rsv65]) (some strayTx) args10).calls
      = [] :=
  ⟨Or.inr (Or.inr ⟨mpcAddress, rfl, by decide⟩), by decide,
    (DcrmSignTransaction_receiver_guard (routerBridge (Except.ok 25) [rsv65]) strayTx args10
      (Or.inr (Or.inr ⟨mpcAddress, rfl, by decide⟩))).1.2.2.2.1⟩

/-! ## Chain-id verification -/

/-- A gateway whose first answer without error is `chainID`, at the query number `k`,
ends the retry loop with `chainID` as soon as the loop is followed that far. -/
theorem queryChainID_first (ChainID : Nat → Except Error Nat) (k chainID : Nat)
    (hk : ChainID k = Except.ok chainID)
    (hbefore : ∀ i, i < k → ∃ e, ChainID i = Except.error e) :
    ∀ fuel attempt, attempt ≤ k → k < attempt + fuel →
      queryChainID ChainID fuel attempt = some chainID := by
  intro fuel
  induction fuel with
  | zero => intro attempt h1 h2; omega
  | succ fuel ih =>
    intro attempt h1 h2
    by_cases heq : attempt = k
    · subst heq
      simp [queryChainID, hk]
    · obtain ⟨e, he⟩ := hbefore attempt (by omega)
      simp only [queryChainID, he]
      exact ih (attempt + 1) (by omega) (by omega)

/-- For the network `custom`, in any letter case, `VerifyChainID` returns at once and
leaves the adapter as it was: the gateway is not asked and the signer is not set. -/
theorem VerifyChainID_custom (fuel : Nat) (b : EthBridge) (h : ToLower b.NetID = "custom") :
    VerifyChainID fuel b = Outcome.returned b := by
  simp [VerifyChainID, h]

/-- For the networks `mainnet` and `rinkeby`, once the gateway has answered `chainID`,
`VerifyChainID` aborts when the low 64 bits of `chainID` are not the number of the
network (1 and 4), and otherwise returns with the EIP155 signer of `chainID`. -/
theorem VerifyChainID_checked (fuel : Nat) (b : EthBridge) (k chainID target : Nat)
    (hnet : ToLower b.NetID = "mainnet" ∧ target = 1 ∨
      ToLower b.NetID = "rinkeby" ∧ target = 4)
    (hk : b.ChainID k = Except.ok chainID)
    (hbefore : ∀ i, i < k → ∃ e, b.ChainID i = Except.error e) (hfuel : k < fuel) :
    VerifyChainID fuel b =
      if chainID % uint64Size = target then
        Outcome.returned { b with Signer := some (b.MakeSigner "EIP155" chainID) }
      else
        Outcome.aborted ("gateway chainID " ++ toString chainID ++ " is not " ++ b.NetID) := by
  have hq : queryChainID b.ChainID fuel 0 = some chainID :=
    queryChainID_first b.ChainID k chainID hk hbefore fuel 0 (Nat.zero_le k) (by omega)
  rcases hnet with ⟨hn, ht⟩ | ⟨hn, ht⟩
  · subst ht
    by_cases hc : chainID % uint64Size = 1
    · simp [VerifyChainID, hn, hq, checkChainID, hc]
    · simp [VerifyChainID, hn, hq, checkChainID, hc]
  · subst ht
    by_cases hc : chainID % uint64Size = 4
    · simp [VerifyChainID, hn, hq, checkChainID, hc]
    · simp [VerifyChainID, hn, hq, checkChainID, hc]

/-- Claim C21, the code at the network `custom`: `VerifyChainID` returns without
aborting and the signer of the adapter is still nil, whether the gateway answers at
once or after two failures, and in any letter case of the network id. Moreover, for
`mainnet` a gateway whose chain id is `2 ^ 64 + 1` passes the check, which compares
the low 64 bits, and the signer is then the EIP155 signer of that chain id. -/
theorem VerifyChainID_custom_no_signer :
    signerAfter (VerifyChainID 1 (chainBridge "custom" 0 1337)) = some none ∧
    signerAfter (VerifyChainID 3 (chainBridge "Custom" 2 1337)) = some none ∧
    signerAfter (VerifyChainID 1 (chainBridge "mainnet" 0 (2 ^ 64 + 1)))
      = some (some (exampleMakeSigner "EIP155" (2 ^ 64 + 1))) ∧
    signerAfter (VerifyChainID 3 (chainBridge "Rinkeby" 2 4))
      = some (some (exampleMakeSigner "EIP155" 4)) ∧
    signerAfter (VerifyChainID 1 (chainBridge "mainnet" 0 4)) = none := by
  refine ⟨rfl, rfl, ?_, ?_, ?_⟩
  · rw [VerifyChainID_checked 1 (chainBridge "mainnet" 0 (2 ^ 64 + 1)) 0 (2 ^ 64 + 1) 1
      (Or.inl ⟨by decide, rfl⟩) rfl (fun i hi => absurd hi (Nat.not_lt_zero i)) (by decide)]
    rw [if_pos (by norm_num [uint64Size])]
    rfl
  · rw [VerifyChainID_checked 3 (chainBridge "Rinkeby" 2 4) 2 4 4
      (Or.inr ⟨by decide, rfl⟩) rfl
      (fun i hi => ⟨Error.other "connection refused", by simp [chainBridge, hi]⟩)
      (by decide)]
    rw [if_pos (by norm_num [uint64Size])]
    rfl
  · rw [VerifyChainID_checked 1 (chainBridge "mainnet" 0 4) 0 4 1
      (Or.inl ⟨by decide, rfl⟩) rfl (fun i hi => absurd hi (Nat.not_lt_zero i)) (by decide)]
    rw [if_neg (by norm_num [uint64Size])]
    rfl

/-! ## The memo decoder in machine arithmetic -/

/-- A size below `2 ^ 63` is the same number as a Go `int`. -/
theorem toInt_of_lt (size : Nat) (h : size < 2 ^ 63) : toInt size = Int.ofNat size := by
  have h64 : size % uint64Size = size :=
    Nat.mod_eq_of_lt (lt_trans h (by norm_num [uint64Size]))
  unfold toInt
  rw [h64, if_pos h]

/-- A read that lies inside the data returns exactly the bytes read: nothing is clamped,
nothing wraps around and nothing is padded. -/
theorem GetDataGo_of_le (data : List UInt8) (start size : Nat)
    (hlen : data.length < 2 ^ 63) (h : start + size ≤ data.length) :
    GetDataGo data start size = some ((data.drop start).take size) := by
  have h1 : ¬ start > data.length := by omega
  have hmod : (start + size) % uint64Size = start + size :=
    Nat.mod_eq_of_lt (by unfold uint64Size; omega)
  have h2 : ¬ start + size > data.length := by omega
  have h3 : ¬ start + size < start := by omega
  have hl : ((data.drop start).take (start + size - start)).length = size := by
    simp only [List.length_take, List.length_drop]; omega
  have hint : toInt size = Int.ofNat size := toInt_of_lt size (by omega)
  simp only [GetDataGo, h1, if_false, hmod, h2, h3]
  have hpad : RightPadBytesGo ((data.drop start).take (start + size - start)) (toInt size)
      = (data.drop start).take (start + size - start) := by
    unfold RightPadBytesGo
    rw [if_pos (by rw [hint, hl])]
  rw [hpad, Nat.add_sub_cancel_left]

/-- For a size below `2 ^ 63` nothing wraps around and the read never panics: it returns
the clamped slice padded with zeros to `size` bytes. -/
theorem GetDataGo_eq_GetData (data : List UInt8) (start size : Nat)
    (hlen : data.length < 2 ^ 63) (hsize : size < 2 ^ 63) :
    GetDataGo data start size = some (GetData data start size) := by
  have hint : toInt size = Int.ofNat size := toInt_of_lt size hsize
  have key : ∀ s, s ≤ data.length →
      (if (if (s + size) % uint64Size > data.length then data.length
            else (s + size) % uint64Size) < s then none
        else some (RightPadBytesGo
          ((data.drop s).take
            ((if (s + size) % uint64Size > data.length then data.length
              else (s + size) % uint64Size) - s)) (toInt size)))
      = some (RightPadBytes
          ((data.drop s).take ((if s + size > data.length then data.length else s + size) - s))
          size) := by
    intro s hs
    have hmod : (s + size) % uint64Size = s + size :=
      Nat.mod_eq_of_lt (by unfold uint64Size; omega)
    rw [hmod]
    have hge : ¬ (if s + size > data.length then data.length else s + size) < s := by
      split <;> omega
    rw [if_neg hge]
    congr 1
    unfold RightPadBytesGo RightPadBytes
    rw [hint]
    have hl : ((data.drop s).take
        ((if s + size > data.length then data.length else s + size) - s)).length ≤ size := by
      simp only [List.length_take, List.length_drop]
      split <;> omega
    by_cases heq : ((data.drop s).take
        ((if s + size > data.length then data.length else s + size) - s)).length = size
    · rw [if_pos (by rw [heq]), heq, Nat.sub_self, List.replicate_zero, List.append_nil]
    · rw [if_neg (by
        intro hle
        have := Int.ofNat_le.mp hle
        omega)]
      rfl
  unfold GetDataGo GetData
  by_cases h1 : start > data.length
  · simp only [h1, if_true]
    exact key data.length (le_refl _)
  · simp only [h1, if_false]
    exact key start (by omega)

/-- A read whose clamped start plus size reaches `2 ^ 64` panics: `end` wraps around to a
position below `start`. -/
theorem GetDataGo_wrap (data : List UInt8) (start size : Nat)
    (hlen : data.length < 2 ^ 63) (hsize : size < uint64Size)
    (hwrap : uint64Size ≤ min start data.length + size) :
    GetDataGo data start size = none := by
  have key : ∀ s, s ≤ data.length → uint64Size ≤ s + size →
      (if (if (s + size) % uint64Size > data.length then data.length
            else (s + size) % uint64Size) < s then (none : Option (List UInt8))
        else some (RightPadBytesGo
          ((data.drop s).take
            ((if (s + size) % uint64Size > data.length then data.length
              else (s + size) % uint64Size) - s)) (toInt size))) = none := by
    intro s hs hw
    have hmod : (s + size) % uint64Size = s + size - uint64Size := by
      rw [Nat.mod_eq_sub_mod hw, Nat.mod_eq_of_lt (by unfold uint64Size at *; omega)]
    rw [hmod]
    have hlt : (if s + size - uint64Size > data.length then data.length
        else s + size - uint64Size) < s := by
      split <;> omega
    rw [if_pos hlt]
  unfold GetDataGo
  by_cases h1 : start > data.length
  · simp only [h1, if_true]
    exact key data.length (le_refl _) (by rw [min_eq_right (by omega)] at hwrap; exact hwrap)
  · simp only [h1, if_false]
    exact key start (by omega) (by rw [min_eq_left (by omega)] at hwrap; exact hwrap)

/-- A word read never panics: `common.GetUint64(data, offset, 32)` returns the low 64 bits
of the word at `offset` and whether the word exceeds them. -/
theorem GetUint64Go_word (data : List UInt8) (offset : Nat) (hlen : data.length < 2 ^ 63) :
    GetUint64Go data offset 32
      = some (wordAt data offset % uint64Size, decide (uint64Size ≤ wordAt data offset)) := by
  unfold GetUint64Go GetBigIntGo
  rw [GetDataGo_eq_GetData data offset 32 hlen (by norm_num)]
  rfl

/-- The value read at the start of the data. -/
theorem GetBigIntGo_value (data : List UInt8) (hlen : data.length < 2 ^ 63)
    (h32 : 32 ≤ data.length) :
    GetBigIntGo data 0 32 = some (Int.ofNat (bytesToNat (data.take 32))) := by
  unfold GetBigIntGo
  rw [GetDataGo_of_le data 0 32 hlen (by omega), List.drop_zero]
  rfl

/-- The decoder on an input of at least 96 bytes whose offset word `o` and length word `n`
fit in 64 bits: everything is decided by the read of the bind, `n` bytes from
`o + 32` in `uint64` arithmetic. -/
theorem parseEncodedDataGo_of_words (encData : List UInt8) (o n : Nat)
    (hlen : encData.length < 2 ^ 63) (h96 : ¬ encData.length < 96)
    (ho : o = wordAt encData 32) (ho64 : o < uint64Size)
    (hn : n = wordAt encData o) (hn64 : n < uint64Size) :
    parseEncodedDataGo encData
      = (GetDataGo encData ((o + 32) % uint64Size) n).map
          (fun bind => (string bind, some (Int.ofNat (bytesToNat (encData.take 32))), none)) := by
  have hv := GetBigIntGo_value encData hlen (by omega)
  have h1 := GetUint64Go_word encData 32 hlen
  rw [← ho, Nat.mod_eq_of_lt ho64] at h1
  have h2 := GetUint64Go_word encData o hlen
  rw [← hn, Nat.mod_eq_of_lt hn64] at h2
  have ho' : decide (uint64Size ≤ o) = false := by simpa using ho64
  have hn' : decide (uint64Size ≤ n) = false := by simpa using hn64
  rw [ho'] at h1
  rw [hn'] at h2
  unfold parseEncodedDataGo
  rw [if_neg h96]
  simp only [hv, h1, h2, Bool.false_eq_true, if_false]
  cases GetDataGo encData ((o + 32) % uint64Size) n <;> rfl

/-- The errors of the decoder, on a Go byte string (shorter than `2 ^ 63` bytes): it returns
an error exactly when the input has fewer than 96 bytes, or the offset word does not
fit in 64 bits, or the word read at that offset does not fit in 64 bits; the error
comes with an empty bind and a nil value. -/
theorem parseEncodedDataGo_error_iff (encData : List UInt8) (hlen : encData.length < 2 ^ 63) :
    ((∃ r, parseEncodedDataGo encData = some r ∧ r.2.2 ≠ none) ↔
      encData.length < 96 ∨
      uint64Size ≤ bytesToNat ((encData.drop 32).take 32) ∨
      uint64Size ≤ wordAt encData (bytesToNat ((encData.drop 32).take 32) % uint64Size)) ∧
    (∀ r, parseEncodedDataGo encData = some r → r.2.2 ≠ none → r.1 = "" ∧ r.2.1 = none) := by
  by_cases h96 : encData.length < 96
  · have hp : parseEncodedDataGo encData
        = some ("", none, some (Error.other "wrong lenght of encoded data")) := by
      unfold parseEncodedDataGo
      rw [if_pos h96]
    refine ⟨⟨fun _ => Or.inl h96, fun _ => ⟨_, hp, by simp⟩⟩, ?_⟩
    intro r hr _
    rw [hp] at hr
    cases hr
    exact ⟨rfl, rfl⟩
  · have h32 : wordAt encData 32 = bytesToNat ((encData.drop 32).take 32) :=
      wordAt_of_le encData 32 (by omega)
    rw [← h32]
    have hv := GetBigIntGo_value encData hlen (by omega)
    have h1 := GetUint64Go_word encData 32 hlen
    by_cases hoff : uint64Size ≤ wordAt encData 32
    · have hp : parseEncodedDataGo encData
          = some ("", none, some (Error.other "string offset overflow")) := by
        unfold parseEncodedDataGo
        rw [if_neg h96]
        simp [hv, h1, hoff]
      refine ⟨⟨fun _ => Or.inr (Or.inl hoff), fun _ => ⟨_, hp, by simp⟩⟩, ?_⟩
      intro r hr _
      rw [hp] at hr
      cases hr
      exact ⟨rfl, rfl⟩
    · have hmod : wordAt encData 32 % uint64Size = wordAt encData 32 :=
        Nat.mod_eq_of_lt (not_le.mp hoff)
      rw [hmod]
      by_cases hl : uint64Size ≤ wordAt encData (wordAt encData 32)
      · have h2 := GetUint64Go_word encData (wordAt encData 32) hlen
        have hp : parseEncodedDataGo encData
            = some ("", none, some (Error.other "string length overflow")) := by
          unfold parseEncodedDataGo
          rw [if_neg h96]
          simp [hv, h1, hoff, hmod, h2, hl]
        refine ⟨⟨fun _ => Or.inr (Or.inr hl), fun _ => ⟨_, hp, by simp⟩⟩, ?_⟩
        intro r hr _
        rw [hp] at hr
        cases hr
        exact ⟨rfl, rfl⟩
      · have hp := parseEncodedDataGo_of_words encData (wordAt encData 32)
          (wordAt encData (wordAt encData 32)) hlen h96 rfl (not_le.mp hoff) rfl
          (not_le.mp hl)
        have hnoerr : ∀ r, parseEncodedDataGo encData = some r → r.2.2 = none := by
          intro r hr
          rw [hp] at hr
          cases hg : GetDataGo encData ((wordAt encData 32 + 32) % uint64Size)
              (wordAt encData (wordAt encData 32)) with
          | none => rw [hg] at hr; cases hr
          | some bind => rw [hg] at hr; cases hr; rfl
        refine ⟨⟨?_, ?_⟩, ?_⟩
        · rintro ⟨r, hr, hne⟩
          exact absurd (hnoerr r hr) hne
        · rintro (h | h | h)
          · exact absurd h h96
          · exact absurd h hoff
          · exact absurd h hl
        · intro r hr hne
          exact absurd (hnoerr r hr) hne

/-- The panic of the decoder: when neither word overflows and the clamped start of the
bind plus its length reaches `2 ^ 64`, the read of the bind panics and the decoder
returns neither a value nor an error. -/
theorem parseEncodedDataGo_panics (encData : List UInt8) (o n : Nat)
    (hlen : encData.length < 2 ^ 63) (h96 : ¬ encData.length < 96)
    (ho : o = wordAt encData 32) (ho64 : o < uint64Size)
    (hn : n = wordAt encData o) (hn64 : n < uint64Size)
    (hwrap : uint64Size ≤ min ((o + 32) % uint64Size) encData.length + n) :
    parseEncodedDataGo encData = none := by
  rw [parseEncodedDataGo_of_words encData o n hlen h96 ho ho64 hn hn64,
    GetDataGo_wrap encData ((o + 32) % uint64Size) n hlen hn64 hwrap]
  rfl

set_option maxRecDepth 100000 in
/-- Claim C11, the code at an input whose length word is `2 ^ 64 - 1`: the 96 bytes of
`overlongMemo` hold the value 7, the string offset 64 and the length `2 ^ 64 - 1`, so
the input is not short and neither word overflows 64 bits; the read of the bind,
`GetData(encData, 96, 2^64-1)`, wraps `end` around to 95 and panics on the slice
`data[96:95]`, and `parseEncodedData` returns neither the value nor an error. -/
theorem parseEncodedDataGo_overlong :
    overlongMemo.length = 96 ∧
    bytesToNat (overlongMemo.take 32) = 7 ∧
    bytesToNat ((overlongMemo.drop 32).take 32) = 64 ∧
    bytesToNat ((overlongMemo.drop 64).take 32) = 2 ^ 64 - 1 ∧
    ¬ (overlongMemo.length < 96 ∨ uint64Size ≤ 64 ∨ uint64Size ≤ 2 ^ 64 - 1) ∧
    (96 + (2 ^ 64 - 1)) % uint64Size = 95 ∧
    GetDataGo overlongMemo 96 (2 ^ 64 - 1) = none ∧
    parseEncodedDataGo overlongMemo = none := by
  decide

set_option maxRecDepth 100000 in
/-- Claim C22 as stated fails: the 96 bytes of `truncatedMemo` decode without error with
string offset 64 and string length 5, so that `64 + 32 + 5` exceeds the length of the
input, and the bind is five zero bytes, none of which is a byte of the input. -/
theorem parseEncodedDataGo_bind_outside :
    parseEncodedDataGo truncatedMemo
      = some (string [0, 0, 0, 0, 0], some 1000000, none) ∧
    truncatedMemo.length = 96 ∧
    bytesToNat ((truncatedMemo.drop 32).take 32) = 64 ∧
    bytesToNat ((truncatedMemo.drop 64).take 32) = 5 ∧
    ¬ (64 + 32 + 5 ≤ truncatedMemo.length) ∧
    string [0, 0, 0, 0, 0] ≠ string ((truncatedMemo.drop (64 + 32)).take 5) := by
  decide

/-- Claim C22, as the code has it. For a Go byte string (shorter than `2 ^ 63` bytes) with
string offset `o` and string length `n` such that `o + 32 + n` is within the input:
whenever `parseEncodedData` succeeds, the bind is exactly the `n` bytes
`encData[o+32 .. o+32+n)`, with no padding or truncation, and it does succeed when
the input has at least 96 bytes. -/
theorem parseEncodedDataGo_bind (encData : List UInt8) (o n : Nat)
    (hlen : encData.length < 2 ^ 63)
    (ho : o = bytesToNat ((encData.drop 32).take 32))
    (hn : n = bytesToNat ((encData.drop o).take 32))
    (hin : o + 32 + n ≤ encData.length) :
    (∀ bind value, parseEncodedDataGo encData = some (bind, value, none) →
      bind = string ((encData.drop (o + 32)).take n)) ∧
    (96 ≤ encData.length →
      parseEncodedDataGo encData
        = some (string ((encData.drop (o + 32)).take n),
            some (Int.ofNat (bytesToNat (encData.take 32))), none)) := by
  have hsucc : ¬ encData.length < 96 →
      parseEncodedDataGo encData
        = some (string ((encData.drop (o + 32)).take n),
            some (Int.ofNat (bytesToNat (encData.take 32))), none) := by
    intro h96
    have ho' : o = wordAt encData 32 := by
      rw [ho, wordAt_of_le encData 32 (by omega)]
    have hn' : n = wordAt encData o := by
      rw [hn, wordAt_of_le encData o (by omega)]
    have ho64 : o < uint64Size := by unfold uint64Size; omega
    have hn64 : n < uint64Size := by unfold uint64Size; omega
    have hmod : (o + 32) % uint64Size = o + 32 :=
      Nat.mod_eq_of_lt (by unfold uint64Size; omega)
    rw [parseEncodedDataGo_of_words encData o n hlen h96 ho' ho64 hn' hn64, hmod,
      GetDataGo_of_le encData (o + 32) n hlen hin]
    rfl
  constructor
  · intro bind value h
    by_cases h96 : encData.length < 96
    · unfold parseEncodedDataGo at h
      rw [if_pos h96] at h
      simp at h
    · rw [hsucc h96] at h
      simp only [Option.some.injEq, Prod.mk.injEq] at h
      exact h.1.symm
  · intro h96
    exact hsucc (by omega)

set_option maxRecDepth 100000 in
/-- The encoding of `(1000000, "0xb1d")` decodes to the five bytes of `0xb1d`, read at
position 96 of its 128 bytes. -/
theorem parseEncodedDataGo_bind_witness :
    ((encode 1000000 bindBytes).length < 2 ^ 63 ∧
      64 = bytesToNat (((encode 1000000 bindBytes).drop 32).take 32) ∧
      5 = bytesToNat (((encode 1000000 bindBytes).drop 64).take 32) ∧
      64 + 32 + 5 ≤ (encode 1000000 bindBytes).length ∧
      96 ≤ (encode 1000000 bindBytes).length) ∧
    parseEncodedDataGo (encode 1000000 bindBytes)
      = some (string (((encode 1000000 bindBytes).drop (64 + 32)).take 5),
          some (Int.ofNat (bytesToNat ((encode 1000000 bindBytes).take 32))), none) ∧
    ((encode 1000000 bindBytes).drop (64 + 32)).take 5 = bindBytes :=
  ⟨⟨by decide, by decide, by decide, by decide, by decide⟩,
    (parseEncodedDataGo_bind (encode 1000000 bindBytes) 64 5 (by decide) (by decide)
      (by decide) (by decide)).2 (by decide),
    by decide⟩

end CCB
